import Mathlib

/-!
# UniMate chat pipeline

A shallow embedding of `apps/api/src/controllers/chatController.js` and of the
`Conversation` schema (`apps/api/src/models/Conversation.js`).

* The document store is a list of conversations in natural (insertion) order;
  `findOne` returns the first document matching its filter.
* `await axios.post(...)` is an input of the handler (`UpstreamResult`): either the
  payload of a 2xx reply or the error object that was thrown.
* Clock reads and the freshly generated `ObjectId` are inputs (`Env`).
* A handler returns the response it wrote, the store it left behind, the request it
  sent upstream (if any) and the store after each completed `save()`.
-/

namespace UniMate

/-! ## JavaScript values and strings -/

/-- The values `req.body.message` may take, as far as the handler inspects it. -/
inductive JsValue where
  | undefined
  | null
  | bool (b : Bool)
  | number (n : Int)
  | string (s : String)
  | object
  deriving DecidableEq, Repr

/-- The code points ECMAScript counts as WhiteSpace or LineTerminator: what
`String.prototype.trim` strips. -/
def isJsWhiteSpace (c : Char) : Bool :=
  let n := c.toNat
  n == 0x09 || n == 0x0A || n == 0x0B || n == 0x0C || n == 0x0D || n == 0x20 ||
  n == 0xA0 || n == 0x1680 || (0x2000 ≤ n && n ≤ 0x200A) || n == 0x2028 ||
  n == 0x2029 || n == 0x202F || n == 0x205F || n == 0x3000 || n == 0xFEFF

/-- The method `String.prototype.trim` on lists of characters. -/
def trimChars (cs : List Char) : List Char :=
  ((cs.dropWhile isJsWhiteSpace).reverse.dropWhile isJsWhiteSpace).reverse

/-- The method `String.prototype.trim`. -/
def jsTrim (s : String) : String := ⟨trimChars s.data⟩

/-- The method `String.prototype.includes` on lists of characters. -/
def includesChars (sub : List Char) : List Char → Bool
  | [] => sub.isEmpty
  | c :: cs => sub.isPrefixOf (c :: cs) || includesChars sub cs

/-- The method `String.prototype.includes`. -/
def jsIncludes (s sub : String) : Bool := includesChars sub.data s.data

/-- Truthiness of an optional string property: absent and `''` are falsy. -/
def truthy : Option String → Bool
  | some s => s != ""
  | none => false

/-- The expression `x || d` for an optional string property `x`. -/
def orDefault (x : Option String) (d : String) : String :=
  match x with
  | some s => if s != "" then s else d
  | none => d

/-- The method `Array.prototype.slice(start)` with one (possibly negative) argument. -/
def jsSlice {α : Type} (xs : List α) (start : Int) : List α :=
  let len : Int := xs.length
  let k : Int := if start < 0 then max (len + start) 0 else min start len
  xs.drop k.toNat

/-! ## Data model (`models/Conversation.js`) -/

/-- A plain object used as a string-keyed map (`Mixed` in the schema): its own
enumerable properties in order. -/
abbrev Prefs := List (String × JsValue)

/-- Property read `p[k]`. -/
def Prefs.get : Prefs → String → Option JsValue
  | [], _ => none
  | (k', v) :: t, k => if k' = k then some v else Prefs.get t k

/-- Property write `p[k] = v`: an existing key keeps its position, a new key goes last. -/
def Prefs.set : Prefs → String → JsValue → Prefs
  | [], k, v => [(k, v)]
  | (k', v') :: t, k, v => if k' = k then (k, v) :: t else (k', v') :: Prefs.set t k v

/-- Object spread `{ ...a, ...b }`. -/
def spread (a b : Prefs) : Prefs :=
  b.foldl (fun acc kv => Prefs.set acc kv.1 kv.2) a

/-- A sub-document of `messageSchema`. -/
structure Message where
  role : String
  content : String
  timestamp : Nat
  sources : List String
  deriving DecidableEq, Repr

/-- The `context` sub-object of `conversationSchema`. -/
structure Context where
  university : String
  stage : String
  preferences : Prefs
  deriving DecidableEq, Repr

/-- A document of `conversationSchema`; `_id` and `userId` are ObjectIds in their
canonical (lower-case, 24 hex digits) string form. -/
structure Conversation where
  _id : String
  userId : String
  sessionId : String
  messages : List Message
  context : Context
  createdAt : Nat
  updatedAt : Nat
  deriving DecidableEq, Repr

/-- The collection, in natural order. -/
abbrev Store := List Conversation

/-- The query `Conversation.findOne(filter)`: no sort is requested, so the first
matching document in natural order. -/
def findOne (store : Store) (filter : Conversation → Bool) : Option Conversation :=
  store.find? filter

/-- The document with a given `_id`, if stored. -/
def findById (store : Store) (id : String) : Option Conversation :=
  findOne store (fun c => c._id == id)

/-- Replace the first document whose `_id` is that of `c` (an `updateOne` by `_id`). -/
def replaceById : Store → Conversation → Store
  | [], _ => []
  | d :: t, c => if d._id = c._id then c :: t else d :: replaceById t c

/-- The setter of `messageSchema` applied when a plain object is pushed onto
`messages`: `content` has `trim: true`. -/
def castMessage (m : Message) : Message :=
  { m with content := jsTrim m.content }

/-- Validators of `messageSchema`: `role` is in the enum, `content` is required
(a required string is rejected when empty). -/
def validMessage (m : Message) : Bool :=
  (m.role == "user" || m.role == "assistant") && m.content != ""

/-- Index of the first message failing validation. -/
def firstInvalid : List Message → Nat → Option Nat
  | [], _ => none
  | m :: t, i => if validMessage m then firstInvalid t (i + 1) else some i

/-- Validation run by `save()`: `sessionId` is required, every message is valid.
Returns the text of the `ValidationError`, if any. -/
def validate (c : Conversation) : Option String :=
  if c.sessionId == "" then
    some "Conversation validation failed: sessionId: Session ID is required"
  else
    match firstInvalid c.messages 0 with
    | some i =>
      some ("Conversation validation failed: messages." ++ toString i ++
        ".content: Message content is required")
    | none => none

/-- A document held by a handler: the data and mongoose's `isNew` flag. -/
structure Doc where
  conv : Conversation
  isNew : Bool
  deriving DecidableEq, Repr

/-- The call `doc.save()` at time `t`: validate, then insert a new document (the
unique index on `_id` rejects a duplicate) or update the stored one by `_id`;
`timestamps: true` sets `createdAt`/`updatedAt`. The error is the thrown message. -/
def save (store : Store) (d : Doc) (t : Nat) : Except String (Store × Doc) :=
  match validate d.conv with
  | some msg => .error msg
  | none =>
    if d.isNew then
      if (findById store d.conv._id).isSome then
        .error "E11000 duplicate key error"
      else
        let c := { d.conv with createdAt := t, updatedAt := t }
        .ok (store ++ [c], { conv := c, isNew := false })
    else
      if (findById store d.conv._id).isSome then
        let c := { d.conv with updatedAt := t }
        .ok (replaceById store c, { conv := c, isNew := false })
      else
        .error "No document found for query"

/-! ## Requests, responses, the upstream service -/

/-- The authenticated user attached by `verifyToken`. -/
structure User where
  _id : Option String
  email : String
  role : String
  deriving DecidableEq, Repr

/-- The `context` object of a send request. -/
structure ReqContext where
  sessionId : Option String
  university : Option String
  stage : Option String
  preferences : Option Prefs
  deriving DecidableEq, Repr

/-- The empty object `{}` used when `context` is absent. -/
def ReqContext.empty : ReqContext :=
  { sessionId := none, university := none, stage := none, preferences := none }

/-- The JSON body of `POST /chat/send`. -/
structure Body where
  message : JsValue
  context : Option ReqContext
  deriving DecidableEq, Repr

/-- A request of `POST /chat/send` as the handler sees it. -/
structure Request where
  user : Option User
  body : Body
  deriving DecidableEq, Repr

/-- An entry of `conversation_history`. -/
structure HistoryEntry where
  role : String
  content : String
  deriving DecidableEq, Repr

/-- The `context` object posted to the AI service. -/
structure UpstreamContext where
  university : String
  stage : String
  preferences : Prefs
  conversation_history : List HistoryEntry
  deriving DecidableEq, Repr

/-- The body posted to `AI_SERVICE_URL/ai/chat`. -/
structure UpstreamRequest where
  message : String
  context : UpstreamContext
  userId : String
  sessionId : String
  deriving DecidableEq, Repr

/-- The payload `response.data` of a 2xx reply. -/
structure AiPayload where
  message : Option String
  response : Option String
  content : Option String
  sources : Option (List String)
  context : Option Context
  deriving DecidableEq, Repr

/-- The part `error.response` of an axios error. -/
structure ErrorResponse where
  status : Option Nat
  dataMessage : Option String
  deriving DecidableEq, Repr

/-- The error thrown by `axios.post`. -/
structure AxiosError where
  code : Option String
  message : String
  response : Option ErrorResponse
  deriving DecidableEq, Repr

/-- What `await axios.post(...)` does: return a payload or throw. -/
inductive UpstreamResult where
  | ok (data : AiPayload)
  | error (e : AxiosError)
  deriving DecidableEq, Repr

/-- The response written by a handler: the status and the JSON body's fields. -/
structure Response where
  status : Nat
  success : Bool
  message : String
  error : Option String
  sources : Option (List String)
  context : Option Context
  deriving DecidableEq, Repr

/-- The call `res.status(status).json({ success: false, message, error })`. -/
def failure (status : Nat) (message : String) (error : Option String) : Response :=
  { status := status, success := false, message := message, error := error,
    sources := none, context := none }

/-- Inputs a handler reads from its environment. -/
structure Env where
  now : Nat
  newId : String
  userTime : Nat
  save1Time : Nat
  aiTime : Nat
  save2Time : Nat
  development : Bool
  deriving DecidableEq, Repr

/-- What a handler did. -/
structure Outcome where
  response : Response
  store : Store
  sent : Option UpstreamRequest
  saves : List Store
  deriving DecidableEq, Repr

/-! ## `sendMessage` (`controllers/chatController.js`) -/

/-- The test `!v` on a JavaScript value. -/
def JsValue.falsy : JsValue → Bool
  | .undefined => true
  | .null => true
  | .bool b => !b
  | .number n => n == 0
  | .string s => s == ""
  | .object => false

/-- The test `typeof v === 'string'`. -/
def JsValue.isString : JsValue → Bool
  | .string _ => true
  | _ => false

/-- The text of a string value (`''` for anything else). -/
def JsValue.text : JsValue → String
  | .string s => s
  | _ => ""

/-- The guard `!message || typeof message !== 'string' || !message.trim()`. -/
def rejectsMessage (message : JsValue) : Bool :=
  message.falsy || !message.isString || jsTrim message.text == ""

/-- The lookup of lines 43-51: by `(userId, sessionId)` when `context.sessionId` is
truthy, else by `userId` alone. -/
def resolveConversation (store : Store) (userId : String) (context : ReqContext) :
    Option Conversation :=
  if truthy context.sessionId then
    findOne store (fun c => c.userId == userId && c.sessionId == context.sessionId.getD "")
  else
    findOne store (fun c => c.userId == userId)

/-- The template literal of line 57. -/
def generatedSessionId (userId : String) (now : Nat) : String :=
  "session_" ++ userId ++ "_" ++ toString now

/-- Lines 55-71: the document the handler works on and the `sessionId` it uses. -/
def conversationFor (env : Env) (store : Store) (userId : String) (context : ReqContext) :
    Doc × String :=
  match resolveConversation store userId context with
  | none =>
    let sessionId := orDefault context.sessionId (generatedSessionId userId env.now)
    ({ conv :=
        { _id := env.newId, userId := userId, sessionId := sessionId, messages := [],
          context :=
            { university := orDefault context.university "",
              stage := orDefault context.stage "",
              preferences := context.preferences.getD [] },
          createdAt := 0, updatedAt := 0 },
       isNew := true }, sessionId)
  | some conversation => ({ conv := conversation, isNew := false }, conversation.sessionId)

/-- Lines 74-77: `conversation.messages.slice(-10).map(...)`. -/
def conversationHistory (messages : List Message) : List HistoryEntry :=
  (jsSlice messages (-10)).map (fun msg => { role := msg.role, content := msg.content })

/-- Lines 84-94: the body posted to the AI service. -/
def upstreamRequest (trimmedMessage : String) (context : ReqContext)
    (history : List HistoryEntry) (userId sessionId : String) : UpstreamRequest :=
  { message := trimmedMessage,
    context :=
      { university := orDefault context.university "",
        stage := orDefault context.stage "",
        preferences := context.preferences.getD [],
        conversation_history := history },
    userId := userId,
    sessionId := sessionId }

/-- Lines 128-145: the message chosen for an upstream error status. -/
def upstreamUserMessage (statusCode : Nat) : String :=
  if statusCode = 400 then "Invalid request to AI service. Please check your message."
  else if statusCode = 429 then "AI service is rate limited. Please try again in a moment."
  else if statusCode ≥ 500 then "AI service is experiencing issues. Please try again later."
  else "AI service is temporarily unavailable. Please try again later."

/-- Line 128: `error.response.status || 500` (a missing status and `0` are falsy). -/
def statusOr500 (status : Option Nat) : Nat :=
  match status with
  | some s => if s = 0 then 500 else s
  | none => 500

/-- Lines 104-154: the response written when `axios.post` throws. -/
def upstreamFailure (error : AxiosError) : Response :=
  if error.code = some "ECONNREFUSED" then
    failure 503 "AI service is not available. Please try again later."
      (some "Service unavailable")
  else if error.code = some "ETIMEDOUT" || jsIncludes error.message "timeout" then
    failure 504 "AI service request timed out. Please try again." (some "Request timeout")
  else
    match error.response with
    | some r =>
      let statusCode := statusOr500 r.status
      failure statusCode (upstreamUserMessage statusCode) none
    | none =>
      failure 503 "AI service is temporarily unavailable. Please try again later." none

/-- Lines 198-207: the outer `catch`. -/
def internalError (env : Env) (thrown : String) : Response :=
  failure 500 "Failed to process message" (if env.development then some thrown else none)

/-- Lines 157-171: push the user message and merge the request context into the
document. -/
def withUserTurn (env : Env) (c : Conversation) (trimmedMessage : String)
    (context : ReqContext) : Conversation :=
  { c with
    messages := c.messages ++
      [castMessage { role := "user", content := trimmedMessage, timestamp := env.userTime,
                     sources := [] }],
    context :=
      { university := if truthy context.university then context.university.getD ""
                      else c.context.university,
        stage := if truthy context.stage then context.stage.getD "" else c.context.stage,
        preferences :=
          match context.preferences with
          | some p => spread c.context.preferences p
          | none => c.context.preferences } }

/-- Line 177: the first truthy of `message`, `response`, `content`, else the placeholder. -/
def aiMessageContent (aiResponse : AiPayload) : String :=
  orDefault aiResponse.message
    (orDefault aiResponse.response (orDefault aiResponse.content "No response received"))

/-- Lines 178-183: push the assistant message. -/
def withAssistantTurn (env : Env) (c : Conversation) (aiResponse : AiPayload) :
    Conversation :=
  { c with
    messages := c.messages ++
      [castMessage { role := "assistant", content := aiMessageContent aiResponse,
                     timestamp := env.aiTime, sources := aiResponse.sources.getD [] }] }

/-- Lines 156-197: what the handler does once the AI service has replied. -/
def afterReply (env : Env) (store : Store) (request : UpstreamRequest) (d : Doc)
    (trimmedMessage : String) (context : ReqContext) (aiResponse : AiPayload) : Outcome :=
  match save store { d with conv := withUserTurn env d.conv trimmedMessage context }
      env.save1Time with
  | .error thrown =>
    { response := internalError env thrown, store := store, sent := some request,
      saves := [] }
  | .ok (store1, d1) =>
    match save store1 { d1 with conv := withAssistantTurn env d1.conv aiResponse }
        env.save2Time with
    | .error thrown =>
      { response := internalError env thrown, store := store1, sent := some request,
        saves := [store1] }
    | .ok (store2, d2) =>
      { response :=
          { status := 200, success := true, message := aiMessageContent aiResponse,
            error := none, sources := some (aiResponse.sources.getD []),
            context := some (aiResponse.context.getD d2.conv.context) },
        store := store2, sent := some request, saves := [store1, store2] }

/-- The `try` block of `sendMessage` (lines 15-207), given `userId = req.user._id`. -/
def sendMessageTry (env : Env) (store : Store) (upstream : UpstreamResult)
    (userId : Option String) (body : Body) : Outcome :=
  match userId with
  | none =>
    { response := failure 401 "User not authenticated" none, store := store, sent := none,
      saves := [] }
  | some userId =>
    let context := body.context.getD ReqContext.empty
    if rejectsMessage body.message then
      { response := failure 400 "Message is required and must be a non-empty string" none,
        store := store, sent := none, saves := [] }
    else
      let trimmedMessage := jsTrim body.message.text
      let resolved := conversationFor env store userId context
      let request := upstreamRequest trimmedMessage context
        (conversationHistory resolved.1.conv.messages) userId resolved.2
      match upstream with
      | .error error =>
        { response := upstreamFailure error, store := store, sent := some request,
          saves := [] }
      | .ok aiResponse =>
        afterReply env store request resolved.1 trimmedMessage context aiResponse

/-- The handler `sendMessage`. Line 12 reads `req.user._id` before the `try` block, so a
request without `req.user` makes the handler throw instead of responding. -/
def sendMessage (env : Env) (store : Store) (upstream : UpstreamResult) (req : Request) :
    Except String Outcome :=
  match req.user with
  | none => .error "TypeError"
  | some user => .ok (sendMessageTry env store upstream user._id req.body)

/-! ## `deleteConversation` -/

/-- A request of `DELETE /chat/history/:id`. -/
structure DeleteRequest where
  user : Option User
  id : String
  deriving DecidableEq, Repr

/-- A hexadecimal digit, `[0-9a-fA-F]`. -/
def isHexDigit (c : Char) : Bool :=
  ('0' ≤ c && c ≤ '9') || ('a' ≤ c && c ≤ 'f') || ('A' ≤ c && c ≤ 'F')

/-- The test `/^[0-9a-fA-F]{24}$/` of line 278. -/
def isObjectIdString (s : String) : Bool :=
  s.data.length == 24 && s.data.all isHexDigit

/-- The cast of a 24-digit hex string to an ObjectId, in canonical lower-case form. -/
def castObjectId (s : String) : String := ⟨s.data.map Char.toLower⟩

/-- Remove the first document matching the filter (`findOneAndDelete`). -/
def deleteFirst (filter : Conversation → Bool) : Store → Store
  | [] => []
  | d :: t => if filter d then t else d :: deleteFirst filter t

/-- The handler `deleteConversation`: the response and the store it leaves. -/
def deleteConversation (store : Store) (req : DeleteRequest) : Response × Store :=
  match req.user.bind (fun u => u._id) with
  | none => (failure 401 "User not authenticated" none, store)
  | some userId =>
    if req.id == "" || !isObjectIdString req.id then
      (failure 400 "Invalid conversation ID" none, store)
    else
      let filter := fun (c : Conversation) =>
        c._id == castObjectId req.id && c.userId == userId
      match findOne store filter with
      | none =>
        (failure 404
          "Conversation not found or you do not have permission to delete it" none, store)
      | some _ =>
        ({ status := 200, success := true, message := "Conversation deleted successfully",
           error := none, sources := none, context := none },
         deleteFirst filter store)


/-! ## `getHistory` -/

/-- The value of a character as a digit (`0-9`, `a-z`, `A-Z`), if it is one. -/
def digitValue (c : Char) : Option Nat :=
  if '0' ≤ c && c ≤ '9' then some (c.toNat - '0'.toNat)
  else if 'a' ≤ c && c ≤ 'z' then some (c.toNat - 'a'.toNat + 10)
  else if 'A' ≤ c && c ≤ 'Z' then some (c.toNat - 'A'.toNat + 10)
  else none

/-- The values of the longest run of leading digits of a radix. -/
def leadingDigits (radix : Nat) : List Char → List Nat
  | [] => []
  | c :: cs =>
    match digitValue c with
    | some d => if d < radix then d :: leadingDigits radix cs else []
    | none => []

/-- The number written by a list of digit values, most significant first. -/
def digitsValue (radix : Nat) (ds : List Nat) : Nat :=
  ds.foldl (fun acc d => acc * radix + d) 0

/-- Steps 4-7 of `parseInt`: an optional sign. -/
def splitSign : List Char → Bool × List Char
  | '-' :: t => (true, t)
  | '+' :: t => (false, t)
  | s => (false, s)

/-- Steps 8-10 of `parseInt` without radix argument: `0x`/`0X` selects radix 16. -/
def splitRadix : List Char → Nat × List Char
  | '0' :: 'x' :: t => (16, t)
  | '0' :: 'X' :: t => (16, t)
  | s => (10, s)

/-- The global `parseInt(string)` on lists of characters; `none` is `NaN`. Numbers are
exact integers, as JavaScript numbers are up to `2^53`. -/
def parseIntChars (cs : List Char) : Option Int :=
  let signed := splitSign (cs.dropWhile isJsWhiteSpace)
  let based := splitRadix signed.2
  let ds := leadingDigits based.1 based.2
  if ds.isEmpty then none
  else if signed.1 then some (-(digitsValue based.1 ds : Int))
  else some (digitsValue based.1 ds : Int)

/-- The call `parseInt(req.query.x)` for an absent or string-valued query parameter
(`undefined` reads as the text `undefined`, which is `NaN`). -/
def jsParseInt : Option String → Option Int
  | none => none
  | some s => parseIntChars s.data

/-- The expression `n || d` for a number `n`: `NaN` and `0` are falsy. -/
def numberOr (n : Option Int) (d : Int) : Int :=
  match n with
  | some v => if v = 0 then d else v
  | none => d

/-- The query string of `GET /chat/history`. -/
structure HistoryQuery where
  page : Option String
  limit : Option String
  deriving DecidableEq, Repr

/-- A request of `GET /chat/history`. -/
structure HistoryRequest where
  user : Option User
  query : HistoryQuery
  deriving DecidableEq, Repr

/-- A conversation as returned by `.select('messages context createdAt updatedAt').lean()`
(the `_id` is always included). -/
structure HistoryItem where
  _id : String
  messages : List Message
  context : Context
  createdAt : Nat
  updatedAt : Nat
  deriving DecidableEq, Repr

/-- The `pagination` object of the history response. -/
structure Pagination where
  page : Int
  limit : Int
  total : Nat
  pages : Nat
  hasMore : Bool
  deriving DecidableEq, Repr

/-- The response of `getHistory`. -/
structure HistoryResponse where
  status : Nat
  success : Bool
  message : Option String
  conversations : List HistoryItem
  pagination : Option Pagination
  deriving DecidableEq, Repr

/-- Line 224: `Math.max(1, parseInt(req.query.page) || 1)`. -/
def historyPage (query : HistoryQuery) : Int :=
  max 1 (numberOr (jsParseInt query.page) 1)

/-- Line 225: `Math.min(50, Math.max(1, parseInt(req.query.limit) || 20))`. -/
def historyLimit (query : HistoryQuery) : Int :=
  min 50 (max 1 (numberOr (jsParseInt query.limit) 20))

/-- Line 226: `(page - 1) * limit`. -/
def historySkip (query : HistoryQuery) : Int :=
  (historyPage query - 1) * historyLimit query

/-- The clause `.sort({ updatedAt: -1 })`: most recently updated first, ties in natural
order. -/
def sortByUpdatedDesc (docs : List Conversation) : List Conversation :=
  docs.insertionSort (fun a b => b.updatedAt ≤ a.updatedAt)

/-- The projection of `.select('messages context createdAt updatedAt')`. -/
def selectFields (c : Conversation) : HistoryItem :=
  { _id := c._id, messages := c.messages, context := c.context, createdAt := c.createdAt,
    updatedAt := c.updatedAt }

/-- The handler `getHistory`. -/
def getHistory (store : Store) (req : HistoryRequest) : HistoryResponse :=
  match req.user.bind (fun u => u._id) with
  | none =>
    { status := 401, success := false, message := some "User not authenticated",
      conversations := [], pagination := none }
  | some userId =>
    let page := historyPage req.query
    let limit := historyLimit req.query
    let skip := historySkip req.query
    let owned := store.filter (fun c => c.userId == userId)
    let conversations :=
      (((sortByUpdatedDesc owned).drop skip.toNat).take limit.toNat).map selectFields
    let total := owned.length
    { status := 200, success := true, message := none, conversations := conversations,
      pagination :=
        some { page := page, limit := limit, total := total,
               pages := (total + limit.toNat - 1) / limit.toNat,
               hasMore := decide (page * limit < (total : Int)) } }

/-! ## Rate limiting (`middleware/rateLimiter.js`) -/

/-- A request as a limiter sees it: the user attached by `verifyToken`, `req.ip` and the
`user-agent` header. -/
structure LimiterRequest where
  user : Option User
  ip : String
  userAgent : Option String
  deriving DecidableEq, Repr

/-- The options object passed to `rateLimit`; `message` is the text of the body
`{ success: false, message }`. -/
structure LimiterOptions where
  windowMs : Nat
  max : Nat
  message : String
  keyGenerator : LimiterRequest → String
  skip : LimiterRequest → Bool

/-- The rate-limit window record of a key: a request count and a window start time. -/
structure WindowRecord where
  count : Nat
  windowStart : Nat
  deriving DecidableEq, Repr

/-- The window records, by key. -/
abbrev LimiterState := List (String × WindowRecord)

/-- The record of a key, if any. -/
def LimiterState.get : LimiterState → String → Option WindowRecord
  | [], _ => none
  | (k', r) :: t, k => if k' = k then some r else LimiterState.get t k

/-- Store the record of a key. -/
def LimiterState.set : LimiterState → String → WindowRecord → LimiterState
  | [], k, r => [(k, r)]
  | (k', r') :: t, k, r =>
    if k' = k then (k, r) :: t else (k', r') :: LimiterState.set t k r

/-- What a limiter does with a request: pass it on, or answer it. -/
inductive LimiterDecision where
  | next
  | reject (status : Nat) (success : Bool) (message : String)
  deriving DecidableEq, Repr

/-- Modelled from the spec: the middleware that `rateLimit(options)` of the package
express-rate-limit returns (the package is not among the sources). It is the fixed-window
counter of §3 and §4.2: a skipped request passes uncounted; otherwise the count of the
request's key goes up by one within the key's window and restarts at one, with a window
starting now, when the key has no record or its window has expired; the request is
answered with 429 and the configured body when the count exceeds `max`. -/
def rateLimit (options : LimiterOptions) (state : LimiterState) (now : Nat)
    (req : LimiterRequest) : LimiterDecision × LimiterState :=
  if options.skip req then (.next, state)
  else
    let key := options.keyGenerator req
    let record : WindowRecord :=
      match state.get key with
      | some r =>
        if now < r.windowStart + options.windowMs then
          { count := r.count + 1, windowStart := r.windowStart }
        else { count := 1, windowStart := now }
      | none => { count := 1, windowStart := now }
    (if record.count > options.max then .reject 429 false options.message else .next,
     state.set key record)

/-- A limiter handling timed requests one after the other. -/
def runLimiter (options : LimiterOptions) :
    LimiterState → List (Nat × LimiterRequest) → List LimiterDecision × LimiterState
  | state, [] => ([], state)
  | state, (now, req) :: rest =>
    ((rateLimit options state now req).1 ::
      (runLimiter options (rateLimit options state now req).2 rest).1,
     (runLimiter options (rateLimit options state now req).2 rest).2)

/-- Lines 20-28: the key of the chat limiter; `md5Hex` stands for
`crypto.createHash('md5').update(s).digest('hex')`. -/
def chatKeyGenerator (md5Hex : String → String) (req : LimiterRequest) : String :=
  match req.user.bind (fun u => u._id) with
  | some id => "user:" ++ id
  | none =>
    "ip:" ++ req.ip ++ ":" ++
      String.mk ((md5Hex (orDefault req.userAgent "unknown")).data.take 8)

/-- Lines 29-32: the chat limiter skips admin users. -/
def chatSkip (req : LimiterRequest) : Bool :=
  match req.user with
  | some u => u.role == "admin"
  | none => false

/-- Lines 9-33: the options of `chatRateLimiter`. -/
def chatRateLimiter (md5Hex : String → String) : LimiterOptions :=
  { windowMs := 60 * 1000,
    max := 30,
    message := "Too many chat requests. Please try again later.",
    keyGenerator := chatKeyGenerator md5Hex,
    skip := chatSkip }

/-! ## `verifyToken` (`middleware/authMiddleware.js`) -/

/-- An error object as the handlers inspect it: `error.name` and `error.message`. -/
structure Thrown where
  name : String
  message : String
  deriving DecidableEq, Repr

/-- What `verifyToken` reads from outside: `process.env`, `jwt.verify(token, secret)`
(the `userId` of the decoded payload, absent when the payload has none, or the error
thrown) and `User.findById(id).select('-passwordHash')` (the user, `null`, or the error
thrown). -/
structure AuthEnv where
  jwtSecret : Option String
  development : Bool
  jwtVerify : String → String → Except Thrown (Option String)
  findById : Option String → Except Thrown (Option User)

/-- What a middleware does: call `next()` with `req.user` set, or respond. -/
inductive AuthOutcome where
  | next (user : User)
  | respond (r : Response)
  deriving DecidableEq, Repr

/-- Lines 17-19: `authHeader.startsWith('Bearer ') ? authHeader.slice(7) : authHeader`. -/
def bearerToken (authHeader : String) : String :=
  if "Bearer ".data.isPrefixOf authHeader.data then String.mk (authHeader.data.drop 7)
  else authHeader

/-- Lines 52-71: the `catch` block of `verifyToken`. -/
def verifyTokenCatch (env : AuthEnv) (error : Thrown) : Response :=
  if error.name = "JsonWebTokenError" then failure 401 "Invalid token" none
  else if error.name = "TokenExpiredError" then failure 401 "Token expired" none
  else failure 500 "Authentication error"
    (if env.development then some error.message else none)

/-- The middleware `verifyToken`, given the `Authorization` header. -/
def verifyToken (env : AuthEnv) (authorization : Option String) : AuthOutcome :=
  if !truthy authorization then
    .respond (failure 401 "No authorization header provided" none)
  else
    let token := bearerToken (authorization.getD "")
    if token == "" then .respond (failure 401 "No token provided" none)
    else if !truthy env.jwtSecret then
      .respond (failure 500 "Server configuration error" none)
    else
      match env.jwtVerify token (env.jwtSecret.getD "") with
      | .error error => .respond (verifyTokenCatch env error)
      | .ok userId =>
        match env.findById userId with
        | .error error => .respond (verifyTokenCatch env error)
        | .ok none => .respond (failure 401 "User not found" none)
        | .ok (some user) => .next user

/-! ## `utils/validation.js` -/

/-- The property `String.prototype.length`: the number of UTF-16 code units. -/
def utf16Length (s : String) : Nat :=
  (s.data.map (fun c => if c.toNat < 0x10000 then 1 else 2)).sum

/-- The class `[A-Z]`. -/
def isUpperAZ (c : Char) : Bool := 'A' ≤ c && c ≤ 'Z'

/-- The class `[a-z]`. -/
def isLowerAZ (c : Char) : Bool := 'a' ≤ c && c ≤ 'z'

/-- The class `\d` (without the unicode flag): `[0-9]`. -/
def isDecimalDigit (c : Char) : Bool := '0' ≤ c && c ≤ '9'

/-- The class `\w` (without the unicode flag): `[A-Za-z0-9_]`. -/
def isWordChar (c : Char) : Bool :=
  isUpperAZ c || isLowerAZ c || isDecimalDigit c || c == '_'

/-- The function `validatePassword`. -/
def validatePassword (password : JsValue) : Bool :=
  if password.falsy || !password.isString then false
  else if utf16Length password.text < 8 then false
  else if !password.text.data.any isUpperAZ then false
  else if !password.text.data.any isLowerAZ then false
  else if !password.text.data.any isDecimalDigit then false
  else true

/-- The class `[^\s@]`. -/
def isEmailChar (c : Char) : Bool := !isJsWhiteSpace c && c != '@'

/-- The test of `/^[^\s@]+@[^\s@]+\.[^\s@]+$/`: a non-empty local part, one `@`, and a
domain of email characters with a dot that is neither its first nor its last character. -/
def emailRegexTest (cs : List Char) : Bool :=
  let localPart := cs.takeWhile (fun c => c != '@')
  match cs.dropWhile (fun c => c != '@') with
  | [] => false
  | _ :: domain =>
    !localPart.isEmpty && localPart.all isEmailChar && domain.all isEmailChar &&
      (domain.drop 1).dropLast.contains '.'

/-- The function `validateEmail`; `toLowerCase` stands for `String.prototype.toLowerCase`. -/
def validateEmail (toLowerCase : String → String) (email : JsValue) : Bool :=
  if email.falsy || !email.isString then false
  else if utf16Length email.text > 254 then false
  else if jsIncludes email.text ".." then false
  else emailRegexTest (toLowerCase (jsTrim email.text)).data

/-- The call `s.replace(re, '')` for a global pattern that, tried at a position, matches a
run of one known length or fails: matches are looked for from left to right and the text
after a match is scanned on. The first argument counts the characters of the current match
still to drop. -/
def removeMatches (matchLength : List Char → Option Nat) : Nat → List Char → List Char
  | _, [] => []
  | skip + 1, _ :: cs => removeMatches matchLength skip cs
  | 0, c :: cs =>
    match matchLength (c :: cs) with
    | some (n + 1) => removeMatches matchLength n cs
    | _ => c :: removeMatches matchLength 0 cs

/-- A literal pattern tried at the start of a text. -/
def literalAt (pattern : List Char) (cs : List Char) : Option Nat :=
  if pattern.isPrefixOf cs then some pattern.length else none

/-- A lower-case literal pattern with the `i` flag tried at the start of a text. -/
def literalIgnoreCaseAt (pattern : List Char) (cs : List Char) : Option Nat :=
  if pattern.isPrefixOf (cs.map Char.toLower) then some pattern.length else none

/-- The pattern `/on\w+=/i` tried at the start of a text: `on`, the longest run of word
characters (at least one), then `=`. -/
def onHandlerAt : List Char → Option Nat
  | o :: n :: rest =>
    if o.toLower == 'o' && n.toLower == 'n' then
      let word := rest.takeWhile isWordChar
      if !word.isEmpty && (rest.drop word.length).head? == some '=' then
        some (2 + word.length + 1)
      else none
    else none
  | _ => none

/-- The function `sanitizeInput` on strings (lines 65-69). -/
def sanitizeString (input : String) : String :=
  String.mk
    (removeMatches onHandlerAt 0
      (removeMatches (literalIgnoreCaseAt "javascript:".data) 0
        ((trimChars input.data).filter (fun c => c != '<' && c != '>'))))

/-- The function `sanitizeInput`: anything but a string is returned as it is. -/
def sanitizeInput (input : JsValue) : JsValue :=
  match input with
  | .string s => .string (sanitizeString s)
  | other => other

/-! ## `register` (`controllers/authController.js`) -/

/-- The JSON body of `POST /auth/register`. -/
structure RegisterBody where
  email : JsValue
  password : JsValue
  deriving DecidableEq, Repr

/-- What `register` does before it reads the user collection: respond, or go on to lines
47-82 with the sanitized email and the password. -/
inductive RegisterStep where
  | respond (r : Response)
  | proceed (sanitizedEmail : String) (password : String)
  deriving DecidableEq, Repr

/-- Lines 18-45 of `register` with its `catch` block (lines 83-107): `email.trim()` of
line 31 throws a `TypeError` when `email` is not a string, which the `catch` answers
with 500. -/
def register (toLowerCase : String → String) (development : Bool) (body : RegisterBody) :
    RegisterStep :=
  if body.email.falsy || body.password.falsy then
    .respond (failure 400 "Email and password are required" none)
  else
    match body.email with
    | .string email =>
      let sanitizedEmail := toLowerCase (jsTrim email)
      if !validateEmail toLowerCase (.string sanitizedEmail) then
        .respond (failure 400 "Invalid email format" none)
      else if !validatePassword body.password then
        .respond (failure 400
          ("Password must be at least 8 characters with at least one uppercase letter, " ++
            "one lowercase letter, and one number") none)
      else .proceed sanitizedEmail body.password.text
    | _ =>
      .respond (failure 500 "Registration failed"
        (if development then some "email.trim is not a function" else none))

/-! ## The URL-cleaning middleware (`server.js`) -/

/-- Lines 34-47 of `server.js`: the value of `req.url` after the middleware. -/
def cleanUrl (url : String) : String :=
  if jsIncludes url "%0A" || jsIncludes url "%0D" then
    String.mk
      (trimChars
        (removeMatches (literalAt "%0D".data) 0
          (removeMatches (literalAt "%0A".data) 0 url.data)))
  else url

/-! ## Specification-side notions and sample data -/

/-- The last `n` entries of a list, oldest first. -/
def lastEntries {α : Type} (n : Nat) (xs : List α) : List α :=
  (xs.reverse.take n).reverse

/-- The reduction of a message to its role and content. -/
def roleAndContent (m : Message) : HistoryEntry :=
  { role := m.role, content := m.content }

/-- The number of stored conversations of a user with a given session identifier. -/
def countFor (store : Store) (userId sessionId : String) : Nat :=
  store.countP (fun c => c.userId == userId && c.sessionId == sessionId)

/-- A sample environment. -/
def envA : Env :=
  { now := 5, newId := "a1", userTime := 6, save1Time := 7, aiTime := 8, save2Time := 9,
    development := false }

/-- A later sample environment. -/
def envB : Env :=
  { now := 15, newId := "b2", userTime := 16, save1Time := 17, aiTime := 18,
    save2Time := 19, development := false }

/-- A sample user. -/
def userA : User := { _id := some "u1", email := "a@example.org", role := "student" }

/-- A sample upstream reply. -/
def payloadA : AiPayload :=
  { message := some "hello", response := none, content := none, sources := some ["a", "b"],
    context := none }

/-- A send request of `userA` with text `hi`. -/
def sendReq (context : Option ReqContext) : Request :=
  { user := some userA, body := { message := .string " hi ", context := context } }

/-- A request context that only names a session. -/
def sessionOnly (sessionId : String) : ReqContext :=
  { sessionId := some sessionId, university := none, stage := none, preferences := none }

/-- A stored conversation of `userA` with one exchange and a filled context. -/
def convS1 : Conversation :=
  { _id := "a1", userId := "u1", sessionId := "s1",
    messages :=
      [{ role := "user", content := "hi", timestamp := 6, sources := [] },
       { role := "assistant", content := "hello", timestamp := 8, sources := ["a", "b"] }],
    context := { university := "MIT", stage := "year1",
                 preferences := [("lang", .string "en")] },
    createdAt := 7, updatedAt := 9 }

/-- An upstream failure carrying the HTTP status 400. -/
def upstream400 : AxiosError :=
  { code := some "ERR_BAD_REQUEST", message := "Request failed with status code 400",
    response := some { status := some 400, dataMessage := none } }

/-- A send request of `userA` whose message is white space only. -/
def blankReq : Request :=
  { user := some userA, body := { message := .string "  ", context := none } }

/-- The document as `save()` at time `t` writes it: `timestamps: true`. -/
def stamped (d : Doc) (t : Nat) : Conversation :=
  if d.isNew then { d.conv with createdAt := t, updatedAt := t }
  else { d.conv with updatedAt := t }

/-- The user message as pushed by line 157. -/
def userMessage (env : Env) (trimmedMessage : String) : Message :=
  { role := "user", content := trimmedMessage, timestamp := env.userTime, sources := [] }

/-- The assistant message as stored after the push of line 178 (content trimmed by the
schema). -/
def assistantMessage (env : Env) (aiResponse : AiPayload) : Message :=
  { role := "assistant", content := jsTrim (aiMessageContent aiResponse),
    timestamp := env.aiTime, sources := aiResponse.sources.getD [] }

/-- The conversation as written by the first `save()` of a send. -/
def firstSaved (env : Env) (d : Doc) (trimmedMessage : String) (context : ReqContext) :
    Conversation :=
  stamped { d with conv := withUserTurn env d.conv trimmedMessage context } env.save1Time

/-- The conversation as written by the second `save()` of a send. -/
def secondSaved (env : Env) (d : Doc) (trimmedMessage : String) (context : ReqContext)
    (aiResponse : AiPayload) : Conversation :=
  stamped
    { conv := withAssistantTurn env (firstSaved env d trimmedMessage context) aiResponse,
      isNew := false }
    env.save2Time

/-- A stored string field overlaid with a request field: the request's value when it
supplies a non-empty one, the stored value otherwise. -/
def overlay (stored : String) (requested : Option String) : String :=
  match requested with
  | some v => if v = "" then stored else v
  | none => stored

/-- A key of the stored preferences overlaid with the request's preferences: the
request's value when it has the key, the stored value otherwise. -/
def overlayGet (stored : Prefs) (requested : Option Prefs) (k : String) : Option JsValue :=
  match requested with
  | some p =>
    match p.get k with
    | some v => some v
    | none => stored.get k
  | none => stored.get k

/-- An object has each key once. -/
def distinctKeys (p : Prefs) : Prop := (p.map Prod.fst).Nodup

instance (p : Prefs) : Decidable (distinctKeys p) := by
  unfold distinctKeys
  infer_instance

/-- The stored messages of the conversation a send resolves to (none for a new one). -/
def priorMessages (store : Store) (userId : String) (context : ReqContext) : List Message :=
  match resolveConversation store userId context with
  | some c => c.messages
  | none => []

/-- The stored context of the conversation a send resolves to (the schema defaults for a
new one). -/
def priorContext (store : Store) (userId : String) (context : ReqContext) : Context :=
  match resolveConversation store userId context with
  | some c => c.context
  | none => { university := "", stage := "", preferences := [] }

/-- The `_id` of the conversation a send works on: the resolved one, else the new id. -/
def targetId (env : Env) (store : Store) (userId : String) (context : ReqContext) : String :=
  match resolveConversation store userId context with
  | some c => c._id
  | none => env.newId

/-- The outcome of the sample send on a store holding `convS1`. -/
def outS1 : Outcome :=
  sendMessageTry envB [convS1] (.ok payloadA) (some "u1")
    (sendReq (some (sessionOnly "s1"))).body

/-- A request context that names a session and new preferences, no university. -/
def prefsOnly (sessionId : String) : ReqContext :=
  { sessionId := some sessionId, university := none, stage := some "year2",
    preferences := some [("theme", .string "dark")] }

/-- The outcome of a send with `prefsOnly` on a store holding `convS1`. -/
def outPrefs : Outcome :=
  sendMessageTry envB [convS1] (.ok payloadA) (some "u1")
    (sendReq (some (prefsOnly "s1"))).body

/-- The outcome of a first send of `userA` naming session `s1` on the empty store. -/
def outFirst : Outcome :=
  sendMessageTry envA [] (.ok payloadA) (some "u1") (sendReq (some (sessionOnly "s1"))).body

/-- The outcome of a second send naming session `s1`, on the store the first one left. -/
def outSecond : Outcome :=
  sendMessageTry envB outFirst.store (.ok payloadA) (some "u1")
    (sendReq (some (sessionOnly "s1"))).body

/-- The filter of the lookup of lines 43-51. -/
def matchesLookup (userId : String) (context : ReqContext) (c : Conversation) : Bool :=
  if truthy context.sessionId then
    c.userId == userId && c.sessionId == context.sessionId.getD ""
  else
    c.userId == userId

/-- The environment of a first sample send that creates a conversation. -/
def env1 : Env :=
  { now := 5, newId := "aaaaaaaaaaaaaaaaaaaaaaaa", userTime := 6, save1Time := 7,
    aiTime := 8, save2Time := 9, development := false }

/-- The environment of a second sample send that creates a conversation. -/
def env2 : Env :=
  { now := 15, newId := "bbbbbbbbbbbbbbbbbbbbbbbb", userTime := 16, save1Time := 17,
    aiTime := 18, save2Time := 19, development := false }

/-- The environment of a third sample send. -/
def env3 : Env :=
  { now := 25, newId := "cccccccccccccccccccccccc", userTime := 26, save1Time := 27,
    aiTime := 28, save2Time := 29, development := false }

/-- The store after `userA` has sent one message in session `s1` and then one in session
`s2`, starting from the empty store. -/
def twoSessions : Store :=
  (sendMessageTry env2
    (sendMessageTry env1 [] (.ok payloadA) (some "u1")
      (sendReq (some (sessionOnly "s1"))).body).store
    (.ok payloadA) (some "u1") (sendReq (some (sessionOnly "s2"))).body).store

/-- The request of `userA` to delete the conversation of session `s2`. -/
def deleteS2 : DeleteRequest :=
  { user := some userA, id := "bbbbbbbbbbbbbbbbbbbbbbbb" }

/-- A store holding one conversation of `userA`, with a well-formed id. -/
def oneSession : Store :=
  (sendMessageTry env2 [] (.ok payloadA) (some "u1")
    (sendReq (some (sessionOnly "s2"))).body).store

/-- An upstream failure by client timeout, as axios reports it. -/
def timeoutError : AxiosError :=
  { code := some "ECONNABORTED", message := "timeout of 30000ms exceeded", response := none }

/-- An upstream failure by connection reset. -/
def resetError : AxiosError :=
  { code := some "ECONNRESET", message := "socket hang up", response := none }

/-- An upstream failure with HTTP status 429 and an upstream-supplied message. -/
def upstream429 : AxiosError :=
  { code := some "ERR_BAD_REQUEST", message := "Request failed with status code 429",
    response := some { status := some 429, dataMessage := some "quota exceeded for key" } }

/-- The same failure with other error and body texts. -/
def upstream429b : AxiosError :=
  { code := some "ERR_BAD_REQUEST", message := "too many requests",
    response := some { status := some 429, dataMessage := none } }

/-- The first non-empty string of a list of optional fields, else the default. -/
def firstNonEmpty : List (Option String) → String → String
  | [], d => d
  | some s :: rest, d => if s = "" then firstNonEmpty rest d else s
  | none :: rest, d => firstNonEmpty rest d

/-- An upstream reply whose text has surrounding blanks. -/
def payloadPadded : AiPayload :=
  { message := some "", response := some " hello ", content := some "unused",
    sources := some ["a", "b"], context := none }

/-- The outcome of a first send answered with `payloadPadded`. -/
def outPadded : Outcome :=
  sendMessageTry env1 [] (.ok payloadPadded) (some "u1")
    (sendReq (some (sessionOnly "s1"))).body

/-- A second sample user. -/
def userB : User := { _id := some "u2", email := "b@example.org", role := "student" }

/-- The request of `userB` to delete the conversation of `userA`. -/
def deleteByB : DeleteRequest :=
  { user := some userB, id := "bbbbbbbbbbbbbbbbbbbbbbbb" }

/-- The conversation held by `oneSession`. -/
def sampleS2 : Conversation :=
  { _id := "bbbbbbbbbbbbbbbbbbbbbbbb", userId := "u1", sessionId := "s2",
    messages :=
      [{ role := "user", content := "hi", timestamp := 16, sources := [] },
       { role := "assistant", content := "hello", timestamp := 18, sources := ["a", "b"] }],
    context := { university := "", stage := "", preferences := [] },
    createdAt := 17, updatedAt := 19 }

/-- A history request of `userA`. -/
def historyReq (page limit : Option String) : HistoryRequest :=
  { user := some userA, query := { page := page, limit := limit } }

/-- The outcome of a third send of `userA`, continuing session `s1` of `twoSessions`. -/
def outThird : Outcome :=
  sendMessageTry env3 twoSessions (.ok payloadA) (some "u1")
    (sendReq (some (sessionOnly "s1"))).body

/-- A stand-in digest for the sample runs (the digest is not used for keyed users). -/
def sampleDigest (_ : String) : String := "0123456789abcdef0123456789abcdef"

/-- A chat request of `userA` as the limiter sees it. -/
def chatRequestA : LimiterRequest :=
  { user := some userA, ip := "10.0.0.1", userAgent := some "curl/8.0" }

/-- An admin user. -/
def adminUser : User := { _id := some "u9", email := "root@example.org", role := "admin" }

/-- A chat request of the admin user. -/
def chatRequestAdmin : LimiterRequest :=
  { user := some adminUser, ip := "10.0.0.1", userAgent := some "curl/8.0" }

/-- The request carries an authenticated user with this id who is not an admin. -/
def sentByUser (userId : String) (req : LimiterRequest) : Bool :=
  match req.user with
  | some u => u._id == some userId && u.role != "admin"
  | none => false

/-- The request carries an authenticated user with role `admin`. -/
def sentByAdmin (req : LimiterRequest) : Bool :=
  match req.user with
  | some u => u.role == "admin"
  | none => false

/-- A sample environment of `verifyToken`: the token `good` names `userA`, the token `old`
has expired, every other token is malformed. -/
def authEnvA : AuthEnv :=
  { jwtSecret := some "secret",
    development := false,
    jwtVerify := fun token _ =>
      if token = "good" then .ok (some "u1")
      else if token = "old" then .error { name := "TokenExpiredError", message := "jwt expired" }
      else .error { name := "JsonWebTokenError", message := "jwt malformed" },
    findById := fun id => if id = some "u1" then .ok (some userA) else .ok none }

/-- An ASCII-only stand-in for `String.prototype.toLowerCase` in the sample runs. -/
def asciiLower (s : String) : String := String.mk (s.data.map Char.toLower)

/-- A registration whose email is a JSON number and whose password is too weak. -/
def registerNumberEmail : RegisterBody :=
  { email := .number 123, password := .string "short" }

/-- A conversation of `userB`. -/
def convOfB : Conversation :=
  { _id := "dddddddddddddddddddddddd", userId := "u2", sessionId := "s1",
    messages := [{ role := "user", content := "secret", timestamp := 1, sources := [] }],
    context := { university := "", stage := "", preferences := [] },
    createdAt := 1, updatedAt := 2 }

/-- A store with the conversation of `userB` between the two of `userA`. -/
def mixedStore : Store :=
  twoSessions.take 1 ++ [convOfB] ++ twoSessions.drop 1

/-- The outcome of a send of `userA` in session `s1` on `mixedStore`. -/
def outMixed : Outcome :=
  sendMessageTry env3 mixedStore (.ok payloadA) (some "u1")
    (sendReq (some (sessionOnly "s1"))).body

/-! ## Basic facts -/

theorem dropWhile_all_iff (p : Char → Bool) (cs : List Char) :
    (∀ x ∈ cs.dropWhile p, p x = true) ↔ ∀ x ∈ cs, p x = true := by
  induction cs with
  | nil => simp
  | cons c t ih =>
    by_cases hc : p c = true
    · simp [List.dropWhile_cons, hc, ih]
    · simp [List.dropWhile_cons, hc]

theorem trimChars_eq_nil_iff (cs : List Char) :
    trimChars cs = [] ↔ cs.all isJsWhiteSpace = true := by
  unfold trimChars
  rw [List.reverse_eq_nil_iff, List.dropWhile_eq_nil_iff]
  simp only [List.mem_reverse, List.all_eq_true]
  exact dropWhile_all_iff _ _

theorem jsTrim_eq_empty_iff (s : String) :
    jsTrim s = "" ↔ s.data.all isJsWhiteSpace = true := by
  rw [← trimChars_eq_nil_iff]
  unfold jsTrim
  constructor
  · intro h
    have := congrArg String.data h
    simpa using this
  · intro h
    rw [h]

theorem rejectsMessage_iff (m : JsValue) :
    rejectsMessage m = true ↔
      (∀ s, m ≠ .string s) ∨ ∃ s, m = .string s ∧ s.data.all isJsWhiteSpace = true := by
  cases m with
  | string s =>
    have h0 : s = "" → jsTrim s = "" := by
      intro h; subst h; rfl
    simp only [rejectsMessage, JsValue.falsy, JsValue.isString, JsValue.text,
      Bool.or_eq_true, beq_iff_eq, Bool.not_true, Bool.false_eq_true, or_false,
      ← jsTrim_eq_empty_iff]
    constructor
    · rintro (h | h)
      · exact Or.inr ⟨s, rfl, h0 h⟩
      · exact Or.inr ⟨s, rfl, h⟩
    · rintro (h | ⟨s', hs, h⟩)
      · exact absurd rfl (h s)
      · cases hs
        exact Or.inr h
  | undefined => simp [rejectsMessage, JsValue.falsy]
  | null => simp [rejectsMessage, JsValue.falsy]
  | bool b => simp [rejectsMessage, JsValue.isString]
  | number n => simp [rejectsMessage, JsValue.isString]
  | object => simp [rejectsMessage, JsValue.isString]

theorem sendMessage_of_user {env : Env} {store : Store} {up : UpstreamResult} {req : Request}
    {u : User} (hu : req.user = some u) :
    sendMessage env store up req = .ok (sendMessageTry env store up u._id req.body) := by
  simp [sendMessage, hu]

theorem afterReply_sent (env : Env) (store : Store) (request : UpstreamRequest) (d : Doc)
    (t : String) (context : ReqContext) (ai : AiPayload) :
    (afterReply env store request d t context ai).sent = some request := by
  unfold afterReply
  cases save store { d with conv := withUserTurn env d.conv t context } env.save1Time with
  | error thrown => rfl
  | ok r =>
    obtain ⟨store1, d1⟩ := r
    show (match save store1 { d1 with conv := withAssistantTurn env d1.conv ai }
      env.save2Time with
      | .error thrown => _
      | .ok (store2, d2) => _ : Outcome).sent = _
    cases save store1 { d1 with conv := withAssistantTurn env d1.conv ai } env.save2Time with
    | error thrown => rfl
    | ok r2 => rfl

theorem sendMessageTry_sent {env : Env} {store : Store} {up : UpstreamResult} {uid : String}
    {body : Body} (hm : rejectsMessage body.message = false) :
    (sendMessageTry env store up (some uid) body).sent =
      some (upstreamRequest (jsTrim body.message.text) (body.context.getD ReqContext.empty)
        (conversationHistory
          (conversationFor env store uid (body.context.getD ReqContext.empty)).1.conv.messages)
        uid (conversationFor env store uid (body.context.getD ReqContext.empty)).2) := by
  simp only [sendMessageTry, hm]
  cases up with
  | error e => simp
  | ok ai => simp [afterReply_sent]

theorem sendMessageTry_error (env : Env) (store : Store) (e : AxiosError)
    (userId : Option String) (body : Body) :
    (sendMessageTry env store (.error e) userId body).store = store ∧
    (sendMessageTry env store (.error e) userId body).saves = [] := by
  unfold sendMessageTry
  cases userId with
  | none => simp
  | some uid =>
    by_cases hm : rejectsMessage body.message = true
    · simp [hm]
    · simp [hm]

theorem jsSlice_last_ten {α : Type} (xs : List α) :
    jsSlice xs (-10) = lastEntries (min 10 xs.length) xs := by
  simp only [jsSlice, lastEntries, List.take_reverse, List.reverse_reverse,
    show ((-10 : Int) < 0) from by decide, if_true]
  congr 1
  omega

theorem conversationFor_messages (env : Env) (store : Store) (uid : String)
    (ctx : ReqContext) :
    (conversationFor env store uid ctx).1.conv.messages =
      match resolveConversation store uid ctx with
      | some c => c.messages
      | none => [] := by
  unfold conversationFor
  cases resolveConversation store uid ctx <;> rfl

theorem conversationFor_sessionId (env : Env) (store : Store) (uid : String)
    (ctx : ReqContext) :
    (conversationFor env store uid ctx).2 =
      (conversationFor env store uid ctx).1.conv.sessionId := by
  unfold conversationFor
  cases resolveConversation store uid ctx <;> rfl

/-- C1. When the upstream call fails, `sendMessage` leaves the store as it was and no
`save()` has completed (or, for a request without user, throws before touching anything). -/
theorem sendMessage_upstream_failure_no_write (env : Env) (store : Store) (e : AxiosError)
    (req : Request) :
    sendMessage env store (.error e) req = .error "TypeError" ∨
    ∃ out, sendMessage env store (.error e) req = .ok out ∧ out.store = store ∧
      out.saves = [] := by
  cases hu : req.user with
  | none => left; simp [sendMessage, hu]
  | some u =>
    right
    exact ⟨_, sendMessage_of_user hu, sendMessageTry_error env store e u._id req.body⟩

/-- C2. The history sent upstream is the last `min 10 |M|` stored messages of the
resolved conversation, in stored order, each reduced to role and content; it has at most
10 entries and is empty for a new conversation. -/
theorem history_is_last_ten (env : Env) (store : Store) (up : UpstreamResult)
    (req : Request) (u : User) (uid : String) (hu : req.user = some u)
    (hid : u._id = some uid) (hm : rejectsMessage req.body.message = false) :
    ∃ out r, sendMessage env store up req = .ok out ∧ out.sent = some r ∧
      (∀ c, resolveConversation store uid (req.body.context.getD ReqContext.empty) = some c →
        r.context.conversation_history =
          (lastEntries (min 10 c.messages.length) c.messages).map roleAndContent) ∧
      (resolveConversation store uid (req.body.context.getD ReqContext.empty) = none →
        r.context.conversation_history = []) ∧
      r.context.conversation_history.length ≤ 10 := by
  refine ⟨_, upstreamRequest (jsTrim req.body.message.text)
    (req.body.context.getD ReqContext.empty)
    (conversationHistory (conversationFor env store uid
      (req.body.context.getD ReqContext.empty)).1.conv.messages)
    uid (conversationFor env store uid (req.body.context.getD ReqContext.empty)).2,
    sendMessage_of_user hu, ?_, ?_, ?_, ?_⟩
  · rw [hid]; exact sendMessageTry_sent hm
  · intro c hc
    simp only [upstreamRequest, conversationHistory, conversationFor_messages, hc,
      jsSlice_last_ten]
    rfl
  · intro hc
    simp only [upstreamRequest, conversationHistory, conversationFor_messages, hc]
    rfl
  · simp only [upstreamRequest, conversationHistory, jsSlice_last_ten, lastEntries,
      List.length_map, List.length_reverse, List.length_take]
    omega

/-- Witness for C2: a stored conversation with two messages. -/
theorem history_is_last_ten_witness :
    ∃ out r, sendMessage envB [convS1] (.ok payloadA) (sendReq (some (sessionOnly "s1"))) =
        .ok out ∧ out.sent = some r ∧
      (∀ c, resolveConversation [convS1] "u1"
          ((sendReq (some (sessionOnly "s1"))).body.context.getD ReqContext.empty) = some c →
        r.context.conversation_history =
          (lastEntries (min 10 c.messages.length) c.messages).map roleAndContent) ∧
      (resolveConversation [convS1] "u1"
          ((sendReq (some (sessionOnly "s1"))).body.context.getD ReqContext.empty) = none →
        r.context.conversation_history = []) ∧
      r.context.conversation_history.length ≤ 10 :=
  history_is_last_ten envB [convS1] (.ok payloadA) (sendReq (some (sessionOnly "s1")))
    userA "u1" rfl rfl (by decide)

theorem upstreamUserMessage_ne (sc : Nat) :
    upstreamUserMessage sc ≠ "Message is required and must be a non-empty string" := by
  unfold upstreamUserMessage
  split
  · decide
  · split
    · decide
    · split <;> decide

theorem upstreamFailure_message_ne (e : AxiosError) :
    (upstreamFailure e).message ≠ "Message is required and must be a non-empty string" := by
  unfold upstreamFailure
  split
  · decide
  · split
    · decide
    · split
      · exact upstreamUserMessage_ne _
      · decide

theorem afterReply_status (env : Env) (store : Store) (request : UpstreamRequest) (d : Doc)
    (t : String) (context : ReqContext) (ai : AiPayload) :
    (afterReply env store request d t context ai).response.status = 500 ∨
    (afterReply env store request d t context ai).response.status = 200 := by
  unfold afterReply
  cases save store { d with conv := withUserTurn env d.conv t context } env.save1Time with
  | error thrown => left; rfl
  | ok r =>
    obtain ⟨store1, d1⟩ := r
    show (match save store1 { d1 with conv := withAssistantTurn env d1.conv ai }
      env.save2Time with
      | .error thrown => _
      | .ok (store2, d2) => _ : Outcome).response.status = 500 ∨
      (match save store1 { d1 with conv := withAssistantTurn env d1.conv ai }
      env.save2Time with
      | .error thrown => _
      | .ok (store2, d2) => _ : Outcome).response.status = 200
    cases save store1 { d1 with conv := withAssistantTurn env d1.conv ai } env.save2Time with
    | error thrown => left; rfl
    | ok r2 => right; rfl

/-- The claim C4 as stated fails: a well-formed message whose upstream call is answered
with HTTP 400 also yields status 400 with `success: false`, after an upstream call. -/
theorem bad_request_without_invalid_message :
    rejectsMessage (sendReq none).body.message = false ∧
    (sendMessage envA [] (.error upstream400) (sendReq none)).toOption.map
      (fun out => (out.response.status, out.response.success, out.sent.isSome)) =
      some (400, false, true) := by
  decide

/-- C4 (amended). For an authenticated request, `sendMessage` answers with status 400,
`success: false` and the text "Message is required and must be a non-empty string" if and
only if the body's message is not a string or is a string of white space only (the empty
string included); it then makes no upstream call and leaves the store alone. -/
theorem invalid_message_iff (env : Env) (store : Store) (up : UpstreamResult)
    (req : Request) (u : User) (uid : String) (hu : req.user = some u)
    (hid : u._id = some uid) :
    ∃ out, sendMessage env store up req = .ok out ∧
      ((out.response.status = 400 ∧ out.response.success = false ∧
          out.response.message = "Message is required and must be a non-empty string") ↔
        ((∀ s, req.body.message ≠ .string s) ∨
          ∃ s, req.body.message = .string s ∧ s.data.all isJsWhiteSpace = true)) ∧
      (((∀ s, req.body.message ≠ .string s) ∨
          ∃ s, req.body.message = .string s ∧ s.data.all isJsWhiteSpace = true) →
        out.sent = none ∧ out.store = store ∧ out.saves = []) := by
  refine ⟨_, sendMessage_of_user hu, ?_, ?_⟩
  · rw [← rejectsMessage_iff, hid]
    by_cases hm : rejectsMessage req.body.message = true
    · simp [sendMessageTry, hm, failure]
    · have hm' : rejectsMessage req.body.message = false := by simpa using hm
      simp only [hm', Bool.false_eq_true, iff_false]
      rintro ⟨hs, _, hmsg⟩
      simp only [sendMessageTry, hm', Bool.false_eq_true, if_false] at hs hmsg
      cases up with
      | error e => exact upstreamFailure_message_ne e hmsg
      | ok ai =>
        rcases afterReply_status env store
          (upstreamRequest (jsTrim req.body.message.text)
            (req.body.context.getD ReqContext.empty)
            (conversationHistory (conversationFor env store uid
              (req.body.context.getD ReqContext.empty)).1.conv.messages)
            uid (conversationFor env store uid (req.body.context.getD ReqContext.empty)).2)
          (conversationFor env store uid (req.body.context.getD ReqContext.empty)).1
          (jsTrim req.body.message.text) (req.body.context.getD ReqContext.empty) ai
          with h | h
        · simp only [h] at hs
          exact absurd hs (by decide)
        · simp only [h] at hs
          exact absurd hs (by decide)
  · rw [← rejectsMessage_iff, hid]
    intro hm
    simp [sendMessageTry, hm]

/-- Witness for C4 (amended): a message of two blanks. -/
theorem invalid_message_iff_witness :
    ∃ out, sendMessage envA [] (.ok payloadA) blankReq = .ok out ∧
      ((out.response.status = 400 ∧ out.response.success = false ∧
          out.response.message = "Message is required and must be a non-empty string") ↔
        ((∀ s, blankReq.body.message ≠ .string s) ∨
          ∃ s, blankReq.body.message = .string s ∧ s.data.all isJsWhiteSpace = true)) ∧
      (((∀ s, blankReq.body.message ≠ .string s) ∨
          ∃ s, blankReq.body.message = .string s ∧ s.data.all isJsWhiteSpace = true) →
        out.sent = none ∧ out.store = [] ∧ out.saves = []) :=
  invalid_message_iff envA [] (.ok payloadA) blankReq userA "u1" rfl rfl

theorem findById_append_new (store : Store) (c : Conversation)
    (h : findById store c._id = none) : findById (store ++ [c]) c._id = some c := by
  unfold findById findOne at *
  rw [List.find?_append, h]
  simp

theorem findById_replaceById (store : Store) (c : Conversation)
    (h : (findById store c._id).isSome = true) :
    findById (replaceById store c) c._id = some c := by
  induction store with
  | nil => simp [findById, findOne] at h
  | cons d t ih =>
    unfold replaceById
    by_cases hd : d._id = c._id
    · simp [hd, findById, findOne]
    · have ht : (findById t c._id).isSome = true := by
        simpa [findById, findOne, List.find?_cons, hd] using h
      simp only [hd, if_false]
      have := ih ht
      simpa [findById, findOne, List.find?_cons, hd] using this

theorem save_ok {store store1 : Store} {d d1 : Doc} {t : Nat}
    (h : save store d t = .ok (store1, d1)) :
    d1 = { conv := stamped d t, isNew := false } ∧
    validate d.conv = none ∧
    findById store1 d.conv._id = some (stamped d t) ∧
    (d.isNew = true → findById store d.conv._id = none ∧ store1 = store ++ [stamped d t]) ∧
    (d.isNew = false → store1 = replaceById store (stamped d t)) := by
  unfold save at h
  cases hv : validate d.conv with
  | some msg => simp [hv] at h
  | none =>
    simp only [hv] at h
    by_cases hn : d.isNew = true
    · simp only [hn, if_true] at h
      by_cases hf : (findById store d.conv._id).isSome = true
      · simp [hf] at h
      · simp only [hf, Bool.false_eq_true, if_false, Except.ok.injEq, Prod.mk.injEq] at h
        have hnone : findById store d.conv._id = none := by
          simpa using hf
        obtain ⟨h1, h2⟩ := h
        have hst : stamped d t = { d.conv with createdAt := t, updatedAt := t } := by
          simp [stamped, hn]
        refine ⟨?_, rfl, ?_, ?_, ?_⟩
        · rw [← h2, hst]
        · rw [← h1, hst]
          exact findById_append_new store { d.conv with createdAt := t, updatedAt := t } hnone
        · intro _
          exact ⟨hnone, by rw [← h1, hst]⟩
        · intro hfalse
          rw [hn] at hfalse
          exact absurd hfalse (by decide)
    · have hn' : d.isNew = false := by simpa using hn
      simp only [hn', Bool.false_eq_true, if_false] at h
      by_cases hf : (findById store d.conv._id).isSome = true
      · simp only [hf, if_true, Except.ok.injEq, Prod.mk.injEq] at h
        obtain ⟨h1, h2⟩ := h
        have hst : stamped d t = { d.conv with updatedAt := t } := by
          simp [stamped, hn']
        refine ⟨?_, rfl, ?_, ?_, ?_⟩
        · rw [← h2, hst]
        · rw [← h1, hst]
          exact findById_replaceById store { d.conv with updatedAt := t } hf
        · intro htrue
          rw [hn'] at htrue
          exact absurd htrue (by decide)
        · intro _
          rw [← h1, hst]
      · simp [hf] at h

theorem trimChars_idem (cs : List Char) : trimChars (trimChars cs) = trimChars cs := by
  have key : ∀ a : List Char, (∀ x, a.head? = some x → isJsWhiteSpace x = false) →
      List.dropWhile isJsWhiteSpace (List.rdropWhile isJsWhiteSpace a) =
        List.rdropWhile isJsWhiteSpace a := by
    intro a ha
    obtain ⟨t, ht⟩ := List.rdropWhile_prefix isJsWhiteSpace a
    cases hr : List.rdropWhile isJsWhiteSpace a with
    | nil => rfl
    | cons x r =>
      rw [hr] at ht
      have hx : isJsWhiteSpace x = false := ha x (by rw [← ht]; rfl)
      simp [List.dropWhile_cons, hx]
  have hhead : ∀ x, (List.dropWhile isJsWhiteSpace cs).head? = some x →
      isJsWhiteSpace x = false := by
    intro x hx
    have := List.head?_dropWhile_not isJsWhiteSpace cs
    rw [hx] at this
    simpa using this
  have e : ∀ l, trimChars l = List.rdropWhile isJsWhiteSpace (List.dropWhile isJsWhiteSpace l) :=
    fun _ => rfl
  rw [e (trimChars cs), e cs, key _ hhead, List.rdropWhile_idempotent]

theorem jsTrim_idem (s : String) : jsTrim (jsTrim s) = jsTrim s := by
  simp [jsTrim, trimChars_idem]

theorem replaceById_append_new (store : Store) (c c' : Conversation)
    (h : findById store c._id = none) (hid : c._id = c'._id) :
    replaceById (store ++ [c]) c' = store ++ [c'] := by
  induction store with
  | nil => simp [replaceById, hid]
  | cons d t ih =>
    have hd : ¬ d._id = c._id := by
      intro hd
      simp [findById, findOne, List.find?_cons, hd] at h
    have ht : findById t c._id = none := by
      simpa [findById, findOne, List.find?_cons, hd] using h
    have hd' : ¬ d._id = c'._id := by rwa [← hid]
    simp [replaceById, hd', ih ht]

theorem firstSaved_id (env : Env) (d : Doc) (t : String) (ctx : ReqContext) :
    (firstSaved env d t ctx)._id = d.conv._id := by
  unfold firstSaved stamped
  split <;> rfl

theorem secondSaved_id (env : Env) (d : Doc) (t : String) (ctx : ReqContext)
    (ai : AiPayload) : (secondSaved env d t ctx ai)._id = d.conv._id := by
  rw [← firstSaved_id env d t ctx]
  rfl

theorem afterReply_success {env : Env} {store : Store} {request : UpstreamRequest} {d : Doc}
    {t : String} {ctx : ReqContext} {ai : AiPayload}
    (h : (afterReply env store request d t ctx ai).response.success = true) :
    ∃ store1 store2,
      afterReply env store request d t ctx ai =
        { response :=
            { status := 200, success := true, message := aiMessageContent ai,
              error := none, sources := some (ai.sources.getD []),
              context := some (ai.context.getD (secondSaved env d t ctx ai).context) },
          store := store2, sent := some request, saves := [store1, store2] } ∧
      findById store1 d.conv._id = some (firstSaved env d t ctx) ∧
      findById store2 d.conv._id = some (secondSaved env d t ctx ai) ∧
      validate (withAssistantTurn env (firstSaved env d t ctx) ai) = none ∧
      (d.isNew = true → findById store d.conv._id = none ∧
        store1 = store ++ [firstSaved env d t ctx] ∧
        store2 = store ++ [secondSaved env d t ctx ai]) ∧
      (d.isNew = false → store1 = replaceById store (firstSaved env d t ctx) ∧
        store2 = replaceById store1 (secondSaved env d t ctx ai)) := by
  unfold afterReply at h ⊢
  cases h1 : save store { d with conv := withUserTurn env d.conv t ctx } env.save1Time with
  | error thrown =>
    rw [h1] at h
    exact absurd h (by simp [internalError, failure])
  | ok r =>
    obtain ⟨store1, d1⟩ := r
    rw [h1] at h
    simp only at h ⊢
    obtain ⟨hd1, -, hf1, hnew1, hold1⟩ := save_ok h1
    cases h2 : save store1 { d1 with conv := withAssistantTurn env d1.conv ai }
        env.save2Time with
    | error thrown =>
      rw [h2] at h
      exact absurd h (by simp [internalError, failure])
    | ok r2 =>
      obtain ⟨store2, d2⟩ := r2
      obtain ⟨hd2, hv2, hf2, -, hold2⟩ := save_ok h2
      have e1 : d1.conv = firstSaved env d t ctx := by rw [hd1]; rfl
      have e1n : d1.isNew = false := by rw [hd1]
      have e2 : stamped { d1 with conv := withAssistantTurn env d1.conv ai } env.save2Time =
          secondSaved env d t ctx ai := by
        rw [secondSaved, ← e1]
        simp [stamped, e1n]
      have e2c : d2.conv = secondSaved env d t ctx ai := by rw [hd2, ← e2]
      have hid1 : (firstSaved env d t ctx)._id = d.conv._id := firstSaved_id env d t ctx
      have hid2 : (secondSaved env d t ctx ai)._id = d.conv._id :=
        secondSaved_id env d t ctx ai
      refine ⟨store1, store2, ?_, ?_, ?_, ?_, ?_, ?_⟩
      · simp only [e2c]
      · exact hf1
      · have := hf2
        simp only [e2] at this
        have hwid : (withAssistantTurn env d1.conv ai)._id = d.conv._id := by
          rw [e1]; exact hid1
        rw [← hwid]
        exact this
      · have := hv2
        simpa [e1] using this
      · intro hn
        obtain ⟨hnone, hs1⟩ := hnew1 hn
        refine ⟨hnone, hs1, ?_⟩
        have hs2 := hold2 e1n
        rw [e2] at hs2
        rw [hs2, hs1]
        apply replaceById_append_new
        · show findById store (firstSaved env d t ctx)._id = none
          rw [hid1]; exact hnone
        · show (firstSaved env d t ctx)._id = _
          rw [hid1, hid2]
      · intro hn
        refine ⟨hold1 hn, ?_⟩
        have hs2 := hold2 e1n
        rw [e2] at hs2
        exact hs2

theorem get_set_self (p : Prefs) (k : String) (v : JsValue) :
    (Prefs.set p k v).get k = some v := by
  induction p with
  | nil => simp [Prefs.set, Prefs.get]
  | cons e t ih =>
    obtain ⟨k', v'⟩ := e
    by_cases hk : k' = k
    · simp [Prefs.set, Prefs.get, hk]
    · simp [Prefs.set, Prefs.get, hk, ih]

theorem get_set_ne (p : Prefs) (k k' : String) (v : JsValue) (h : k' ≠ k) :
    (Prefs.set p k' v).get k = p.get k := by
  induction p with
  | nil => simp [Prefs.set, Prefs.get, h]
  | cons e t ih =>
    obtain ⟨k'', v''⟩ := e
    by_cases hk : k'' = k'
    · subst hk
      simp [Prefs.set, Prefs.get, h]
    · by_cases hk2 : k'' = k
      · subst hk2
        simp [Prefs.set, Prefs.get, hk]
      · simp [Prefs.set, Prefs.get, hk, hk2, ih]

theorem get_eq_none_of_not_mem (p : Prefs) (k : String) (h : k ∉ p.map Prod.fst) :
    p.get k = none := by
  induction p with
  | nil => rfl
  | cons e t ih =>
    obtain ⟨k', v'⟩ := e
    simp only [List.map_cons, List.mem_cons, not_or] at h
    have hne : ¬ k' = k := fun hk => h.1 hk.symm
    simp [Prefs.get, hne, ih h.2]

theorem get_spread (a b : Prefs) (k : String) (hb : distinctKeys b) :
    (spread a b).get k = overlayGet a (some b) k := by
  induction b generalizing a with
  | nil => simp [spread, overlayGet, Prefs.get]
  | cons e t ih =>
    obtain ⟨k', v'⟩ := e
    have hb' : k' ∉ t.map Prod.fst ∧ distinctKeys t := by
      simpa [distinctKeys] using hb
    have hs : spread a ((k', v') :: t) = spread (Prefs.set a k' v') t := rfl
    rw [hs, ih _ hb'.2]
    by_cases hk : k' = k
    · subst hk
      simp [overlayGet, Prefs.get, get_eq_none_of_not_mem t k' hb'.1, get_set_self]
    · simp [overlayGet, Prefs.get, hk, get_set_ne a k k' v' hk]

theorem sendMessage_success {env : Env} {store : Store} {up : UpstreamResult}
    {req : Request} {u : User} {uid : String} {out : Outcome} (hu : req.user = some u)
    (hid : u._id = some uid) (hs : sendMessage env store up req = .ok out)
    (hok : out.response.success = true) :
    rejectsMessage req.body.message = false ∧
    ∃ ai, up = .ok ai ∧
      out = afterReply env store
        (upstreamRequest (jsTrim req.body.message.text)
          (req.body.context.getD ReqContext.empty)
          (conversationHistory (conversationFor env store uid
            (req.body.context.getD ReqContext.empty)).1.conv.messages)
          uid (conversationFor env store uid (req.body.context.getD ReqContext.empty)).2)
        (conversationFor env store uid (req.body.context.getD ReqContext.empty)).1
        (jsTrim req.body.message.text) (req.body.context.getD ReqContext.empty) ai := by
  rw [sendMessage_of_user hu, hid] at hs
  have hout : out = sendMessageTry env store up (some uid) req.body := by
    injection hs with hs
    exact hs.symm
  subst hout
  by_cases hm : rejectsMessage req.body.message = true
  · simp [sendMessageTry, hm, failure] at hok
  · have hm' : rejectsMessage req.body.message = false := by simpa using hm
    refine ⟨hm', ?_⟩
    cases up with
    | error e =>
      exfalso
      simp only [sendMessageTry, hm', Bool.false_eq_true, if_false] at hok
      revert hok
      unfold upstreamFailure failure
      split
      · simp
      · split
        · simp
        · split <;> simp
    | ok ai =>
      refine ⟨ai, rfl, ?_⟩
      simp [sendMessageTry, hm']

theorem conversationFor_id (env : Env) (store : Store) (uid : String) (ctx : ReqContext) :
    (conversationFor env store uid ctx).1.conv._id = targetId env store uid ctx := by
  unfold conversationFor targetId
  cases resolveConversation store uid ctx <;> rfl

theorem conversationFor_priorMessages (env : Env) (store : Store) (uid : String)
    (ctx : ReqContext) :
    (conversationFor env store uid ctx).1.conv.messages = priorMessages store uid ctx := by
  unfold conversationFor priorMessages
  cases resolveConversation store uid ctx <;> rfl

theorem firstSaved_messages (env : Env) (d : Doc) (s : String) (ctx : ReqContext) :
    (firstSaved env d (jsTrim s) ctx).messages =
      d.conv.messages ++ [userMessage env (jsTrim s)] := by
  unfold firstSaved stamped
  split <;> simp [withUserTurn, castMessage, userMessage, jsTrim_idem]

theorem secondSaved_messages (env : Env) (d : Doc) (s : String) (ctx : ReqContext)
    (ai : AiPayload) :
    (secondSaved env d (jsTrim s) ctx ai).messages =
      d.conv.messages ++ [userMessage env (jsTrim s), assistantMessage env ai] := by
  have h : (secondSaved env d (jsTrim s) ctx ai).messages =
      (firstSaved env d (jsTrim s) ctx).messages ++ [assistantMessage env ai] := by
    simp [secondSaved, stamped, withAssistantTurn, castMessage, assistantMessage]
  rw [h, firstSaved_messages]
  simp

theorem secondSaved_context (env : Env) (d : Doc) (t : String) (ctx : ReqContext)
    (ai : AiPayload) :
    (secondSaved env d t ctx ai).context = (withUserTurn env d.conv t ctx).context := by
  unfold secondSaved firstSaved stamped
  split <;> simp [withAssistantTurn]

theorem secondSaved_sessionId (env : Env) (d : Doc) (t : String) (ctx : ReqContext)
    (ai : AiPayload) : (secondSaved env d t ctx ai).sessionId = d.conv.sessionId := by
  unfold secondSaved firstSaved stamped
  split <;> simp [withAssistantTurn, withUserTurn]

theorem secondSaved_userId (env : Env) (d : Doc) (t : String) (ctx : ReqContext)
    (ai : AiPayload) : (secondSaved env d t ctx ai).userId = d.conv.userId := by
  unfold secondSaved firstSaved stamped
  split <;> simp [withAssistantTurn, withUserTurn]

/-- C3. A successful send on a conversation with stored messages `M` completes two saves:
the first stores `M` followed by the user message (role `user`, content the trimmed request
text) alone, the second and final one stores `M`, the user message and then the assistant
message (role `assistant`). -/
theorem successful_send_appends_two (env : Env) (store : Store) (up : UpstreamResult)
    (req : Request) (u : User) (uid : String) (out : Outcome) (hu : req.user = some u)
    (hid : u._id = some uid) (hs : sendMessage env store up req = .ok out)
    (hok : out.response.success = true) :
    ∃ ai s1, up = .ok ai ∧ out.saves = [s1, out.store] ∧
      (findById s1 (targetId env store uid (req.body.context.getD ReqContext.empty))).map
          (fun c => c.messages) =
        some (priorMessages store uid (req.body.context.getD ReqContext.empty) ++
          [({ role := "user", content := jsTrim req.body.message.text,
              timestamp := env.userTime, sources := [] } : Message)]) ∧
      (findById out.store (targetId env store uid (req.body.context.getD ReqContext.empty))).map
          (fun c => c.messages) =
        some (priorMessages store uid (req.body.context.getD ReqContext.empty) ++
          [({ role := "user", content := jsTrim req.body.message.text,
              timestamp := env.userTime, sources := [] } : Message),
           ({ role := "assistant", content := jsTrim (aiMessageContent ai),
              timestamp := env.aiTime, sources := ai.sources.getD [] } : Message)]) := by
  obtain ⟨-, ai, hup, hout⟩ := sendMessage_success hu hid hs hok
  rw [hout] at hok
  obtain ⟨store1, store2, heq, hf1, hf2, -, -, -⟩ := afterReply_success hok
  rw [heq] at hout
  refine ⟨ai, store1, hup, ?_, ?_, ?_⟩
  · rw [hout]
  · rw [← conversationFor_id env, hf1, ← conversationFor_priorMessages env]
    simp only [Option.map_some', firstSaved_messages]
    rfl
  · rw [hout]
    simp only
    rw [← conversationFor_id env, hf2, ← conversationFor_priorMessages env]
    simp only [Option.map_some', secondSaved_messages]
    rfl

/-- Witness for C3: a send on the stored conversation `convS1`. -/
theorem successful_send_appends_two_witness :
    ∃ ai s1, (UpstreamResult.ok payloadA) = .ok ai ∧ outS1.saves = [s1, outS1.store] ∧
      (findById s1 (targetId envB [convS1] "u1"
          ((sendReq (some (sessionOnly "s1"))).body.context.getD ReqContext.empty))).map
          (fun c => c.messages) =
        some (priorMessages [convS1] "u1"
            ((sendReq (some (sessionOnly "s1"))).body.context.getD ReqContext.empty) ++
          [({ role := "user",
              content := jsTrim (sendReq (some (sessionOnly "s1"))).body.message.text,
              timestamp := envB.userTime, sources := [] } : Message)]) ∧
      (findById outS1.store (targetId envB [convS1] "u1"
          ((sendReq (some (sessionOnly "s1"))).body.context.getD ReqContext.empty))).map
          (fun c => c.messages) =
        some (priorMessages [convS1] "u1"
            ((sendReq (some (sessionOnly "s1"))).body.context.getD ReqContext.empty) ++
          [({ role := "user",
              content := jsTrim (sendReq (some (sessionOnly "s1"))).body.message.text,
              timestamp := envB.userTime, sources := [] } : Message),
           ({ role := "assistant", content := jsTrim (aiMessageContent ai),
              timestamp := envB.aiTime, sources := ai.sources.getD [] } : Message)]) :=
  successful_send_appends_two envB [convS1] (.ok payloadA)
    (sendReq (some (sessionOnly "s1"))) userA "u1" outS1 rfl rfl rfl (by decide)

theorem orDefault_empty (x : Option String) : orDefault x "" = x.getD "" := by
  cases x with
  | none => rfl
  | some s =>
    by_cases h : s = ""
    · simp [orDefault, h]
    · simp [orDefault, h]

theorem overlay_eq (stored : String) (x : Option String) :
    (if truthy x then x.getD "" else stored) = overlay stored x := by
  cases x with
  | none => simp [truthy, overlay]
  | some s =>
    by_cases h : s = ""
    · simp [truthy, overlay, h]
    · simp [truthy, overlay, h]

/-- The claim C5 as stated fails: a send that resolves to `convS1` (stored university
`MIT`, stage `year1`, one stored preference) and supplies no context fields posts the
empty university, stage and preferences upstream. -/
theorem outbound_context_ignores_stored :
    resolveConversation [convS1] "u1" (sessionOnly "s1") = some convS1 ∧
    convS1.context =
      { university := "MIT", stage := "year1", preferences := [("lang", .string "en")] } ∧
    ((sendMessage envB [convS1] (.ok payloadA) (sendReq (some (sessionOnly "s1")))).toOption.bind
        (fun out => out.sent)).map
      (fun r => (r.context.university, r.context.stage, r.context.preferences)) =
      some ("", "", []) := by
  decide

/-- C5 (amended). The context sent upstream is built from the request alone, whatever
the store holds: university and stage are the request's values (the empty string when
absent), preferences are the request's preferences (the empty object when absent). -/
theorem outbound_context_from_request (env : Env) (store : Store) (up : UpstreamResult)
    (req : Request) (u : User) (uid : String) (hu : req.user = some u)
    (hid : u._id = some uid) (hm : rejectsMessage req.body.message = false) :
    ∃ out r, sendMessage env store up req = .ok out ∧ out.sent = some r ∧
      r.context.university = (req.body.context.getD ReqContext.empty).university.getD "" ∧
      r.context.stage = (req.body.context.getD ReqContext.empty).stage.getD "" ∧
      r.context.preferences = (req.body.context.getD ReqContext.empty).preferences.getD [] := by
  refine ⟨_, upstreamRequest (jsTrim req.body.message.text)
    (req.body.context.getD ReqContext.empty)
    (conversationHistory (conversationFor env store uid
      (req.body.context.getD ReqContext.empty)).1.conv.messages)
    uid (conversationFor env store uid (req.body.context.getD ReqContext.empty)).2,
    sendMessage_of_user hu, ?_, ?_, ?_, ?_⟩
  · rw [hid]; exact sendMessageTry_sent hm
  · exact orDefault_empty _
  · exact orDefault_empty _
  · rfl

/-- Witness for C5 (amended). -/
theorem outbound_context_from_request_witness :
    ∃ out r, sendMessage envB [convS1] (.ok payloadA) (sendReq (some (prefsOnly "s1"))) =
        .ok out ∧ out.sent = some r ∧
      r.context.university =
        ((sendReq (some (prefsOnly "s1"))).body.context.getD ReqContext.empty).university.getD
          "" ∧
      r.context.stage =
        ((sendReq (some (prefsOnly "s1"))).body.context.getD ReqContext.empty).stage.getD "" ∧
      r.context.preferences =
        ((sendReq (some (prefsOnly "s1"))).body.context.getD
          ReqContext.empty).preferences.getD [] :=
  outbound_context_from_request envB [convS1] (.ok payloadA)
    (sendReq (some (prefsOnly "s1"))) userA "u1" rfl rfl (by decide)

theorem conversationFor_context (env : Env) (store : Store) (uid : String)
    (ctx : ReqContext) (t : String) :
    (withUserTurn env (conversationFor env store uid ctx).1.conv t ctx).context.university =
      overlay (priorContext store uid ctx).university ctx.university ∧
    (withUserTurn env (conversationFor env store uid ctx).1.conv t ctx).context.stage =
      overlay (priorContext store uid ctx).stage ctx.stage ∧
    ((∀ p, ctx.preferences = some p → distinctKeys p) → ∀ k,
      (withUserTurn env (conversationFor env store uid ctx).1.conv t ctx).context.preferences.get
          k =
        overlayGet (priorContext store uid ctx).preferences ctx.preferences k) := by
  unfold conversationFor priorContext
  cases resolveConversation store uid ctx with
  | some c =>
    refine ⟨overlay_eq _ _, overlay_eq _ _, ?_⟩
    intro hp k
    cases hpr : ctx.preferences with
    | none => simp [withUserTurn, hpr, overlayGet]
    | some p =>
      simp only [withUserTurn, hpr]
      exact get_spread _ _ _ (hp p hpr)
  | none =>
    refine ⟨?_, ?_, ?_⟩
    · simp only [withUserTurn, overlay_eq, orDefault_empty]
      cases ctx.university with
      | none => rfl
      | some v => by_cases h : v = "" <;> simp [overlay, h]
    · simp only [withUserTurn, overlay_eq, orDefault_empty]
      cases ctx.stage with
      | none => rfl
      | some v => by_cases h : v = "" <;> simp [overlay, h]
    · intro hp k
      cases hpr : ctx.preferences with
      | none => simp [withUserTurn, hpr, overlayGet]
      | some p =>
        simp only [withUserTurn, hpr, Option.getD_some]
        rw [get_spread _ _ _ (hp p hpr)]
        simp only [overlayGet]
        cases p.get k <;> simp [Prefs.get]

/-- C6. After a successful send the stored context of the conversation is the previous
one merged with the request: university and stage take the request's value when it is
non-empty and keep the stored value otherwise; each preference key takes the request's
value when the request has the key and keeps its stored value otherwise. -/
theorem stored_context_is_merged (env : Env) (store : Store) (up : UpstreamResult)
    (req : Request) (u : User) (uid : String) (out : Outcome) (hu : req.user = some u)
    (hid : u._id = some uid) (hs : sendMessage env store up req = .ok out)
    (hok : out.response.success = true)
    (hkeys : ∀ p, (req.body.context.getD ReqContext.empty).preferences = some p →
      distinctKeys p) :
    ∃ c, findById out.store (targetId env store uid (req.body.context.getD ReqContext.empty)) =
        some c ∧
      c.context.university =
        overlay (priorContext store uid (req.body.context.getD ReqContext.empty)).university
          (req.body.context.getD ReqContext.empty).university ∧
      c.context.stage =
        overlay (priorContext store uid (req.body.context.getD ReqContext.empty)).stage
          (req.body.context.getD ReqContext.empty).stage ∧
      ∀ k, c.context.preferences.get k =
        overlayGet (priorContext store uid (req.body.context.getD ReqContext.empty)).preferences
          (req.body.context.getD ReqContext.empty).preferences k := by
  obtain ⟨-, ai, -, hout⟩ := sendMessage_success hu hid hs hok
  rw [hout] at hok
  obtain ⟨store1, store2, heq, -, hf2, -, -, -⟩ := afterReply_success hok
  rw [heq] at hout
  obtain ⟨h1, h2, h3⟩ := conversationFor_context env store uid
    (req.body.context.getD ReqContext.empty) (jsTrim req.body.message.text)
  refine ⟨secondSaved env
    (conversationFor env store uid (req.body.context.getD ReqContext.empty)).1
    (jsTrim req.body.message.text) (req.body.context.getD ReqContext.empty) ai,
    ?_, ?_, ?_, ?_⟩
  · rw [hout, ← conversationFor_id env]
    exact hf2
  · rw [secondSaved_context]; exact h1
  · rw [secondSaved_context]; exact h2
  · intro k
    rw [secondSaved_context]; exact h3 hkeys k

/-- Witness for C6: stored `MIT`/`year1`/`lang`, request stage `year2` and key `theme`. -/
theorem stored_context_is_merged_witness :
    ∃ c, findById outPrefs.store (targetId envB [convS1] "u1"
          ((sendReq (some (prefsOnly "s1"))).body.context.getD ReqContext.empty)) = some c ∧
      c.context.university =
        overlay (priorContext [convS1] "u1"
            ((sendReq (some (prefsOnly "s1"))).body.context.getD ReqContext.empty)).university
          ((sendReq (some (prefsOnly "s1"))).body.context.getD ReqContext.empty).university ∧
      c.context.stage =
        overlay (priorContext [convS1] "u1"
            ((sendReq (some (prefsOnly "s1"))).body.context.getD ReqContext.empty)).stage
          ((sendReq (some (prefsOnly "s1"))).body.context.getD ReqContext.empty).stage ∧
      ∀ k, c.context.preferences.get k =
        overlayGet (priorContext [convS1] "u1"
            ((sendReq (some (prefsOnly "s1"))).body.context.getD
              ReqContext.empty)).preferences
          ((sendReq (some (prefsOnly "s1"))).body.context.getD ReqContext.empty).preferences
          k :=
  stored_context_is_merged envB [convS1] (.ok payloadA) (sendReq (some (prefsOnly "s1")))
    userA "u1" outPrefs rfl rfl rfl (by decide)
    (by
      intro p hp
      have : p = [("theme", .string "dark")] := by
        have h : some [("theme", JsValue.string "dark")] = some p := hp
        injection h with h
        exact h.symm
      subst this
      decide)

theorem conversationFor_of_none (env : Env) {store : Store} {uid : String} {ctx : ReqContext}
    (h : resolveConversation store uid ctx = none) :
    (conversationFor env store uid ctx).1.isNew = true ∧
    (conversationFor env store uid ctx).1.conv._id = env.newId ∧
    (conversationFor env store uid ctx).1.conv.userId = uid ∧
    (conversationFor env store uid ctx).1.conv.sessionId =
      orDefault ctx.sessionId (generatedSessionId uid env.now) ∧
    (conversationFor env store uid ctx).1.conv.messages = [] := by
  unfold conversationFor
  rw [h]
  exact ⟨rfl, rfl, rfl, rfl, rfl⟩

theorem conversationFor_of_some (env : Env) {store : Store} {uid : String} {ctx : ReqContext}
    {c : Conversation} (h : resolveConversation store uid ctx = some c) :
    (conversationFor env store uid ctx).1 = { conv := c, isNew := false } := by
  unfold conversationFor
  rw [h]

theorem send_creates {env : Env} {store : Store} {up : UpstreamResult} {req : Request}
    {u : User} {uid : String} {out : Outcome} (hu : req.user = some u)
    (hid : u._id = some uid) (hs : sendMessage env store up req = .ok out)
    (hok : out.response.success = true)
    (hnone : resolveConversation store uid (req.body.context.getD ReqContext.empty) = none) :
    ∃ c, out.store = store ++ [c] ∧ findById store c._id = none ∧ c._id = env.newId ∧
      c.userId = uid ∧
      c.sessionId = orDefault (req.body.context.getD ReqContext.empty).sessionId
        (generatedSessionId uid env.now) := by
  obtain ⟨-, ai, -, hout⟩ := sendMessage_success hu hid hs hok
  rw [hout] at hok
  obtain ⟨store1, store2, heq, -, -, -, hnew, -⟩ := afterReply_success hok
  rw [heq] at hout
  obtain ⟨hn, hi, hui, hsi, -⟩ := conversationFor_of_none env hnone
  obtain ⟨hfn, -, h2⟩ := hnew hn
  refine ⟨secondSaved env
    (conversationFor env store uid (req.body.context.getD ReqContext.empty)).1
    (jsTrim req.body.message.text) (req.body.context.getD ReqContext.empty) ai,
    ?_, ?_, ?_, ?_, ?_⟩
  · rw [hout]; exact h2
  · rw [secondSaved_id]; exact hfn
  · rw [secondSaved_id]; exact hi
  · rw [secondSaved_userId]; exact hui
  · rw [secondSaved_sessionId]; exact hsi

theorem send_updates_last {env : Env} {pre : Store} {c : Conversation}
    {up : UpstreamResult} {req : Request} {u : User} {uid : String} {out : Outcome}
    (hu : req.user = some u) (hid : u._id = some uid)
    (hs : sendMessage env (pre ++ [c]) up req = .ok out)
    (hok : out.response.success = true)
    (hpre : findById pre c._id = none)
    (hres : resolveConversation (pre ++ [c]) uid (req.body.context.getD ReqContext.empty) =
      some c) :
    ∃ c' m1 m2, out.store = pre ++ [c'] ∧ c'._id = c._id ∧ c'.userId = c.userId ∧
      c'.sessionId = c.sessionId ∧ c'.messages = c.messages ++ [m1, m2] := by
  obtain ⟨-, ai, -, hout⟩ := sendMessage_success hu hid hs hok
  rw [hout] at hok
  obtain ⟨store1, store2, heq, -, -, -, -, hold⟩ := afterReply_success hok
  rw [heq] at hout
  have hd := conversationFor_of_some env hres
  rw [hd] at hold
  obtain ⟨h1, h2⟩ := hold rfl
  have hid1 := firstSaved_id env { conv := c, isNew := false } (jsTrim req.body.message.text)
    (req.body.context.getD ReqContext.empty)
  have hid2 := secondSaved_id env { conv := c, isNew := false } (jsTrim req.body.message.text)
    (req.body.context.getD ReqContext.empty) ai
  simp only at hid1 hid2
  rw [replaceById_append_new pre c _ hpre hid1.symm] at h1
  rw [h1, replaceById_append_new pre _ _ (by rw [hid1]; exact hpre)
    (by rw [hid1, hid2])] at h2
  refine ⟨secondSaved env { conv := c, isNew := false } (jsTrim req.body.message.text)
    (req.body.context.getD ReqContext.empty) ai,
    userMessage env (jsTrim req.body.message.text), assistantMessage env ai,
    ?_, hid2, ?_, ?_, ?_⟩
  · rw [hout]; exact h2
  · exact secondSaved_userId _ _ _ _ _
  · exact secondSaved_sessionId _ _ _ _ _
  · exact secondSaved_messages _ _ _ _ _

theorem resolve_by_session (store : Store) (uid s : String) (ctx : ReqContext)
    (hc : ctx.sessionId = some s) (hs : s ≠ "") :
    resolveConversation store uid ctx =
      store.find? (fun c => c.userId == uid && c.sessionId == s) := by
  simp [resolveConversation, findOne, hc, truthy, hs]

theorem resolve_by_user (store : Store) (uid : String) (ctx : ReqContext)
    (hc : ctx.sessionId = none ∨ ctx.sessionId = some "") :
    resolveConversation store uid ctx = store.find? (fun c => c.userId == uid) := by
  rcases hc with hc | hc <;> simp [resolveConversation, findOne, hc, truthy]

theorem find?_none_of_countP {α : Type} (p : α → Bool) (l : List α)
    (h : l.countP p = 0) : l.find? p = none := by
  rw [List.find?_eq_none]
  intro x hx hpx
  have : 0 < l.countP p := List.countP_pos_iff.mpr ⟨x, hx, hpx⟩
  omega

/-- C7. When no conversation is stored for `(u, s)`, a first successful send naming `s`
leaves exactly one, and a second successful send naming `s` appends its two messages to
that same conversation: there is still exactly one. -/
theorem one_conversation_per_session (env1 env2 : Env) (store : Store)
    (up1 up2 : UpstreamResult) (req1 req2 : Request) (u1 u2 : User) (uid s : String)
    (out1 out2 : Outcome) (hs : s ≠ "") (hfresh : countFor store uid s = 0)
    (hu1 : req1.user = some u1) (hid1 : u1._id = some uid)
    (hc1 : (req1.body.context.getD ReqContext.empty).sessionId = some s)
    (hr1 : sendMessage env1 store up1 req1 = .ok out1)
    (hok1 : out1.response.success = true)
    (hu2 : req2.user = some u2) (hid2 : u2._id = some uid)
    (hc2 : (req2.body.context.getD ReqContext.empty).sessionId = some s)
    (hr2 : sendMessage env2 out1.store up2 req2 = .ok out2)
    (hok2 : out2.response.success = true) :
    countFor out1.store uid s = 1 ∧ countFor out2.store uid s = 1 ∧
    out2.store.length = out1.store.length ∧
    ∃ c1 c2 m1 m2,
      findOne out1.store (fun c => c.userId == uid && c.sessionId == s) = some c1 ∧
      findOne out2.store (fun c => c.userId == uid && c.sessionId == s) = some c2 ∧
      c2._id = c1._id ∧ c2.messages = c1.messages ++ [m1, m2] := by
  have hnone : store.find? (fun c => c.userId == uid && c.sessionId == s) = none :=
    find?_none_of_countP _ _ hfresh
  have hres1 : resolveConversation store uid (req1.body.context.getD ReqContext.empty) =
      none := by
    rw [resolve_by_session store uid s _ hc1 hs]; exact hnone
  obtain ⟨c1, hst1, hpre, -, hcu, hcs⟩ := send_creates hu1 hid1 hr1 hok1 hres1
  have hcs' : c1.sessionId = s := by
    rw [hcs, hc1]; simp [orDefault, hs]
  have hp1 : (c1.userId == uid && c1.sessionId == s) = true := by simp [hcu, hcs']
  have hfind1 : (store ++ [c1]).find? (fun c => c.userId == uid && c.sessionId == s) =
      some c1 := by
    rw [List.find?_append, hnone]
    simp [hcu, hcs']
  have hres2 : resolveConversation (store ++ [c1]) uid
      (req2.body.context.getD ReqContext.empty) = some c1 := by
    rw [resolve_by_session _ uid s _ hc2 hs]; exact hfind1
  rw [hst1] at hr2
  obtain ⟨c2, m1, m2, hst2, hi2, hu2', hs2', hm2⟩ :=
    send_updates_last hu2 hid2 hr2 hok2 hpre hres2
  have hp2 : (c2.userId == uid && c2.sessionId == s) = true := by
    rw [hu2', hs2']; exact hp1
  refine ⟨?_, ?_, ?_, c1, c2, m1, m2, ?_, ?_, hi2, hm2⟩
  · rw [hst1]
    unfold countFor at hfresh ⊢
    rw [List.countP_append, hfresh]
    simp [List.countP_cons, hp1]
  · rw [hst2]
    unfold countFor at hfresh ⊢
    rw [List.countP_append, hfresh]
    simp [List.countP_cons, hp2]
  · rw [hst1, hst2]; simp
  · rw [hst1]; exact hfind1
  · rw [hst2]
    unfold findOne
    rw [List.find?_append, hnone]
    simp [hp2]

/-- Witness for C7: two sends of `userA` naming session `s1`, starting from the empty
store. -/
theorem one_conversation_per_session_witness :
    countFor outFirst.store "u1" "s1" = 1 ∧ countFor outSecond.store "u1" "s1" = 1 ∧
    outSecond.store.length = outFirst.store.length ∧
    ∃ c1 c2 m1 m2,
      findOne outFirst.store (fun c => c.userId == "u1" && c.sessionId == "s1") = some c1 ∧
      findOne outSecond.store (fun c => c.userId == "u1" && c.sessionId == "s1") = some c2 ∧
      c2._id = c1._id ∧ c2.messages = c1.messages ++ [m1, m2] :=
  one_conversation_per_session envA envB [] (.ok payloadA) (.ok payloadA)
    (sendReq (some (sessionOnly "s1"))) (sendReq (some (sessionOnly "s1"))) userA userA
    "u1" "s1" outFirst outSecond (by decide) (by decide) rfl rfl rfl rfl (by decide)
    rfl rfl rfl rfl (by decide)

/-- C8. The `sessionId` sent upstream is the stored one when a conversation is resolved
(by user and session when a non-empty `context.sessionId` is given, else by user alone);
for a new conversation it is the client-supplied one when given and otherwise
`session_<userId>_<creation time in ms>`. A successful send keeps it on the stored
conversation. -/
theorem session_id_rule (env : Env) (store : Store) (up : UpstreamResult) (req : Request)
    (u : User) (uid : String) (hu : req.user = some u) (hid : u._id = some uid)
    (hm : rejectsMessage req.body.message = false) :
    ∃ out r, sendMessage env store up req = .ok out ∧ out.sent = some r ∧
      (∀ s, (req.body.context.getD ReqContext.empty).sessionId = some s → s ≠ "" →
        resolveConversation store uid (req.body.context.getD ReqContext.empty) =
          store.find? (fun c => c.userId == uid && c.sessionId == s)) ∧
      (((req.body.context.getD ReqContext.empty).sessionId = none ∨
          (req.body.context.getD ReqContext.empty).sessionId = some "") →
        resolveConversation store uid (req.body.context.getD ReqContext.empty) =
          store.find? (fun c => c.userId == uid)) ∧
      (∀ c, resolveConversation store uid (req.body.context.getD ReqContext.empty) = some c →
        r.sessionId = c.sessionId) ∧
      (resolveConversation store uid (req.body.context.getD ReqContext.empty) = none →
        ∀ s, (req.body.context.getD ReqContext.empty).sessionId = some s → s ≠ "" →
          r.sessionId = s) ∧
      (resolveConversation store uid (req.body.context.getD ReqContext.empty) = none →
        ((req.body.context.getD ReqContext.empty).sessionId = none ∨
          (req.body.context.getD ReqContext.empty).sessionId = some "") →
        r.sessionId = "session_" ++ uid ++ "_" ++ toString env.now) ∧
      (out.response.success = true →
        ∃ c, findById out.store
            (targetId env store uid (req.body.context.getD ReqContext.empty)) = some c ∧
          c.sessionId = r.sessionId) := by
  refine ⟨sendMessageTry env store up (some uid) req.body,
    upstreamRequest (jsTrim req.body.message.text)
      (req.body.context.getD ReqContext.empty)
      (conversationHistory (conversationFor env store uid
        (req.body.context.getD ReqContext.empty)).1.conv.messages)
      uid (conversationFor env store uid (req.body.context.getD ReqContext.empty)).2,
    ?_, sendMessageTry_sent hm, ?_, ?_, ?_, ?_, ?_, ?_⟩
  · rw [sendMessage_of_user hu, hid]
  · intro s hc hs
    exact resolve_by_session store uid s _ hc hs
  · intro hc
    exact resolve_by_user store uid _ hc
  · intro c hc
    simp only [upstreamRequest, conversationFor_sessionId, conversationFor_of_some env hc]
  · intro hn s hc hs
    simp only [upstreamRequest, conversationFor_sessionId]
    rw [(conversationFor_of_none env hn).2.2.2.1, hc]
    simp [orDefault, hs]
  · intro hn hc
    simp only [upstreamRequest, conversationFor_sessionId]
    rw [(conversationFor_of_none env hn).2.2.2.1]
    rcases hc with hc | hc <;> rw [hc] <;> simp [orDefault, generatedSessionId]
  · intro hok
    have hs : sendMessage env store up req =
        .ok (sendMessageTry env store up (some uid) req.body) := by
      rw [sendMessage_of_user hu, hid]
    obtain ⟨-, ai, -, hout⟩ := sendMessage_success hu hid hs hok
    rw [hout] at hok
    obtain ⟨store1, store2, heq, -, hf2, -, -, -⟩ := afterReply_success hok
    rw [heq] at hout
    refine ⟨secondSaved env
      (conversationFor env store uid (req.body.context.getD ReqContext.empty)).1
      (jsTrim req.body.message.text) (req.body.context.getD ReqContext.empty) ai, ?_, ?_⟩
    · rw [hout, ← conversationFor_id env]
      exact hf2
    · rw [secondSaved_sessionId]
      simp only [upstreamRequest, conversationFor_sessionId]

/-- Witness for C8: a first send without `sessionId` on the empty store. -/
theorem session_id_rule_witness :
    ∃ out r, sendMessage envA [] (.ok payloadA) (sendReq none) = .ok out ∧
      out.sent = some r ∧
      (∀ s, ((sendReq none).body.context.getD ReqContext.empty).sessionId = some s → s ≠ "" →
        resolveConversation [] "u1" ((sendReq none).body.context.getD ReqContext.empty) =
          List.find? (fun c => c.userId == "u1" && c.sessionId == s) ([] : Store)) ∧
      ((((sendReq none).body.context.getD ReqContext.empty).sessionId = none ∨
          ((sendReq none).body.context.getD ReqContext.empty).sessionId = some "") →
        resolveConversation [] "u1" ((sendReq none).body.context.getD ReqContext.empty) =
          List.find? (fun c => c.userId == "u1") ([] : Store)) ∧
      (∀ c, resolveConversation [] "u1" ((sendReq none).body.context.getD ReqContext.empty) =
          some c → r.sessionId = c.sessionId) ∧
      (resolveConversation [] "u1" ((sendReq none).body.context.getD ReqContext.empty) = none →
        ∀ s, ((sendReq none).body.context.getD ReqContext.empty).sessionId = some s → s ≠ "" →
          r.sessionId = s) ∧
      (resolveConversation [] "u1" ((sendReq none).body.context.getD ReqContext.empty) = none →
        (((sendReq none).body.context.getD ReqContext.empty).sessionId = none ∨
          ((sendReq none).body.context.getD ReqContext.empty).sessionId = some "") →
        r.sessionId = "session_" ++ "u1" ++ "_" ++ toString envA.now) ∧
      (out.response.success = true →
        ∃ c, findById out.store
            (targetId envA [] "u1" ((sendReq none).body.context.getD ReqContext.empty)) =
              some c ∧
          c.sessionId = r.sessionId) :=
  session_id_rule envA [] (.ok payloadA) (sendReq none) userA "u1" rfl rfl (by decide)

theorem resolve_eq_find (store : Store) (uid : String) (ctx : ReqContext) :
    resolveConversation store uid ctx = store.find? (matchesLookup uid ctx) := by
  unfold resolveConversation matchesLookup findOne
  by_cases h : truthy ctx.sessionId = true
  · simp [h]
  · simp [h]

theorem deleteFirst_subset (f : Conversation → Bool) (store : Store) :
    ∀ d ∈ deleteFirst f store, d ∈ store := by
  induction store with
  | nil => intro d hd; simp [deleteFirst] at hd
  | cons a t ih =>
    intro d hd
    unfold deleteFirst at hd
    by_cases ha : f a = true
    · rw [if_pos ha] at hd
      exact List.mem_cons_of_mem _ hd
    · rw [if_neg ha] at hd
      rcases List.mem_cons.mp hd with h | h
      · rw [h]; exact List.mem_cons_self _ _
      · exact List.mem_cons_of_mem _ (ih d h)

theorem deleteFirst_removes (f : Conversation → Bool) (x : String) (store : Store)
    (hf : ∀ c, f c = true → c._id = x)
    (hnodup : (store.map (fun c => c._id)).Nodup) :
    ∀ d ∈ deleteFirst f store, f d = false := by
  induction store with
  | nil => intro d hd; simp [deleteFirst] at hd
  | cons a t ih =>
    have hn : a._id ∉ t.map (fun c => c._id) ∧ (t.map (fun c => c._id)).Nodup := by
      simpa using hnodup
    intro d hd
    unfold deleteFirst at hd
    by_cases ha : f a = true
    · rw [if_pos ha] at hd
      by_contra hfd
      have hfd' : f d = true := by simpa using hfd
      apply hn.1
      rw [hf a ha, ← hf d hfd']
      exact List.mem_map_of_mem _ hd
    · rw [if_neg ha] at hd
      rcases List.mem_cons.mp hd with h | h
      · rw [h]; simpa using ha
      · exact ih hn.2 d h

/-- The claim C9 as stated fails: `userA` owns the conversations of sessions `s1` and
`s2`, deletes the one of `s2`, and the next send (naming no session) resumes `s1` with its
two stored messages as history. -/
theorem send_after_delete_resumes_other :
    twoSessions.map (fun c => (c._id, c.userId, c.sessionId, c.messages.length)) =
      [("aaaaaaaaaaaaaaaaaaaaaaaa", "u1", "s1", 2),
       ("bbbbbbbbbbbbbbbbbbbbbbbb", "u1", "s2", 2)] ∧
    (deleteConversation twoSessions deleteS2).1.status = 200 ∧
    ((deleteConversation twoSessions deleteS2).2).map (fun c => c.sessionId) = ["s1"] ∧
    ((sendMessage env3 (deleteConversation twoSessions deleteS2).2 (.ok payloadA)
        (sendReq none)).toOption.bind (fun out => out.sent)).map
      (fun r => (r.sessionId, r.context.conversation_history.length)) = some ("s1", 2) := by
  decide

/-- C9 (amended). After `deleteConversation` has removed a conversation of a user, the
next send of that user starts afresh whenever its lookup matches no other stored
conversation: the history sent upstream is empty, the session identifier is the request's
or a newly generated one, and the outbound context is the request's alone. -/
theorem send_after_delete_fresh (env : Env) (store : Store) (dreq : DeleteRequest)
    (up : UpstreamResult) (req : Request) (u : User) (uid : String)
    (hdu : dreq.user = some u) (hu : req.user = some u) (hid : u._id = some uid)
    (hm : rejectsMessage req.body.message = false)
    (hnodup : (store.map (fun c => c._id)).Nodup)
    (hdel : (deleteConversation store dreq).1.success = true)
    (honly : ∀ d ∈ store, matchesLookup uid (req.body.context.getD ReqContext.empty) d = true →
      d._id = castObjectId dreq.id) :
    ∃ out r, sendMessage env (deleteConversation store dreq).2 up req = .ok out ∧
      out.sent = some r ∧
      (deleteConversation store dreq).2.length + 1 = store.length ∧
      r.context.conversation_history = [] ∧
      r.sessionId = orDefault (req.body.context.getD ReqContext.empty).sessionId
        ("session_" ++ uid ++ "_" ++ toString env.now) ∧
      r.context.university = (req.body.context.getD ReqContext.empty).university.getD "" ∧
      r.context.stage = (req.body.context.getD ReqContext.empty).stage.getD "" ∧
      r.context.preferences = (req.body.context.getD ReqContext.empty).preferences.getD [] := by
  have hreq : dreq.user.bind (fun u => u._id) = some uid := by simp [hdu, hid]
  have hstore : (deleteConversation store dreq).2 =
      deleteFirst (fun c => c._id == castObjectId dreq.id && c.userId == uid) store ∧
      (findOne store (fun c => c._id == castObjectId dreq.id && c.userId == uid)).isSome := by
    unfold deleteConversation at hdel ⊢
    rw [hreq] at hdel ⊢
    simp only at hdel ⊢
    by_cases hbad : (dreq.id == "" || !isObjectIdString dreq.id) = true
    · rw [if_pos hbad] at hdel
      simp [failure] at hdel
    · rw [if_neg hbad] at hdel ⊢
      cases hfind : findOne store
          (fun c => c._id == castObjectId dreq.id && c.userId == uid) with
      | none =>
        rw [hfind] at hdel
        simp [failure] at hdel
      | some c => simp
  obtain ⟨hst, hsome⟩ := hstore
  have hlen : ∀ (f : Conversation → Bool) (l : Store), (findOne l f).isSome = true →
      (deleteFirst f l).length + 1 = l.length := by
    intro f l
    induction l with
    | nil => intro h; simp [findOne] at h
    | cons a t ih =>
      intro h
      unfold deleteFirst
      by_cases ha : f a = true
      · simp [ha]
      · have ht : (findOne t f).isSome = true := by
          simpa [findOne, List.find?_cons, ha] using h
        simp [ha, ih ht]
  have hres : resolveConversation (deleteConversation store dreq).2 uid
      (req.body.context.getD ReqContext.empty) = none := by
    rw [resolve_eq_find, List.find?_eq_none, hst]
    intro d hd hmatch
    have hmem := deleteFirst_subset _ _ d hd
    have hdid := honly d hmem hmatch
    have hduid : d.userId = uid := by
      unfold matchesLookup at hmatch
      by_cases ht : truthy (req.body.context.getD ReqContext.empty).sessionId = true
      · simp [ht] at hmatch
        exact hmatch.1
      · simp [ht] at hmatch
        exact hmatch
    have hrem := deleteFirst_removes
      (fun c => c._id == castObjectId dreq.id && c.userId == uid) (castObjectId dreq.id) store
      (by intro c hc; simp at hc; exact hc.1) hnodup d hd
    simp [hdid, hduid] at hrem
  obtain ⟨-, -, -, hsid, hmsgs⟩ := conversationFor_of_none env hres
  refine ⟨sendMessageTry env (deleteConversation store dreq).2 up (some uid) req.body,
    upstreamRequest (jsTrim req.body.message.text)
      (req.body.context.getD ReqContext.empty)
      (conversationHistory (conversationFor env (deleteConversation store dreq).2 uid
        (req.body.context.getD ReqContext.empty)).1.conv.messages)
      uid (conversationFor env (deleteConversation store dreq).2 uid
        (req.body.context.getD ReqContext.empty)).2,
    ?_, sendMessageTry_sent hm, ?_, ?_, ?_, orDefault_empty _, orDefault_empty _, rfl⟩
  · rw [sendMessage_of_user hu, hid]
  · rw [hst]; exact hlen _ _ hsome
  · simp only [upstreamRequest, hmsgs]
    rfl
  · simp only [upstreamRequest, conversationFor_sessionId]
    rw [hsid]
    rfl

/-- Witness for C9 (amended): `userA` deletes their only conversation, then sends. -/
theorem send_after_delete_fresh_witness :
    ∃ out r, sendMessage env3 (deleteConversation oneSession deleteS2).2 (.ok payloadA)
        (sendReq none) = .ok out ∧
      out.sent = some r ∧
      (deleteConversation oneSession deleteS2).2.length + 1 = oneSession.length ∧
      r.context.conversation_history = [] ∧
      r.sessionId = orDefault ((sendReq none).body.context.getD ReqContext.empty).sessionId
        ("session_" ++ "u1" ++ "_" ++ toString env3.now) ∧
      r.context.university =
        ((sendReq none).body.context.getD ReqContext.empty).university.getD "" ∧
      r.context.stage = ((sendReq none).body.context.getD ReqContext.empty).stage.getD "" ∧
      r.context.preferences =
        ((sendReq none).body.context.getD ReqContext.empty).preferences.getD [] :=
  send_after_delete_fresh env3 oneSession deleteS2 (.ok payloadA) (sendReq none) userA "u1"
    rfl rfl rfl (by decide) (by decide) (by decide) (by decide)

/-- The claim C10 as stated fails: of the two conversations of `userA`, created and
updated in this order, the lookup without `sessionId` resolves to the older one, and the
send continues its session. -/
theorem legacy_fallback_not_most_recent :
    twoSessions.map (fun c => (c.userId, c.sessionId, c.createdAt, c.updatedAt)) =
      [("u1", "s1", 7, 9), ("u1", "s2", 17, 19)] ∧
    (resolveConversation twoSessions "u1" ReqContext.empty).map
      (fun c => (c.sessionId, c.createdAt, c.updatedAt)) = some ("s1", 7, 9) ∧
    ((sendMessage env3 twoSessions (.ok payloadA) (sendReq none)).toOption.bind
        (fun out => out.sent)).map (fun r => r.sessionId) = some "s1" := by
  decide

/-- C10 (amended). When a send supplies no `sessionId` and the user owns stored
conversations, the lookup by `userId` alone resolves to the first of them in the store's
natural order, whatever their timestamps; the send continues that conversation. -/
theorem legacy_fallback_first_stored (env : Env) (store : Store) (up : UpstreamResult)
    (req : Request) (u : User) (uid : String) (hu : req.user = some u)
    (hid : u._id = some uid) (hm : rejectsMessage req.body.message = false)
    (hc : (req.body.context.getD ReqContext.empty).sessionId = none ∨
      (req.body.context.getD ReqContext.empty).sessionId = some "")
    (hown : ∃ d ∈ store, d.userId = uid) :
    ∃ out r c pre post, sendMessage env store up req = .ok out ∧ out.sent = some r ∧
      resolveConversation store uid (req.body.context.getD ReqContext.empty) = some c ∧
      store = pre ++ c :: post ∧ c.userId = uid ∧ (∀ d ∈ pre, d.userId ≠ uid) ∧
      r.sessionId = c.sessionId ∧
      r.context.conversation_history = (jsSlice c.messages (-10)).map roleAndContent := by
  have hfind := resolve_by_user store uid _ hc
  obtain ⟨d, hd, hdu⟩ := hown
  cases hres : store.find? (fun c => c.userId == uid) with
  | none =>
    rw [List.find?_eq_none] at hres
    exact absurd (by simpa using hdu) (hres d hd)
  | some c =>
    obtain ⟨hpc, pre, post, hsplit, hpre⟩ := List.find?_eq_some.mp hres
    rw [hres] at hfind
    refine ⟨sendMessageTry env store up (some uid) req.body,
      upstreamRequest (jsTrim req.body.message.text)
        (req.body.context.getD ReqContext.empty)
        (conversationHistory (conversationFor env store uid
          (req.body.context.getD ReqContext.empty)).1.conv.messages)
        uid (conversationFor env store uid (req.body.context.getD ReqContext.empty)).2,
      c, pre, post, ?_, sendMessageTry_sent hm, hfind, hsplit, ?_, ?_, ?_, ?_⟩
    · rw [sendMessage_of_user hu, hid]
    · simpa using hpc
    · intro x hx
      have := hpre x hx
      simpa using this
    · simp only [upstreamRequest, conversationFor_sessionId, conversationFor_of_some env hfind]
    · simp only [upstreamRequest, conversationFor_of_some env hfind]
      rfl

/-- Witness for C10 (amended): the store with the two sessions of `userA`. -/
theorem legacy_fallback_first_stored_witness :
    ∃ out r c pre post, sendMessage env3 twoSessions (.ok payloadA) (sendReq none) = .ok out ∧
      out.sent = some r ∧
      resolveConversation twoSessions "u1"
        ((sendReq none).body.context.getD ReqContext.empty) = some c ∧
      twoSessions = pre ++ c :: post ∧ c.userId = "u1" ∧ (∀ d ∈ pre, d.userId ≠ "u1") ∧
      r.sessionId = c.sessionId ∧
      r.context.conversation_history = (jsSlice c.messages (-10)).map roleAndContent :=
  legacy_fallback_first_stored env3 twoSessions (.ok payloadA) (sendReq none) userA "u1"
    rfl rfl (by decide) (Or.inl rfl) (by decide)

theorem includesChars_iff (sub l : List Char) : includesChars sub l = true ↔ sub <:+: l := by
  induction l with
  | nil =>
    simp [includesChars, List.isEmpty_iff]
  | cons c cs ih =>
    simp only [includesChars, Bool.or_eq_true, List.isPrefixOf_iff_prefix, ih,
      List.infix_cons_iff]

theorem sendMessage_upstream_error (env : Env) (store : Store) {req : Request} {u : User}
    {uid : String} (e : AxiosError) (hu : req.user = some u) (hid : u._id = some uid)
    (hm : rejectsMessage req.body.message = false) :
    ∃ out, sendMessage env store (.error e) req = .ok out ∧
      out.response = upstreamFailure e := by
  refine ⟨sendMessageTry env store (.error e) (some uid) req.body, ?_, ?_⟩
  · rw [sendMessage_of_user hu, hid]
  · simp [sendMessageTry, hm]

/-- C11. A connection-refused upstream failure (`ECONNREFUSED`) is answered with status 503,
and a failure that is not connection-refused and is a timeout (`ETIMEDOUT`, or `timeout`
occurring in the error message) with status 504; both carry `success: false` and a fixed
message. -/
theorem refused_and_timeout_responses (env : Env) (store : Store) (req : Request) (u : User)
    (uid : String) (e : AxiosError) (hu : req.user = some u) (hid : u._id = some uid)
    (hm : rejectsMessage req.body.message = false) :
    ∃ out, sendMessage env store (.error e) req = .ok out ∧
      (e.code = some "ECONNREFUSED" →
        out.response =
          { status := 503, success := false,
            message := "AI service is not available. Please try again later.",
            error := some "Service unavailable", sources := none, context := none }) ∧
      (e.code ≠ some "ECONNREFUSED" →
        (e.code = some "ETIMEDOUT" ∨ "timeout".data <:+: e.message.data) →
        out.response =
          { status := 504, success := false,
            message := "AI service request timed out. Please try again.",
            error := some "Request timeout", sources := none, context := none }) := by
  obtain ⟨out, hout, hresp⟩ := sendMessage_upstream_error env store e hu hid hm
  refine ⟨out, hout, ?_, ?_⟩
  · intro hc
    rw [hresp]
    simp [upstreamFailure, hc, failure]
  · intro hc ht
    rw [hresp]
    have ht' : (e.code = some "ETIMEDOUT" || jsIncludes e.message "timeout") = true := by
      rcases ht with h | h
      · simp [h]
      · simp [jsIncludes, (includesChars_iff _ _).mpr h]
    unfold upstreamFailure
    rw [if_neg hc, if_pos ht']
    rfl

/-- Witness for C11: a timeout reported through the error message. -/
theorem refused_and_timeout_responses_witness :
    ∃ out, sendMessage envA [] (.error timeoutError) (sendReq none) = .ok out ∧
      (timeoutError.code = some "ECONNREFUSED" →
        out.response =
          { status := 503, success := false,
            message := "AI service is not available. Please try again later.",
            error := some "Service unavailable", sources := none, context := none }) ∧
      (timeoutError.code ≠ some "ECONNREFUSED" →
        (timeoutError.code = some "ETIMEDOUT" ∨ "timeout".data <:+: timeoutError.message.data) →
        out.response =
          { status := 504, success := false,
            message := "AI service request timed out. Please try again.",
            error := some "Request timeout", sources := none, context := none }) :=
  refused_and_timeout_responses envA [] (sendReq none) userA "u1" timeoutError rfl rfl
    (by decide)

/-- C12. An upstream failure that is not connection-refused, not a timeout and carries no
HTTP response is answered with status 503 and the generic message. -/
theorem other_transport_error_response (env : Env) (store : Store) (req : Request) (u : User)
    (uid : String) (e : AxiosError) (hu : req.user = some u) (hid : u._id = some uid)
    (hm : rejectsMessage req.body.message = false)
    (hrefused : e.code ≠ some "ECONNREFUSED") (htimed : e.code ≠ some "ETIMEDOUT")
    (htext : ¬ "timeout".data <:+: e.message.data) (hresp : e.response = none) :
    ∃ out, sendMessage env store (.error e) req = .ok out ∧
      out.response =
        { status := 503, success := false,
          message := "AI service is temporarily unavailable. Please try again later.",
          error := none, sources := none, context := none } := by
  obtain ⟨out, hout, hr⟩ := sendMessage_upstream_error env store e hu hid hm
  refine ⟨out, hout, ?_⟩
  rw [hr]
  have ht : ¬ (e.code = some "ETIMEDOUT" || jsIncludes e.message "timeout") = true := by
    intro h
    simp only [Bool.or_eq_true, decide_eq_true_eq] at h
    rcases h with h | h
    · exact htimed h
    · exact htext ((includesChars_iff _ _).mp h)
  unfold upstreamFailure
  rw [if_neg hrefused, if_neg ht, hresp]
  rfl

/-- Witness for C12: a reset connection. -/
theorem other_transport_error_response_witness :
    ∃ out, sendMessage envA [] (.error resetError) (sendReq none) = .ok out ∧
      out.response =
        { status := 503, success := false,
          message := "AI service is temporarily unavailable. Please try again later.",
          error := none, sources := none, context := none } :=
  other_transport_error_response envA [] (sendReq none) userA "u1" resetError rfl rfl
    (by decide) (by decide) (by decide)
    (by rw [← includesChars_iff]; decide) rfl

/-- C13. An upstream failure that carries an HTTP response (and is neither
connection-refused nor a timeout) is answered with `success: false`, with the upstream
status `s` and a message fixed by `s`: one text for 400, one for 429, one for every
`s ≥ 500`, the generic one otherwise; a missing or zero status counts as 500. -/
theorem upstream_status_response (env : Env) (store : Store) (req : Request) (u : User)
    (uid : String) (e : AxiosError) (r : ErrorResponse) (hu : req.user = some u)
    (hid : u._id = some uid) (hm : rejectsMessage req.body.message = false)
    (hrefused : e.code ≠ some "ECONNREFUSED") (htimed : e.code ≠ some "ETIMEDOUT")
    (htext : ¬ "timeout".data <:+: e.message.data) (hresp : e.response = some r) :
    ∃ out, sendMessage env store (.error e) req = .ok out ∧
      out.response.success = false ∧ out.response.error = none ∧
      (∀ s, r.status = some s → s ≠ 0 → out.response.status = s) ∧
      ((r.status = none ∨ r.status = some 0) → out.response.status = 500) ∧
      (out.response.status = 400 →
        out.response.message = "Invalid request to AI service. Please check your message.") ∧
      (out.response.status = 429 →
        out.response.message = "AI service is rate limited. Please try again in a moment.") ∧
      (500 ≤ out.response.status →
        out.response.message = "AI service is experiencing issues. Please try again later.") ∧
      (out.response.status ≠ 400 → out.response.status ≠ 429 → out.response.status < 500 →
        out.response.message =
          "AI service is temporarily unavailable. Please try again later.") := by
  obtain ⟨out, hout, hr⟩ := sendMessage_upstream_error env store e hu hid hm
  have ht : ¬ (e.code = some "ETIMEDOUT" || jsIncludes e.message "timeout") = true := by
    intro h
    simp only [Bool.or_eq_true, decide_eq_true_eq] at h
    rcases h with h | h
    · exact htimed h
    · exact htext ((includesChars_iff _ _).mp h)
  have hval : out.response =
      failure (statusOr500 r.status) (upstreamUserMessage (statusOr500 r.status)) none := by
    rw [hr]
    unfold upstreamFailure
    rw [if_neg hrefused, if_neg ht, hresp]
  refine ⟨out, hout, ?_, ?_, ?_, ?_, ?_, ?_, ?_, ?_⟩
  · rw [hval]; rfl
  · rw [hval]; rfl
  · intro s hs h0
    rw [hval, hs]
    simp [failure, statusOr500, h0]
  · intro h
    rw [hval]
    rcases h with h | h <;> rw [h] <;> rfl
  · rw [hval]
    intro h
    simp only [failure] at h ⊢
    simp [upstreamUserMessage, h]
  · rw [hval]
    intro h
    simp only [failure] at h ⊢
    simp [upstreamUserMessage, h]
  · rw [hval]
    intro h
    simp only [failure] at h ⊢
    have h1 : statusOr500 r.status ≠ 400 := by omega
    have h2 : statusOr500 r.status ≠ 429 := by omega
    simp [upstreamUserMessage, h1, h2, h]
  · rw [hval]
    intro h1 h2 h3
    simp only [failure] at h1 h2 h3 ⊢
    have h4 : ¬ statusOr500 r.status ≥ 500 := by omega
    simp [upstreamUserMessage, h1, h2, h4]

/-- Witness for C13: an upstream reply with status 429. -/
theorem upstream_status_response_witness :
    ∃ out, sendMessage envA [] (.error upstream429) (sendReq none) = .ok out ∧
      out.response.success = false ∧ out.response.error = none ∧
      (∀ s, (ErrorResponse.mk (some 429) (some "quota exceeded for key")).status = some s →
        s ≠ 0 → out.response.status = s) ∧
      (((ErrorResponse.mk (some 429) (some "quota exceeded for key")).status = none ∨
          (ErrorResponse.mk (some 429) (some "quota exceeded for key")).status = some 0) →
        out.response.status = 500) ∧
      (out.response.status = 400 →
        out.response.message = "Invalid request to AI service. Please check your message.") ∧
      (out.response.status = 429 →
        out.response.message = "AI service is rate limited. Please try again in a moment.") ∧
      (500 ≤ out.response.status →
        out.response.message = "AI service is experiencing issues. Please try again later.") ∧
      (out.response.status ≠ 400 → out.response.status ≠ 429 → out.response.status < 500 →
        out.response.message =
          "AI service is temporarily unavailable. Please try again later.") :=
  upstream_status_response envA [] (sendReq none) userA "u1" upstream429
    (ErrorResponse.mk (some 429) (some "quota exceeded for key")) rfl rfl (by decide)
    (by decide) (by decide) (by rw [← includesChars_iff]; decide) rfl

theorem upstreamFailure_congr (e1 e2 : AxiosError) (hcode : e1.code = e2.code)
    (htext : "timeout".data <:+: e1.message.data ↔ "timeout".data <:+: e2.message.data)
    (hstatus : e1.response.map (fun r => r.status) = e2.response.map (fun r => r.status)) :
    upstreamFailure e1 = upstreamFailure e2 := by
  have hinc : jsIncludes e1.message "timeout" = jsIncludes e2.message "timeout" := by
    unfold jsIncludes
    rw [Bool.eq_iff_iff, includesChars_iff, includesChars_iff]
    exact htext
  unfold upstreamFailure
  rw [hcode, hinc]
  cases h1 : e1.response with
  | none =>
    cases h2 : e2.response with
    | none => rfl
    | some r2 => rw [h1, h2] at hstatus; simp at hstatus
  | some r1 =>
    cases h2 : e2.response with
    | none => rw [h1, h2] at hstatus; simp at hstatus
    | some r2 =>
      rw [h1, h2] at hstatus
      have hs : r1.status = r2.status := by simpa using hstatus
      simp only [hs]

/-- C14. Two failing upstream calls that agree on the error code, on the upstream status
(and on whether there is an upstream response) and on whether `timeout` occurs in the error
message lead to the same outcome, whatever the error text and the upstream body say: same
response, same store. This holds in development mode too. -/
theorem upstream_text_never_leaks (env : Env) (store : Store) (req : Request)
    (e1 e2 : AxiosError) (hcode : e1.code = e2.code)
    (htext : "timeout".data <:+: e1.message.data ↔ "timeout".data <:+: e2.message.data)
    (hstatus : e1.response.map (fun r => r.status) = e2.response.map (fun r => r.status)) :
    sendMessage env store (.error e1) req = sendMessage env store (.error e2) req := by
  have h := upstreamFailure_congr e1 e2 hcode htext hstatus
  unfold sendMessage
  cases req.user with
  | none => rfl
  | some u =>
    simp only
    congr 1
    unfold sendMessageTry
    cases u._id with
    | none => rfl
    | some uid =>
      simp only
      split
      · rfl
      · simp only [h]

/-- Witness for C14: two 429 failures with different texts. -/
theorem upstream_text_never_leaks_witness :
    upstream429.message ≠ upstream429b.message ∧
    sendMessage envA [] (.error upstream429) (sendReq none) =
      sendMessage envA [] (.error upstream429b) (sendReq none) :=
  ⟨by decide,
   upstream_text_never_leaks envA [] (sendReq none) upstream429 upstream429b rfl
    (by rw [← includesChars_iff, ← includesChars_iff]; decide) rfl⟩

theorem aiMessageContent_eq (ai : AiPayload) :
    aiMessageContent ai =
      firstNonEmpty [ai.message, ai.response, ai.content] "No response received" := by
  unfold aiMessageContent
  cases hm : ai.message with
  | some m =>
    by_cases h : m = ""
    · cases hr : ai.response with
      | some r =>
        by_cases h2 : r = ""
        · cases hc : ai.content with
          | some c => by_cases h3 : c = "" <;> simp [orDefault, firstNonEmpty, h, h2, h3]
          | none => simp [orDefault, firstNonEmpty, h, h2]
        · simp [orDefault, firstNonEmpty, h, h2]
      | none =>
        cases hc : ai.content with
        | some c => by_cases h3 : c = "" <;> simp [orDefault, firstNonEmpty, h, h3]
        | none => simp [orDefault, firstNonEmpty, h]
    · simp [orDefault, firstNonEmpty, h]
  | none =>
    cases hr : ai.response with
    | some r =>
      by_cases h2 : r = ""
      · cases hc : ai.content with
        | some c => by_cases h3 : c = "" <;> simp [orDefault, firstNonEmpty, h2, h3]
        | none => simp [orDefault, firstNonEmpty, h2]
      · simp [orDefault, firstNonEmpty, h2]
    | none =>
      cases hc : ai.content with
      | some c => by_cases h3 : c = "" <;> simp [orDefault, firstNonEmpty, h3]
      | none => simp [orDefault, firstNonEmpty]

theorem firstInvalid_none (l : List Message) (i : Nat) (h : firstInvalid l i = none) :
    ∀ m ∈ l, validMessage m = true := by
  induction l generalizing i with
  | nil => intro m hm; simp at hm
  | cons a t ih =>
    unfold firstInvalid at h
    by_cases ha : validMessage a = true
    · rw [if_pos ha] at h
      intro m hm
      rcases List.mem_cons.mp hm with hm | hm
      · rw [hm]; exact ha
      · exact ih (i + 1) h m hm
    · rw [if_neg ha] at h
      exact absurd h (by simp)

theorem validate_none (c : Conversation) (h : validate c = none) :
    ∀ m ∈ c.messages, validMessage m = true := by
  unfold validate at h
  split at h
  · exact absurd h (by simp)
  · split at h
    · exact absurd h (by simp)
    · rename_i hfi
      exact firstInvalid_none _ _ hfi

/-- The claim C15 as stated fails: the upstream text ` hello ` (with blanks) is returned
as it is and stored trimmed, so the stored content is not the returned one. -/
theorem stored_content_is_trimmed :
    outPadded.response.success = true ∧
    outPadded.response.message = " hello " ∧
    (outPadded.store.map (fun c => c.messages.map (fun m => (m.role, m.content)))) =
      [[("user", "hi"), ("assistant", "hello")]] := by
  decide

/-- C15 (amended). On a successful send the returned message is the first non-empty of the
upstream fields `message`, `response`, `content`, else `No response received`; the stored
assistant content is that text with surrounding white space removed (and is not empty);
the returned and the stored sources are the upstream list, or the empty list. -/
theorem assistant_content_and_sources (env : Env) (store : Store) (up : UpstreamResult)
    (req : Request) (u : User) (uid : String) (out : Outcome) (hu : req.user = some u)
    (hid : u._id = some uid) (hs : sendMessage env store up req = .ok out)
    (hok : out.response.success = true) :
    ∃ ai c m, up = .ok ai ∧
      out.response.message =
        firstNonEmpty [ai.message, ai.response, ai.content] "No response received" ∧
      out.response.sources = some (ai.sources.getD []) ∧
      findById out.store (targetId env store uid (req.body.context.getD ReqContext.empty)) =
        some c ∧
      c.messages.getLast? = some m ∧ m.role = "assistant" ∧
      m.content =
        jsTrim (firstNonEmpty [ai.message, ai.response, ai.content] "No response received") ∧
      m.content ≠ "" ∧
      m.sources = ai.sources.getD [] := by
  obtain ⟨-, ai, hup, hout⟩ := sendMessage_success hu hid hs hok
  rw [hout] at hok
  obtain ⟨store1, store2, heq, -, hf2, hv, -, -⟩ := afterReply_success hok
  rw [heq] at hout
  have hmsgs := secondSaved_messages env
    (conversationFor env store uid (req.body.context.getD ReqContext.empty)).1
    req.body.message.text (req.body.context.getD ReqContext.empty) ai
  refine ⟨ai, secondSaved env
    (conversationFor env store uid (req.body.context.getD ReqContext.empty)).1
    (jsTrim req.body.message.text) (req.body.context.getD ReqContext.empty) ai,
    assistantMessage env ai, hup, ?_, ?_, ?_, ?_, rfl, ?_, ?_, rfl⟩
  · rw [hout]; exact aiMessageContent_eq ai
  · rw [hout]
  · rw [hout, ← conversationFor_id env]
    exact hf2
  · rw [hmsgs]
    simp
  · simp [assistantMessage, aiMessageContent_eq]
  · have hmem := validate_none _ hv (assistantMessage env ai)
      (by simp [withAssistantTurn, castMessage, assistantMessage])
    intro hempty
    simp [validMessage, hempty] at hmem

/-- Witness for C15 (amended): the send answered with `payloadPadded`. -/
theorem assistant_content_and_sources_witness :
    ∃ ai c m, UpstreamResult.ok payloadPadded = .ok ai ∧
      outPadded.response.message =
        firstNonEmpty [ai.message, ai.response, ai.content] "No response received" ∧
      outPadded.response.sources = some (ai.sources.getD []) ∧
      findById outPadded.store (targetId env1 [] "u1"
        ((sendReq (some (sessionOnly "s1"))).body.context.getD ReqContext.empty)) = some c ∧
      c.messages.getLast? = some m ∧ m.role = "assistant" ∧
      m.content =
        jsTrim (firstNonEmpty [ai.message, ai.response, ai.content] "No response received") ∧
      m.content ≠ "" ∧
      m.sources = ai.sources.getD [] :=
  assistant_content_and_sources env1 [] (.ok payloadPadded)
    (sendReq (some (sessionOnly "s1"))) userA "u1" outPadded rfl rfl rfl (by decide)

theorem deleteConversation_not_found (store : Store) (req : DeleteRequest) (u : User)
    (uid : String) (hu : req.user = some u) (hid : u._id = some uid)
    (hwf : isObjectIdString req.id = true)
    (h : ∀ c ∈ store, c._id = castObjectId req.id → c.userId ≠ uid) :
    deleteConversation store req =
      (failure 404 "Conversation not found or you do not have permission to delete it" none,
       store) := by
  have hreq : req.user.bind (fun u => u._id) = some uid := by simp [hu, hid]
  have hne : (req.id == "") = false := by
    rw [beq_eq_false_iff_ne]
    intro he
    rw [he] at hwf
    exact absurd hwf (by decide)
  have hfind : findOne store
      (fun c => c._id == castObjectId req.id && c.userId == uid) = none := by
    unfold findOne
    rw [List.find?_eq_none]
    intro c hc hp
    simp only [Bool.and_eq_true, beq_iff_eq] at hp
    exact h c hc hp.1 hp.2
  unfold deleteConversation
  rw [hreq]
  simp only [hne, hwf, Bool.not_true, Bool.or_self, Bool.false_eq_true, if_false, hfind]

/-- C16. For a well-formed id, `deleteConversation` answers the same (status 404, same
body, nothing removed) when the id belongs to a conversation of another user as when no
conversation has that id. -/
theorem delete_hides_existence (store1 store2 : Store) (req : DeleteRequest) (u : User)
    (uid : String) (other : Conversation) (hu : req.user = some u) (hid : u._id = some uid)
    (hwf : isObjectIdString req.id = true)
    (hother : other ∈ store1 ∧ other._id = castObjectId req.id ∧ other.userId ≠ uid)
    (hforeign : ∀ c ∈ store1, c._id = castObjectId req.id → c.userId ≠ uid)
    (habsent : ∀ c ∈ store2, c._id ≠ castObjectId req.id) :
    (deleteConversation store1 req).1 = (deleteConversation store2 req).1 ∧
    (deleteConversation store1 req).1 =
      { status := 404, success := false,
        message := "Conversation not found or you do not have permission to delete it",
        error := none, sources := none, context := none } ∧
    (deleteConversation store1 req).2 = store1 ∧
    (deleteConversation store2 req).2 = store2 ∧
    other ∈ (deleteConversation store1 req).2 := by
  have h1 := deleteConversation_not_found store1 req u uid hu hid hwf hforeign
  have h2 := deleteConversation_not_found store2 req u uid hu hid hwf
    (fun c hc he => absurd he (habsent c hc))
  rw [h1, h2]
  exact ⟨rfl, rfl, rfl, rfl, hother.1⟩

/-- Witness for C16: `userB` asks to delete the conversation of `userA`, and the same id
on the empty store. -/
theorem delete_hides_existence_witness :
    (deleteConversation oneSession deleteByB).1 = (deleteConversation [] deleteByB).1 ∧
    (deleteConversation oneSession deleteByB).1 =
      { status := 404, success := false,
        message := "Conversation not found or you do not have permission to delete it",
        error := none, sources := none, context := none } ∧
    (deleteConversation oneSession deleteByB).2 = oneSession ∧
    (deleteConversation [] deleteByB).2 = [] ∧
    sampleS2 ∈ (deleteConversation oneSession deleteByB).2 :=
  delete_hides_existence oneSession [] deleteByB userB "u2" sampleS2
    rfl rfl (by decide) (by decide) (by decide) (by decide)

theorem getHistory_of_user (store : Store) (req : HistoryRequest) (u : User) (uid : String)
    (hu : req.user = some u) (hid : u._id = some uid) :
    getHistory store req =
      { status := 200, success := true, message := none,
        conversations :=
          (((sortByUpdatedDesc (store.filter (fun c => c.userId == uid))).drop
            (historySkip req.query).toNat).take (historyLimit req.query).toNat).map
            selectFields,
        pagination :=
          some { page := historyPage req.query, limit := historyLimit req.query,
                 total := (store.filter (fun c => c.userId == uid)).length,
                 pages := ((store.filter (fun c => c.userId == uid)).length +
                   (historyLimit req.query).toNat - 1) / (historyLimit req.query).toNat,
                 hasMore := decide (historyPage req.query * historyLimit req.query <
                   ((store.filter (fun c => c.userId == uid)).length : Int)) } } := by
  have hreq : req.user.bind (fun u => u._id) = some uid := by simp [hu, hid]
  unfold getHistory
  rw [hreq]

theorem historyLimit_bounds (q : HistoryQuery) : 1 ≤ historyLimit q ∧ historyLimit q ≤ 50 := by
  unfold historyLimit
  omega

/-- The claim C17 as stated fails: the query `limit=0` gives the limit 20, not
`min(50, max(1, 0)) = 1`. -/
theorem limit_zero_gives_default :
    jsParseInt (historyReq none (some "0")).query.limit = some 0 ∧
    (getHistory [] (historyReq none (some "0"))).pagination.map (fun p => p.limit) =
      some 20 ∧
    min 50 (max 1 (0 : Int)) = 1 := by
  decide

/-- C17 (amended). When the query supplies the integer `n` as limit, `getHistory` uses
`min(50, max(1, n))` if `n` is not zero and the default 20 if `n` is zero; the limit used is
always within `[1, 50]` and bounds the number of conversations returned. -/
theorem history_limit_clamped (store : Store) (req : HistoryRequest) (u : User)
    (uid : String) (n : Int) (hu : req.user = some u) (hid : u._id = some uid)
    (hn : jsParseInt req.query.limit = some n) :
    ∃ p, (getHistory store req).pagination = some p ∧
      (n ≠ 0 → p.limit = min 50 (max 1 n)) ∧
      (n = 0 → p.limit = 20) ∧
      1 ≤ p.limit ∧ p.limit ≤ 50 ∧
      ((getHistory store req).conversations.length : Int) ≤ p.limit := by
  rw [getHistory_of_user store req u uid hu hid]
  refine ⟨_, rfl, ?_, ?_, (historyLimit_bounds _).1, (historyLimit_bounds _).2, ?_⟩
  · intro h0
    simp [historyLimit, hn, numberOr, h0]
  · intro h0
    simp [historyLimit, hn, numberOr, h0]
  · have hb := historyLimit_bounds req.query
    simp only [List.length_map, List.length_take]
    omega

/-- Witness for C17 (amended): `limit=200` gives 50. -/
theorem history_limit_clamped_witness :
    ∃ p, (getHistory twoSessions (historyReq none (some "200"))).pagination = some p ∧
      ((200 : Int) ≠ 0 → p.limit = min 50 (max 1 200)) ∧
      ((200 : Int) = 0 → p.limit = 20) ∧
      1 ≤ p.limit ∧ p.limit ≤ 50 ∧
      ((getHistory twoSessions (historyReq none (some "200"))).conversations.length : Int) ≤
        p.limit :=
  history_limit_clamped twoSessions (historyReq none (some "200")) userA "u1" 200 rfl rfl
    (by decide)

/-- C18. When the query supplies the integer `n` as page (within the range on which
JavaScript numbers are exact), `getHistory` uses the page `max(1, n)`; an absent or
non-numeric page gives 1; the number of skipped conversations is never negative. -/
theorem history_page_clamped (store : Store) (req : HistoryRequest) (u : User)
    (uid : String) (hu : req.user = some u) (hid : u._id = some uid) :
    ∃ p, (getHistory store req).pagination = some p ∧
      (∀ n : Int, jsParseInt req.query.page = some n → n.natAbs < 2 ^ 53 →
        p.page = max 1 n) ∧
      (jsParseInt req.query.page = none → p.page = 1) ∧
      (req.query.page = none → p.page = 1) ∧
      1 ≤ p.page ∧
      historySkip req.query = (p.page - 1) * p.limit ∧
      0 ≤ historySkip req.query := by
  rw [getHistory_of_user store req u uid hu hid]
  have hp : 1 ≤ historyPage req.query := by
    unfold historyPage
    omega
  refine ⟨_, rfl, ?_, ?_, ?_, hp, rfl, ?_⟩
  · intro n hn _
    simp only [historyPage, hn, numberOr]
    by_cases h0 : n = 0
    · simp [h0]
    · simp [h0]
  · intro hn
    simp [historyPage, hn, numberOr]
  · intro hn
    simp [historyPage, hn, jsParseInt, numberOr]
  · unfold historySkip
    have hl := (historyLimit_bounds req.query).1
    apply Int.mul_nonneg <;> omega

/-- Witness for C18: `page=0` gives page 1. -/
theorem history_page_clamped_witness :
    ∃ p, (getHistory twoSessions (historyReq (some "0") none)).pagination = some p ∧
      (∀ n : Int, jsParseInt (historyReq (some "0") none).query.page = some n →
        n.natAbs < 2 ^ 53 → p.page = max 1 n) ∧
      (jsParseInt (historyReq (some "0") none).query.page = none → p.page = 1) ∧
      ((historyReq (some "0") none).query.page = none → p.page = 1) ∧
      1 ≤ p.page ∧
      historySkip (historyReq (some "0") none).query = (p.page - 1) * p.limit ∧
      0 ≤ historySkip (historyReq (some "0") none).query :=
  history_page_clamped twoSessions (historyReq (some "0") none) userA "u1" rfl rfl

theorem replaceById_twice (store : Store) (a b : Conversation) (h : a._id = b._id) :
    replaceById (replaceById store a) b = replaceById store b := by
  induction store with
  | nil => rfl
  | cons d t ih =>
    by_cases hd : d._id = a._id
    · have hd' : d._id = b._id := by rw [hd, h]
      simp [replaceById, hd, hd', h]
    · have hd' : ¬ d._id = b._id := by rw [← h]; exact hd
      simp [replaceById, hd, hd', ih]

theorem mem_replaceById (store : Store) (c x : Conversation)
    (hx : x ∈ replaceById store c) : x = c ∨ x ∈ store := by
  induction store with
  | nil => simp [replaceById] at hx
  | cons d t ih =>
    unfold replaceById at hx
    by_cases hd : d._id = c._id
    · rw [if_pos hd] at hx
      rcases List.mem_cons.mp hx with h | h
      · exact Or.inl h
      · exact Or.inr (List.mem_cons_of_mem _ h)
    · rw [if_neg hd] at hx
      rcases List.mem_cons.mp hx with h | h
      · exact Or.inr (h ▸ List.mem_cons_self _ _)
      · rcases ih h with h' | h'
        · exact Or.inl h'
        · exact Or.inr (List.mem_cons_of_mem _ h')

theorem sorted_head_of_newest (l : List Conversation) (c : Conversation) (hc : c ∈ l)
    (hnew : ∀ x ∈ l, x = c ∨ x.updatedAt < c.updatedAt) :
    ∃ rest, sortByUpdatedDesc l = c :: rest := by
  unfold sortByUpdatedDesc
  have hmem : c ∈ l.insertionSort (fun a b => b.updatedAt ≤ a.updatedAt) :=
    (List.mem_insertionSort _).mpr hc
  haveI : IsTotal Conversation (fun a b => b.updatedAt ≤ a.updatedAt) :=
    ⟨fun a b => Nat.le_total b.updatedAt a.updatedAt⟩
  haveI : IsTrans Conversation (fun a b => b.updatedAt ≤ a.updatedAt) :=
    ⟨fun _ _ _ hab hbc => Nat.le_trans hbc hab⟩
  have hsorted :=
    List.sorted_insertionSort (fun a b : Conversation => b.updatedAt ≤ a.updatedAt) l
  cases hl : l.insertionSort (fun a b => b.updatedAt ≤ a.updatedAt) with
  | nil => rw [hl] at hmem; simp at hmem
  | cons h t =>
    rw [hl] at hmem hsorted
    have hh : h ∈ l := (List.mem_insertionSort (fun a b : Conversation =>
      b.updatedAt ≤ a.updatedAt)).mp (by rw [hl]; exact List.mem_cons_self _ _)
    rcases hnew h hh with heq | hlt
    · exact ⟨t, by rw [heq]⟩
    · exfalso
      rcases List.mem_cons.mp hmem with hch | hct
      · rw [hch] at hlt; omega
      · have := List.rel_of_sorted_cons hsorted c hct
        simp only at this
        omega

theorem conversationFor_userId (env : Env) (store : Store) (uid : String)
    (ctx : ReqContext) : (conversationFor env store uid ctx).1.conv.userId = uid := by
  cases hres : resolveConversation store uid ctx with
  | none => exact (conversationFor_of_none env hres).2.2.1
  | some c =>
    rw [conversationFor_of_some env hres]
    rw [resolve_eq_find] at hres
    have hp := List.find?_some hres
    unfold matchesLookup at hp
    by_cases ht : truthy ctx.sessionId = true
    · simp [ht] at hp
      exact hp.1
    · simp [ht] at hp
      exact hp

theorem secondSaved_updatedAt (env : Env) (d : Doc) (t : String) (ctx : ReqContext)
    (ai : AiPayload) : (secondSaved env d t ctx ai).updatedAt = env.save2Time := by
  simp [secondSaved, stamped]

/-- C19. After a successful send whose upstream reply carries the sources `S`, reading
the first page of the user's history returns the conversation of that send first (it is
the most recently updated), and its last message has the sources `S` in the same order. -/
theorem sources_round_trip (env : Env) (store : Store) (up : UpstreamResult)
    (req : Request) (u : User) (uid : String) (out : Outcome) (hreq : HistoryRequest)
    (hu : req.user = some u) (hid : u._id = some uid)
    (hs : sendMessage env store up req = .ok out) (hok : out.response.success = true)
    (hhu : hreq.user = some u) (hpage : historyPage hreq.query = 1)
    (hclock : ∀ d ∈ store, d.updatedAt < env.save2Time) :
    ∃ ai item rest m, up = .ok ai ∧
      (getHistory out.store hreq).conversations = item :: rest ∧
      item._id = targetId env store uid (req.body.context.getD ReqContext.empty) ∧
      item.messages.getLast? = some m ∧ m.role = "assistant" ∧
      m.sources = ai.sources.getD [] ∧
      (∀ S, ai.sources = some S → m.sources = S) := by
  obtain ⟨-, ai, hup, hout⟩ := sendMessage_success hu hid hs hok
  rw [hout] at hok
  obtain ⟨store1, store2, heq, -, hf2, -, hnew, hold⟩ := afterReply_success hok
  rw [heq] at hout
  have hst : out.store = store2 := by rw [hout]
  have hid1 := firstSaved_id env
    (conversationFor env store uid (req.body.context.getD ReqContext.empty)).1
    (jsTrim req.body.message.text) (req.body.context.getD ReqContext.empty)
  have hid2 := secondSaved_id env
    (conversationFor env store uid (req.body.context.getD ReqContext.empty)).1
    (jsTrim req.body.message.text) (req.body.context.getD ReqContext.empty) ai
  have hmem2 : secondSaved env
      (conversationFor env store uid (req.body.context.getD ReqContext.empty)).1
      (jsTrim req.body.message.text) (req.body.context.getD ReqContext.empty) ai ∈ store2 :=
    List.mem_of_find?_eq_some hf2
  have hall : ∀ x ∈ store2, x = secondSaved env
      (conversationFor env store uid (req.body.context.getD ReqContext.empty)).1
      (jsTrim req.body.message.text) (req.body.context.getD ReqContext.empty) ai ∨
      x ∈ store := by
    intro x hx
    by_cases hn : (conversationFor env store uid
        (req.body.context.getD ReqContext.empty)).1.isNew = true
    · obtain ⟨-, -, h2⟩ := hnew hn
      rw [h2] at hx
      rcases List.mem_append.mp hx with h | h
      · exact Or.inr h
      · exact Or.inl (by simpa using h)
    · have hn' : (conversationFor env store uid
          (req.body.context.getD ReqContext.empty)).1.isNew = false := by simpa using hn
      obtain ⟨h1, h2⟩ := hold hn'
      rw [h2, h1, replaceById_twice _ _ _ (by rw [hid1, hid2])] at hx
      exact mem_replaceById _ _ _ hx
  have huser := secondSaved_userId env
    (conversationFor env store uid (req.body.context.getD ReqContext.empty)).1
    (jsTrim req.body.message.text) (req.body.context.getD ReqContext.empty) ai
  rw [conversationFor_userId] at huser
  have hupd := secondSaved_updatedAt env
    (conversationFor env store uid (req.body.context.getD ReqContext.empty)).1
    (jsTrim req.body.message.text) (req.body.context.getD ReqContext.empty) ai
  obtain ⟨rest, hsort⟩ := sorted_head_of_newest
    (store2.filter (fun c => c.userId == uid)) _
    (List.mem_filter.mpr ⟨hmem2, by simp [huser]⟩)
    (by
      intro x hx
      rcases hall x (List.mem_filter.mp hx).1 with h | h
      · exact Or.inl h
      · right
        rw [hupd]
        exact hclock x h)
  have hskip : (historySkip hreq.query).toNat = 0 := by simp [historySkip, hpage]
  have hlim : 1 ≤ (historyLimit hreq.query).toNat := by
    have := (historyLimit_bounds hreq.query).1
    omega
  obtain ⟨k, hk⟩ : ∃ k, (historyLimit hreq.query).toNat = k + 1 := ⟨_, (Nat.sub_add_cancel hlim).symm⟩
  have hmsgs := secondSaved_messages env
    (conversationFor env store uid (req.body.context.getD ReqContext.empty)).1
    req.body.message.text (req.body.context.getD ReqContext.empty) ai
  refine ⟨ai, selectFields (secondSaved env
      (conversationFor env store uid (req.body.context.getD ReqContext.empty)).1
      (jsTrim req.body.message.text) (req.body.context.getD ReqContext.empty) ai),
    (rest.take k).map selectFields, assistantMessage env ai, hup, ?_, ?_, ?_, rfl, rfl, ?_⟩
  · rw [getHistory_of_user out.store hreq u uid hhu hid, hst]
    simp only [hsort, hskip, hk, List.drop_zero, List.take_succ_cons, List.map_cons]
  · show (secondSaved env _ _ _ ai)._id = _
    rw [hid2, conversationFor_id]
  · show (secondSaved env _ _ _ ai).messages.getLast? = _
    rw [hmsgs]
    simp
  · intro S hS
    simp [assistantMessage, hS]

/-- Witness for C19: a third send answered with sources `a`, `b`, then the default
history page. -/
theorem sources_round_trip_witness :
    ∃ ai item rest m, UpstreamResult.ok payloadA = .ok ai ∧
      (getHistory outThird.store (historyReq none none)).conversations = item :: rest ∧
      item._id = targetId env3 twoSessions "u1"
        ((sendReq (some (sessionOnly "s1"))).body.context.getD ReqContext.empty) ∧
      item.messages.getLast? = some m ∧ m.role = "assistant" ∧
      m.sources = ai.sources.getD [] ∧
      (∀ S, ai.sources = some S → m.sources = S) :=
  sources_round_trip env3 twoSessions (.ok payloadA) (sendReq (some (sessionOnly "s1")))
    userA "u1" outThird (historyReq none none) rfl rfl rfl (by decide) rfl (by decide)
    (by decide)

theorem limiter_get_set_self (s : LimiterState) (k : String) (r : WindowRecord) :
    (LimiterState.set s k r).get k = some r := by
  induction s with
  | nil => simp [LimiterState.set, LimiterState.get]
  | cons e t ih =>
    obtain ⟨k', r'⟩ := e
    by_cases hk : k' = k
    · simp [LimiterState.set, LimiterState.get, hk]
    · simp [LimiterState.set, LimiterState.get, hk, ih]

theorem runLimiter_in_window (options : LimiterOptions) (key : String) (events :
    List (Nat × LimiterRequest)) :
    ∀ (state : LimiterState) (k t0 : Nat),
      state.get key = some { count := k, windowStart := t0 } →
      (∀ ev ∈ events, options.skip ev.2 = false ∧ options.keyGenerator ev.2 = key ∧
        ev.1 < t0 + options.windowMs) →
      (runLimiter options state events).1 =
        (List.range events.length).map (fun j =>
          if k + j + 1 > options.max then LimiterDecision.reject 429 false options.message
          else LimiterDecision.next) := by
  induction events with
  | nil => intro state k t0 _ _; rfl
  | cons ev rest ih =>
    intro state k t0 hrec hev
    obtain ⟨now, req⟩ := ev
    obtain ⟨hskip, hkey, htime⟩ := hev (now, req) (List.mem_cons_self _ _)
    simp only at hskip hkey htime
    have hstep : rateLimit options state now req =
        (if k + 1 > options.max then LimiterDecision.reject 429 false options.message
          else LimiterDecision.next,
         state.set key { count := k + 1, windowStart := t0 }) := by
      simp [rateLimit, hskip, hkey, hrec, htime]
    have hrest := ih (state.set key { count := k + 1, windowStart := t0 }) (k + 1) t0
      (limiter_get_set_self _ _ _)
      (fun e he => hev e (List.mem_cons_of_mem _ he))
    simp only [runLimiter, hstep, hrest, List.length_cons, List.range_succ_eq_map,
      List.map_cons, List.map_map]
    congr 1
    apply List.map_congr_left
    intro j _
    simp only [Function.comp]
    have : k + 1 + j + 1 = k + (j + 1) + 1 := by omega
    rw [this]

theorem runLimiter_skipped (options : LimiterOptions) (events : List (Nat × LimiterRequest)) :
    ∀ (state : LimiterState), (∀ ev ∈ events, options.skip ev.2 = true) →
      runLimiter options state events =
        (List.replicate events.length LimiterDecision.next, state) := by
  induction events with
  | nil => intro state _; rfl
  | cons ev rest ih =>
    intro state hev
    obtain ⟨now, req⟩ := ev
    have hskip : options.skip req = true := hev (now, req) (List.mem_cons_self _ _)
    have hstep : rateLimit options state now req = (LimiterDecision.next, state) := by
      simp [rateLimit, hskip]
    have hrest := ih state (fun e he => hev e (List.mem_cons_of_mem _ he))
    simp [runLimiter, hstep, hrest, List.replicate_succ]

theorem chat_key_of_user (md5Hex : String → String) (uid : String) (req : LimiterRequest)
    (h : sentByUser uid req = true) :
    (chatRateLimiter md5Hex).skip req = false ∧
    (chatRateLimiter md5Hex).keyGenerator req = "user:" ++ uid := by
  unfold sentByUser at h
  cases hu : req.user with
  | none => rw [hu] at h; simp at h
  | some u =>
    rw [hu] at h
    simp only [Bool.and_eq_true, beq_iff_eq, bne_iff_ne, ne_eq] at h
    obtain ⟨hid, hrole⟩ := h
    constructor
    · simp [chatRateLimiter, chatSkip, hu, hrole]
    · simp [chatRateLimiter, chatKeyGenerator, hu, hid]

/-- C20. Starting with no live window for a user id, the chat limiter passes the first
30 requests counted under that id within 60 seconds and answers the 31st with status 429;
requests of a user with role `admin` are skipped, so all of them pass, the 31st
included. -/
theorem chat_limit_thirty_per_minute (md5Hex : String → String) (state : LimiterState)
    (uid : String) (first : Nat × LimiterRequest) (rest : List (Nat × LimiterRequest))
    (adminState : LimiterState) (adminEvents : List (Nat × LimiterRequest))
    (hlen : rest.length = 30)
    (hidle : ∀ r, state.get ("user:" ++ uid) = some r → r.windowStart + 60000 ≤ first.1)
    (huser : ∀ ev ∈ first :: rest, sentByUser uid ev.2 = true)
    (hwindow : ∀ ev ∈ rest, ev.1 < first.1 + 60000)
    (hadmin : ∀ ev ∈ adminEvents, sentByAdmin ev.2 = true) :
    (runLimiter (chatRateLimiter md5Hex) state (first :: rest)).1 =
      List.replicate 30 LimiterDecision.next ++
        [LimiterDecision.reject 429 false
          "Too many chat requests. Please try again later."] ∧
    (runLimiter (chatRateLimiter md5Hex) adminState adminEvents).1 =
      List.replicate adminEvents.length LimiterDecision.next := by
  constructor
  · obtain ⟨now, req⟩ := first
    obtain ⟨hskip, hkey⟩ := chat_key_of_user md5Hex uid req
      (huser (now, req) (List.mem_cons_self _ _))
    have hstep : rateLimit (chatRateLimiter md5Hex) state now req =
        (LimiterDecision.next,
         state.set ("user:" ++ uid) { count := 1, windowStart := now }) := by
      have hmax : (chatRateLimiter md5Hex).max = 30 := rfl
      have hwin : (chatRateLimiter md5Hex).windowMs = 60000 := rfl
      cases hrec : state.get ("user:" ++ uid) with
      | none => simp [rateLimit, hskip, hkey, hrec, hmax]
      | some r =>
        have hexp : ¬ now < r.windowStart + 60000 := by
          have := hidle r hrec
          simp only at this
          omega
        simp [rateLimit, hskip, hkey, hrec, hmax, hwin, hexp]
    have hrest := runLimiter_in_window (chatRateLimiter md5Hex) ("user:" ++ uid) rest
      (state.set ("user:" ++ uid) { count := 1, windowStart := now }) 1 now
      (limiter_get_set_self _ _ _)
      (by
        intro ev hev
        obtain ⟨h1, h2⟩ := chat_key_of_user md5Hex uid ev.2
          (huser ev (List.mem_cons_of_mem _ hev))
        exact ⟨h1, h2, hwindow ev hev⟩)
    simp only [runLimiter, hstep, hrest, hlen]
    rfl
  · have hskip : ∀ ev ∈ adminEvents, (chatRateLimiter md5Hex).skip ev.2 = true := by
      intro ev hev
      exact hadmin ev hev
    rw [runLimiter_skipped _ _ adminState hskip]

/-- Witness for C20: 31 requests of `userA` within one second, and 31 of an admin. -/
theorem chat_limit_thirty_per_minute_witness :
    (runLimiter (chatRateLimiter sampleDigest) []
        ((1000, chatRequestA) :: List.replicate 30 (2000, chatRequestA))).1 =
      List.replicate 30 LimiterDecision.next ++
        [LimiterDecision.reject 429 false
          "Too many chat requests. Please try again later."] ∧
    (runLimiter (chatRateLimiter sampleDigest) []
        (List.replicate 31 (1000, chatRequestAdmin))).1 =
      List.replicate (List.replicate 31 (1000, chatRequestAdmin)).length
        LimiterDecision.next :=
  chat_limit_thirty_per_minute sampleDigest [] "u1" (1000, chatRequestA)
    (List.replicate 30 (2000, chatRequestA)) [] (List.replicate 31 (1000, chatRequestAdmin))
    (by decide) (by intro r hr; exact absurd hr (by simp [LimiterState.get]))
    (by decide) (by decide) (by decide)

theorem string_append_left_cancel (p a b : String) (h : p ++ a = p ++ b) : a = b := by
  have hd := congrArg String.data h
  simp only [String.data_append] at hd
  exact String.ext (List.append_cancel_left hd)

/-- C21. The chat limiter's key is `user:` followed by the user's id whenever the request
carries a user with an id, and then two requests with that id have the same key whatever
their IP and user agent; otherwise it is `ip:`, the IP, `:` and the first 8 characters of
the MD5 hex digest of the user agent (`unknown` for an absent or empty one). Different
user ids give different keys, and a user key is never a fallback key. -/
theorem chat_key_rule (md5Hex : String → String) (req other : LimiterRequest) :
    (∀ u id, req.user = some u → u._id = some id →
      (chatRateLimiter md5Hex).keyGenerator req = "user:" ++ id) ∧
    (∀ u v id, req.user = some u → u._id = some id → other.user = some v →
      v._id = some id →
      (chatRateLimiter md5Hex).keyGenerator req =
        (chatRateLimiter md5Hex).keyGenerator other) ∧
    ((req.user = none ∨ ∃ u, req.user = some u ∧ u._id = none) →
      (chatRateLimiter md5Hex).keyGenerator req =
        "ip:" ++ req.ip ++ ":" ++
          String.mk ((md5Hex (match req.userAgent with
            | some ua => if ua = "" then "unknown" else ua
            | none => "unknown")).data.take 8)) ∧
    (∀ u v a b, req.user = some u → u._id = some a → other.user = some v →
      v._id = some b → a ≠ b →
      (chatRateLimiter md5Hex).keyGenerator req ≠
        (chatRateLimiter md5Hex).keyGenerator other) ∧
    (∀ u id, req.user = some u → u._id = some id →
      (other.user = none ∨ ∃ v, other.user = some v ∧ v._id = none) →
      (chatRateLimiter md5Hex).keyGenerator req ≠
        (chatRateLimiter md5Hex).keyGenerator other) := by
  have hkey : ∀ (r : LimiterRequest) u id, r.user = some u → u._id = some id →
      (chatRateLimiter md5Hex).keyGenerator r = "user:" ++ id := by
    intro r u id hu hid
    simp [chatRateLimiter, chatKeyGenerator, hu, hid]
  have hfall : ∀ (r : LimiterRequest),
      (r.user = none ∨ ∃ u, r.user = some u ∧ u._id = none) →
      (chatRateLimiter md5Hex).keyGenerator r =
        "ip:" ++ r.ip ++ ":" ++
          String.mk ((md5Hex (orDefault r.userAgent "unknown")).data.take 8) := by
    intro r h
    rcases h with h | ⟨u, hu, hid⟩
    · simp [chatRateLimiter, chatKeyGenerator, h]
    · simp [chatRateLimiter, chatKeyGenerator, hu, hid]
  refine ⟨hkey req, ?_, ?_, ?_, ?_⟩
  · intro u v id hu hid hv hvid
    rw [hkey req u id hu hid, hkey other v id hv hvid]
  · intro h
    rw [hfall req h]
    cases hua : req.userAgent with
    | none => simp [orDefault]
    | some ua =>
      by_cases he : ua = ""
      · simp [orDefault, he]
      · simp [orDefault, he]
  · intro u v a b hu ha hv hb hab heq
    rw [hkey req u a hu ha, hkey other v b hv hb] at heq
    exact hab (string_append_left_cancel _ _ _ heq)
  · intro u id hu hid hother heq
    rw [hkey req u id hu hid, hfall other hother] at heq
    have hd := congrArg String.data heq
    simp only [String.data_append] at hd
    have h0 := congrArg List.head? hd
    simp at h0

theorem bearerToken_spec (hdr : String) :
    (∀ rest, hdr = "Bearer " ++ rest → bearerToken hdr = rest) ∧
    ((¬ ∃ rest, hdr = "Bearer " ++ rest) → bearerToken hdr = hdr) := by
  constructor
  · intro rest h
    subst h
    unfold bearerToken
    have hp : "Bearer ".data.isPrefixOf ("Bearer " ++ rest).data = true := by
      rw [List.isPrefixOf_iff_prefix, String.data_append]
      exact List.prefix_append _ _
    rw [if_pos hp]
    apply String.ext
    simp [String.data_append]
  · intro h
    unfold bearerToken
    have hp : ¬ "Bearer ".data.isPrefixOf hdr.data = true := by
      rw [List.isPrefixOf_iff_prefix]
      rintro ⟨t, ht⟩
      apply h
      refine ⟨String.mk t, ?_⟩
      apply String.ext
      rw [String.data_append, ← ht]
    rw [if_neg hp]

theorem verifyTokenCatch_failure (env : AuthEnv) (e : Thrown) :
    (verifyTokenCatch env e).success = false ∧
    ((verifyTokenCatch env e).status = 401 ∨ (verifyTokenCatch env e).status = 500) := by
  unfold verifyTokenCatch
  split
  · exact ⟨rfl, Or.inl rfl⟩
  · split
    · exact ⟨rfl, Or.inl rfl⟩
    · exact ⟨rfl, Or.inr rfl⟩

/-- C22. `verifyToken` calls `next` with `req.user` set to the stored user exactly when
an Authorization header is present, the token left after removing a leading `Bearer ` is
not empty, the signing secret is configured, the token verifies and the user it names
exists; otherwise it responds with a failure (401 or 500). An expired token is answered
with `Token expired`, an otherwise invalid one with `Invalid token`. -/
theorem verifyToken_passes_iff (env : AuthEnv) (authorization : Option String) :
    (∀ user, verifyToken env authorization = .next user ↔
      ∃ hdr secret decoded, authorization = some hdr ∧ bearerToken hdr ≠ "" ∧
        env.jwtSecret = some secret ∧ secret ≠ "" ∧
        env.jwtVerify (bearerToken hdr) secret = .ok decoded ∧
        env.findById decoded = .ok (some user)) ∧
    (∀ hdr, (∀ rest, hdr = "Bearer " ++ rest → bearerToken hdr = rest) ∧
      ((¬ ∃ rest, hdr = "Bearer " ++ rest) → bearerToken hdr = hdr)) ∧
    (∀ r, verifyToken env authorization = .respond r →
      r.success = false ∧ (r.status = 401 ∨ r.status = 500)) ∧
    (∀ hdr secret e, authorization = some hdr → bearerToken hdr ≠ "" →
      env.jwtSecret = some secret → secret ≠ "" →
      env.jwtVerify (bearerToken hdr) secret = .error e →
      (e.name = "TokenExpiredError" →
        verifyToken env authorization = .respond (failure 401 "Token expired" none)) ∧
      (e.name = "JsonWebTokenError" →
        verifyToken env authorization = .respond (failure 401 "Invalid token" none))) := by
  have hshape : ∀ hdr secret, authorization = some hdr → bearerToken hdr ≠ "" →
      env.jwtSecret = some secret → secret ≠ "" →
      verifyToken env authorization =
        match env.jwtVerify (bearerToken hdr) secret with
        | .error error => .respond (verifyTokenCatch env error)
        | .ok userId =>
          match env.findById userId with
          | .error error => .respond (verifyTokenCatch env error)
          | .ok none => .respond (failure 401 "User not found" none)
          | .ok (some user) => .next user := by
    intro hdr secret ha ht hs hse
    have hhdr : hdr ≠ "" := by
      intro h
      rw [h] at ht
      exact ht (by decide)
    simp [verifyToken, ha, hs, truthy, hhdr, ht, hse]
  refine ⟨?_, bearerToken_spec, ?_, ?_⟩
  · intro user
    constructor
    · intro h
      unfold verifyToken at h
      by_cases h1 : (!truthy authorization) = true
      · rw [if_pos h1] at h; exact absurd h (by simp)
      · rw [if_neg h1] at h
        simp only at h
        by_cases h2 : (bearerToken (authorization.getD "") == "") = true
        · rw [if_pos h2] at h; exact absurd h (by simp)
        · rw [if_neg h2] at h
          by_cases h3 : (!truthy env.jwtSecret) = true
          · rw [if_pos h3] at h; exact absurd h (by simp)
          · rw [if_neg h3] at h
            cases ha : authorization with
            | none => simp [ha, truthy] at h1
            | some hdr =>
              cases hs : env.jwtSecret with
              | none => simp [hs, truthy] at h3
              | some secret =>
                rw [ha, hs] at h
                simp only [Option.getD_some] at h
                have hse : secret ≠ "" := by
                  intro he
                  simp [hs, truthy, he] at h3
                have ht : bearerToken hdr ≠ "" := by
                  intro he
                  simp [ha, he] at h2
                cases hv : env.jwtVerify (bearerToken hdr) secret with
                | error e => rw [hv] at h; exact absurd h (by simp)
                | ok decoded =>
                  rw [hv] at h
                  simp only at h
                  cases hf : env.findById decoded with
                  | error e => rw [hf] at h; exact absurd h (by simp)
                  | ok found =>
                    rw [hf] at h
                    cases found with
                    | none => exact absurd h (by simp)
                    | some u =>
                      simp only [AuthOutcome.next.injEq] at h
                      subst h
                      exact ⟨hdr, secret, decoded, rfl, ht, rfl, hse, hv, hf⟩
    · rintro ⟨hdr, secret, decoded, ha, ht, hs, hse, hv, hf⟩
      rw [hshape hdr secret ha ht hs hse, hv]
      simp only [hf]
  · intro r h
    unfold verifyToken at h
    by_cases h1 : (!truthy authorization) = true
    · rw [if_pos h1] at h
      simp only [AuthOutcome.respond.injEq] at h
      subst h
      exact ⟨rfl, Or.inl rfl⟩
    · rw [if_neg h1] at h
      simp only at h
      by_cases h2 : (bearerToken (authorization.getD "") == "") = true
      · rw [if_pos h2] at h
        simp only [AuthOutcome.respond.injEq] at h
        subst h
        exact ⟨rfl, Or.inl rfl⟩
      · rw [if_neg h2] at h
        by_cases h3 : (!truthy env.jwtSecret) = true
        · rw [if_pos h3] at h
          simp only [AuthOutcome.respond.injEq] at h
          subst h
          exact ⟨rfl, Or.inr rfl⟩
        · rw [if_neg h3] at h
          cases hv : env.jwtVerify (bearerToken (authorization.getD ""))
              (env.jwtSecret.getD "") with
          | error e =>
            rw [hv] at h
            simp only [AuthOutcome.respond.injEq] at h
            subst h
            exact verifyTokenCatch_failure env e
          | ok decoded =>
            rw [hv] at h
            simp only at h
            cases hf : env.findById decoded with
            | error e =>
              rw [hf] at h
              simp only [AuthOutcome.respond.injEq] at h
              subst h
              exact verifyTokenCatch_failure env e
            | ok found =>
              rw [hf] at h
              cases found with
              | none =>
                simp only [AuthOutcome.respond.injEq] at h
                subst h
                exact ⟨rfl, Or.inl rfl⟩
              | some u => exact absurd h (by simp)
  · intro hdr secret e ha ht hs hse hv
    rw [hshape hdr secret ha ht hs hse, hv]
    constructor
    · intro hn
      simp [verifyTokenCatch, hn]
    · intro hn
      simp [verifyTokenCatch, hn]

/-- The sample environment passes the token `good` and tells an expired token from a
malformed one. -/
theorem verifyToken_samples :
    verifyToken authEnvA (some "Bearer good") = .next userA ∧
    verifyToken authEnvA (some "Bearer old") =
      .respond (failure 401 "Token expired" none) ∧
    verifyToken authEnvA (some "Bearer bad") =
      .respond (failure 401 "Invalid token" none) ∧
    verifyToken authEnvA (some "Bearer ") = .respond (failure 401 "No token provided" none) ∧
    verifyToken authEnvA none =
      .respond (failure 401 "No authorization header provided" none) := by
  decide

/-- The function `validatePassword` accepts exactly the strings of at least 8 UTF-16 code
units that contain a letter `A-Z`, a letter `a-z` and a digit `0-9`. -/
theorem validatePassword_iff (p : JsValue) :
    validatePassword p = true ↔
      ∃ s, p = .string s ∧ 8 ≤ utf16Length s ∧
        (∃ c ∈ s.data, 'A' ≤ c ∧ c ≤ 'Z') ∧ (∃ c ∈ s.data, 'a' ≤ c ∧ c ≤ 'z') ∧
        (∃ c ∈ s.data, '0' ≤ c ∧ c ≤ '9') := by
  cases p with
  | string s =>
    simp only [validatePassword, JsValue.falsy, JsValue.isString, JsValue.text,
      Bool.not_true, Bool.or_false, JsValue.string.injEq, exists_eq_left']
    by_cases h0 : s = ""
    · simp [h0]
    · simp only [beq_iff_eq, h0, if_false]
      by_cases h8 : utf16Length s < 8
      · simp only [decide_eq_true_eq, h8, if_true, Bool.false_eq_true, false_iff, not_and]
        intro h; omega
      · simp only [decide_eq_true_eq, h8, if_false]
        have h8' : 8 ≤ utf16Length s := by omega
        simp only [h8', true_and]
        by_cases hu : s.data.any isUpperAZ = true
        · by_cases hl : s.data.any isLowerAZ = true
          · by_cases hd : s.data.any isDecimalDigit = true
            · simp only [hu, hl, hd, Bool.not_true, Bool.false_eq_true, if_false, true_iff]
              simp only [List.any_eq_true, isUpperAZ, isLowerAZ, isDecimalDigit,
                Bool.and_eq_true, decide_eq_true_eq] at hu hl hd
              exact ⟨hu, hl, hd⟩
            · simp only [hu, hl, hd, Bool.not_true, Bool.false_eq_true, if_false,
                Bool.not_false, if_true, false_iff]
              simp only [List.any_eq_true, isDecimalDigit, Bool.and_eq_true,
                decide_eq_true_eq] at hd
              exact fun h => hd h.2.2
          · simp only [hu, hl, Bool.not_true, Bool.false_eq_true, if_false,
              Bool.not_false, if_true, false_iff]
            simp only [List.any_eq_true, isLowerAZ, Bool.and_eq_true,
              decide_eq_true_eq] at hl
            exact fun h => hl h.2.1
        · simp only [hu, Bool.not_false, if_true, Bool.false_eq_true, false_iff]
          simp only [List.any_eq_true, isUpperAZ, Bool.and_eq_true,
            decide_eq_true_eq] at hu
          exact fun h => hu h.1
  | undefined => simp [validatePassword, JsValue.falsy]
  | null => simp [validatePassword, JsValue.falsy]
  | bool b => simp [validatePassword, JsValue.isString]
  | number n => simp [validatePassword, JsValue.isString]
  | object => simp [validatePassword, JsValue.isString]

/-- With an absent (falsy) or string-valued email, `register` answers every request whose
password fails `validatePassword` with status 400 and does not go on. -/
theorem register_rejects_weak_password (toLowerCase : String → String) (development : Bool)
    (body : RegisterBody) (hemail : body.email.falsy = true ∨ body.email.isString = true)
    (hweak : validatePassword body.password = false) :
    ∃ r, register toLowerCase development body = .respond r ∧ r.status = 400 ∧
      r.success = false := by
  unfold register
  by_cases hf : (body.email.falsy || body.password.falsy) = true
  · rw [if_pos hf]
    exact ⟨_, rfl, rfl, rfl⟩
  · rw [if_neg hf]
    have hnf : body.email.falsy = false := by
      simp only [Bool.or_eq_true, not_or, Bool.not_eq_true] at hf
      exact hf.1
    rcases hemail with h | h
    · rw [hnf] at h; exact absurd h (by decide)
    · cases hb : body.email with
      | string e =>
        simp only
        split
        · exact ⟨_, rfl, rfl, rfl⟩
        · simp only [hweak, Bool.not_false, if_true]
          exact ⟨_, rfl, rfl, rfl⟩
      | undefined => rw [hb] at h; exact absurd h (by decide)
      | null => rw [hb] at h; exact absurd h (by decide)
      | bool b => rw [hb] at h; exact absurd h (by simp [JsValue.isString])
      | number n => rw [hb] at h; exact absurd h (by simp [JsValue.isString])
      | object => rw [hb] at h; exact absurd h (by decide)

/-- C23 (failing input). A registration whose email is the JSON number 123 and whose
password `short` fails `validatePassword` is answered with status 500, not 400:
`email.trim()` throws before either check runs. -/
theorem register_non_string_email :
    validatePassword registerNumberEmail.password = false ∧
    register asciiLower false registerNumberEmail =
      .respond
        { status := 500, success := false, message := "Registration failed", error := none,
          sources := none, context := none } := by
  decide

/-- C24 (failing input). The text `javajavascript:script:` is sanitized to
`javascript:`: removing the inner occurrence joins the outer parts into a new one. -/
theorem sanitizeInput_leaves_javascript :
    sanitizeInput (.string "javajavascript:script:") = .string "javascript:" ∧
    jsIncludes (sanitizeInput (.string "javajavascript:script:")).text "javascript:" = true ∧
    sanitizeInput (.string "javaonx=script:") = .string "javascript:" := by
  decide

/-- C25 (failing input). A request without `req.user` makes `sendMessage` throw at line
12 (`req.user._id`), before the check of line 17 that would answer 401. -/
theorem sendMessage_without_user_throws (env : Env) (store : Store) (up : UpstreamResult)
    (body : Body) :
    sendMessage env store up { user := none, body := body } = .error "TypeError" := by
  rfl

/-- C26 (failing input). The URL `/api/chat/send%0%0AA` is cleaned to
`/api/chat/send%0A`, and `/api/chat/send%0%0DA` as well: removing one sequence joins its
neighbours into a new `%0A`. -/
theorem cleanUrl_leaves_newline :
    cleanUrl "/api/chat/send%0%0AA" = "/api/chat/send%0A" ∧
    cleanUrl "/api/chat/send%0%0DA" = "/api/chat/send%0A" ∧
    jsIncludes (cleanUrl "/api/chat/send%0%0AA") "%0A" = true := by
  decide

theorem deleteFirst_split (f : Conversation → Bool) (pre post : Store) (c : Conversation)
    (hc : f c = true) (hpre : ∀ d ∈ pre, f d = false) :
    deleteFirst f (pre ++ c :: post) = pre ++ post := by
  induction pre with
  | nil => simp [deleteFirst, hc]
  | cons a t ih =>
    have ha : f a = false := hpre a (List.mem_cons_self _ _)
    have ht := ih (fun d hd => hpre d (List.mem_cons_of_mem _ hd))
    simp [deleteFirst, ha, ht]

theorem deleteConversation_of_user (store : Store) (req : DeleteRequest) (u : User)
    (uid : String) (hu : req.user = some u) (hid : u._id = some uid) :
    deleteConversation store req =
      if isObjectIdString req.id = false then
        (failure 400 "Invalid conversation ID" none, store)
      else
        match findOne store
            (fun c => c._id == castObjectId req.id && c.userId == uid) with
        | none =>
          (failure 404
            "Conversation not found or you do not have permission to delete it" none, store)
        | some _ =>
          ({ status := 200, success := true, message := "Conversation deleted successfully",
             error := none, sources := none, context := none },
           deleteFirst (fun c => c._id == castObjectId req.id && c.userId == uid) store) := by
  have hreq : req.user.bind (fun u => u._id) = some uid := by simp [hu, hid]
  unfold deleteConversation
  rw [hreq]
  simp only
  by_cases hwf : isObjectIdString req.id = true
  · have hne : (req.id == "") = false := by
      rw [beq_eq_false_iff_ne]
      intro he
      rw [he] at hwf
      exact absurd hwf (by decide)
    simp [hwf, hne]
  · have hwf' : isObjectIdString req.id = false := by simpa using hwf
    simp [hwf']

/-- C27. For a requesting user and a well-formed id, `deleteConversation` succeeds exactly
when the store holds a conversation with that id owned by the user; it then removes that
conversation and leaves every other one in place (with unique ids, no conversation with
that id remains); in every other case, a malformed id (answered with 400) included, the
store is unchanged. -/
theorem delete_removes_exactly (store : Store) (req : DeleteRequest) (u : User)
    (uid : String) (hu : req.user = some u) (hid : u._id = some uid) :
    (isObjectIdString req.id = true →
      ((deleteConversation store req).1.success = true ↔
        ∃ c ∈ store, c._id = castObjectId req.id ∧ c.userId = uid)) ∧
    ((deleteConversation store req).1.success = true →
      ∃ pre c post, store = pre ++ c :: post ∧ c._id = castObjectId req.id ∧
        c.userId = uid ∧ (deleteConversation store req).2 = pre ++ post ∧
        ((store.map (fun d => d._id)).Nodup →
          ∀ d ∈ pre ++ post, d._id ≠ castObjectId req.id)) ∧
    ((deleteConversation store req).1.success = false →
      (deleteConversation store req).2 = store) ∧
    (isObjectIdString req.id = false →
      (deleteConversation store req).1.status = 400 ∧
      (deleteConversation store req).2 = store) := by
  rw [deleteConversation_of_user store req u uid hu hid]
  by_cases hwf : isObjectIdString req.id = true
  · have hwf' : ¬ isObjectIdString req.id = false := by simp [hwf]
    rw [if_neg hwf']
    cases hfind : findOne store
        (fun c => c._id == castObjectId req.id && c.userId == uid) with
    | none =>
      have hno : ¬ ∃ c ∈ store, c._id = castObjectId req.id ∧ c.userId = uid := by
        rintro ⟨c, hc, h1, h2⟩
        unfold findOne at hfind
        rw [List.find?_eq_none] at hfind
        exact hfind c hc (by simp [h1, h2])
      refine ⟨fun _ => ?_, ?_, fun _ => rfl, fun h => absurd h hwf'⟩
      · simp only [failure, Bool.false_eq_true, false_iff]
        exact hno
      · intro h
        simp [failure] at h
    | some c =>
      unfold findOne at hfind
      obtain ⟨hpc, pre, post, hsplit, hpre⟩ := List.find?_eq_some.mp hfind
      simp only [Bool.and_eq_true, beq_iff_eq] at hpc
      have hdel : deleteFirst (fun c => c._id == castObjectId req.id && c.userId == uid)
          store = pre ++ post := by
        rw [hsplit]
        apply deleteFirst_split
        · simp [hpc.1, hpc.2]
        · intro d hd
          have h := hpre d hd
          show (d._id == castObjectId req.id && d.userId == uid) = false
          cases hfd : (d._id == castObjectId req.id && d.userId == uid)
          · rfl
          · rw [hfd] at h; exact absurd h (by decide)
      refine ⟨fun _ => ?_, fun _ => ?_, fun h => ?_, fun h => absurd h hwf'⟩
      · simp only [true_iff]
        exact ⟨c, by rw [hsplit]; simp, hpc.1, hpc.2⟩
      · refine ⟨pre, c, post, hsplit, hpc.1, hpc.2, hdel, ?_⟩
        intro hnodup d hd hdid
        rw [hsplit, List.map_append, List.map_cons, List.nodup_middle,
          List.nodup_cons] at hnodup
        apply hnodup.1
        rw [← List.map_append, hpc.1, ← hdid]
        exact List.mem_map_of_mem _ hd
      · simp at h
  · have hwf' : isObjectIdString req.id = false := by simpa using hwf
    rw [if_pos hwf']
    refine ⟨fun h => absurd h hwf, fun h => ?_, fun _ => rfl, fun _ => ⟨rfl, rfl⟩⟩
    simp [failure] at h

/-- Witness for C27: `userA` deletes the conversation of session `s2` out of two. -/
theorem delete_removes_exactly_witness :
    (isObjectIdString deleteS2.id = true →
      ((deleteConversation twoSessions deleteS2).1.success = true ↔
        ∃ c ∈ twoSessions, c._id = castObjectId deleteS2.id ∧ c.userId = "u1")) ∧
    ((deleteConversation twoSessions deleteS2).1.success = true →
      ∃ pre c post, twoSessions = pre ++ c :: post ∧ c._id = castObjectId deleteS2.id ∧
        c.userId = "u1" ∧ (deleteConversation twoSessions deleteS2).2 = pre ++ post ∧
        ((twoSessions.map (fun d => d._id)).Nodup →
          ∀ d ∈ pre ++ post, d._id ≠ castObjectId deleteS2.id)) ∧
    ((deleteConversation twoSessions deleteS2).1.success = false →
      (deleteConversation twoSessions deleteS2).2 = twoSessions) ∧
    (isObjectIdString deleteS2.id = false →
      (deleteConversation twoSessions deleteS2).1.status = 400 ∧
      (deleteConversation twoSessions deleteS2).2 = twoSessions) :=
  delete_removes_exactly twoSessions deleteS2 userA "u1" rfl rfl

theorem pages_bounds (T L : Nat) (hL : 1 ≤ L) :
    T ≤ ((T + L - 1) / L) * L ∧ ∀ q, q + 1 = (T + L - 1) / L → q * L < T := by
  constructor
  · by_contra h
    have h1 : ((T + L - 1) / L + 1) * L ≤ T + L - 1 := by
      rw [Nat.add_mul, Nat.one_mul]
      omega
    have h2 := (Nat.le_div_iff_mul_le (by omega : 0 < L)).mpr h1
    omega
  · intro q hq
    have h1 : (q + 1) * L ≤ T + L - 1 :=
      (Nat.le_div_iff_mul_le (by omega : 0 < L)).mp (by omega)
    rw [Nat.add_mul, Nat.one_mul] at h1
    omega

theorem pages_eq_ceil (T L : Nat) (hL : 1 ≤ L) :
    (T + L - 1) / L = ⌈(T : ℚ) / (L : ℚ)⌉₊ := by
  obtain ⟨h1, h2⟩ := pages_bounds T L hL
  have hLq : (0 : ℚ) < (L : ℚ) := by exact_mod_cast hL
  apply le_antisymm
  · cases hP : (T + L - 1) / L with
    | zero => exact Nat.zero_le _
    | succ q =>
      have hq := h2 q hP.symm
      rw [Nat.succ_le_iff, Nat.lt_ceil, lt_div_iff₀ hLq]
      exact_mod_cast hq
  · rw [Nat.ceil_le, div_le_iff₀ hLq]
    exact_mod_cast h1

theorem hasMore_iff (n T L : Nat) (hL : 1 ≤ L) :
    n * L < T ↔ n < (T + L - 1) / L := by
  obtain ⟨h1, h2⟩ := pages_bounds T L hL
  constructor
  · intro h
    have : n * L < ((T + L - 1) / L) * L := Nat.lt_of_lt_of_le h h1
    exact Nat.lt_of_mul_lt_mul_right this
  · intro h
    cases hP : (T + L - 1) / L with
    | zero => rw [hP] at h; omega
    | succ q =>
      have hq := h2 q hP.symm
      rw [hP] at h
      have : n * L ≤ q * L := Nat.mul_le_mul_right L (by omega)
      omega

/-- C29. In the pagination record of `getHistory`, `pages` is the ceiling of
`total / limit`, and `hasMore` (computed as `page * limit < total`) holds exactly when
`page < pages`; with `total = 0` there are no pages and `hasMore` is false. -/
theorem pagination_pages_hasMore (store : Store) (req : HistoryRequest) (u : User)
    (uid : String) (hu : req.user = some u) (hid : u._id = some uid) :
    ∃ p, (getHistory store req).pagination = some p ∧
      1 ≤ p.page ∧ 1 ≤ p.limit ∧ p.limit ≤ 50 ∧
      p.total = (store.filter (fun c => c.userId == uid)).length ∧
      p.pages = ⌈(p.total : ℚ) / ((p.limit : Int) : ℚ)⌉₊ ∧
      p.hasMore = decide (p.page * p.limit < (p.total : Int)) ∧
      (p.hasMore = true ↔ p.page < (p.pages : Int)) ∧
      (p.total = 0 → p.pages = 0 ∧ p.hasMore = false) := by
  rw [getHistory_of_user store req u uid hu hid]
  have hl := historyLimit_bounds req.query
  have hp : 1 ≤ historyPage req.query := by
    unfold historyPage
    omega
  obtain ⟨L, hL⟩ : ∃ L : Nat, historyLimit req.query = (L : Int) :=
    ⟨(historyLimit req.query).toNat, (Int.toNat_of_nonneg (by omega)).symm⟩
  obtain ⟨n, hn⟩ : ∃ n : Nat, historyPage req.query = (n : Int) :=
    ⟨(historyPage req.query).toNat, (Int.toNat_of_nonneg (by omega)).symm⟩
  have hL1 : 1 ≤ L := by omega
  have hmore : (historyPage req.query * historyLimit req.query <
      ((store.filter (fun c => c.userId == uid)).length : Int)) ↔
      historyPage req.query <
        ((((store.filter (fun c => c.userId == uid)).length +
          (historyLimit req.query).toNat - 1) / (historyLimit req.query).toNat : Nat) :
          Int) := by
    rw [hL, hn, Int.toNat_ofNat]
    have := hasMore_iff n (store.filter (fun c => c.userId == uid)).length L hL1
    constructor
    · intro h
      have h' : n * L < (store.filter (fun c => c.userId == uid)).length := by
        exact_mod_cast h
      exact_mod_cast this.mp h'
    · intro h
      have h' : n < ((store.filter (fun c => c.userId == uid)).length + L - 1) / L := by
        exact_mod_cast h
      exact_mod_cast this.mpr h'
  refine ⟨_, rfl, hp, hl.1, hl.2, rfl, ?_, rfl, ?_, ?_⟩
  · simp only [hL, Int.toNat_ofNat, Int.cast_natCast]
    exact pages_eq_ceil _ L hL1
  · simp only [decide_eq_true_eq]
    exact hmore
  · intro h0
    simp only at h0
    constructor
    · simp only [h0, hL, Int.toNat_ofNat]
      apply Nat.div_eq_of_lt
      omega
    · simp only [h0, decide_eq_false_iff_not, not_lt]
      have : 0 ≤ historyPage req.query * historyLimit req.query :=
        Int.mul_nonneg (by omega) (by omega)
      simpa using this

/-- Witness for C29: two conversations, `limit=1`, first page. -/
theorem pagination_pages_hasMore_witness :
    ∃ p, (getHistory twoSessions (historyReq none (some "1"))).pagination = some p ∧
      1 ≤ p.page ∧ 1 ≤ p.limit ∧ p.limit ≤ 50 ∧
      p.total = (twoSessions.filter (fun c => c.userId == "u1")).length ∧
      p.pages = ⌈(p.total : ℚ) / ((p.limit : Int) : ℚ)⌉₊ ∧
      p.hasMore = decide (p.page * p.limit < (p.total : Int)) ∧
      (p.hasMore = true ↔ p.page < (p.pages : Int)) ∧
      (p.total = 0 → p.pages = 0 ∧ p.hasMore = false) :=
  pagination_pages_hasMore twoSessions (historyReq none (some "1")) userA "u1" rfl rfl

/-- The sample page: 2 conversations at 1 per page give 2 pages and more to come. -/
theorem pagination_sample :
    (getHistory twoSessions (historyReq none (some "1"))).pagination =
      some { page := 1, limit := 1, total := 2, pages := 2, hasMore := true } := by
  decide

theorem replaceById_filter (store : Store) (c : Conversation) (uid : String)
    (hown : ∀ x ∈ store, x._id = c._id → x.userId = uid) (hc : c.userId = uid) :
    (replaceById store c).filter (fun x => x.userId != uid) =
      store.filter (fun x => x.userId != uid) := by
  induction store with
  | nil => rfl
  | cons d t ih =>
    have iht := ih (fun x hx => hown x (List.mem_cons_of_mem _ hx))
    by_cases hd : d._id = c._id
    · have hdu : d.userId = uid := hown d (List.mem_cons_self _ _) hd
      simp [replaceById, hd, List.filter_cons, hdu, hc]
    · simp [replaceById, hd, List.filter_cons, iht]

theorem stamped_fields (d : Doc) (t : Nat) :
    (stamped d t)._id = d.conv._id ∧ (stamped d t).userId = d.conv.userId := by
  unfold stamped
  split <;> exact ⟨rfl, rfl⟩

theorem save_frame {store store1 : Store} {d d1 : Doc} {t : Nat} (uid : String)
    (h : save store d t = .ok (store1, d1)) (hu : d.conv.userId = uid)
    (hown : d.isNew = false → ∀ x ∈ store, x._id = d.conv._id → x.userId = uid) :
    store1.filter (fun x => x.userId != uid) = store.filter (fun x => x.userId != uid) ∧
    d1.conv._id = d.conv._id ∧ d1.conv.userId = uid ∧ d1.isNew = false ∧
    (∀ x ∈ store1, x._id = d.conv._id → x.userId = uid) := by
  obtain ⟨hd1, -, -, hnew, hold⟩ := save_ok h
  obtain ⟨hsid, hsu⟩ := stamped_fields d t
  have hd1c : d1.conv = stamped d t := by rw [hd1]
  refine ⟨?_, by rw [hd1c, hsid], by rw [hd1c, hsu, hu], by rw [hd1], ?_⟩
  · by_cases hn : d.isNew = true
    · obtain ⟨-, hs⟩ := hnew hn
      rw [hs, List.filter_append]
      simp [hsu, hu]
    · have hn' : d.isNew = false := by simpa using hn
      rw [hold hn']
      apply replaceById_filter
      · rw [hsid]; exact hown hn'
      · rw [hsu, hu]
  · intro x hx hxid
    by_cases hn : d.isNew = true
    · obtain ⟨hnone, hs⟩ := hnew hn
      rw [hs] at hx
      rcases List.mem_append.mp hx with hx | hx
      · exfalso
        unfold findById findOne at hnone
        rw [List.find?_eq_none] at hnone
        exact hnone x hx (by simp [hxid])
      · have : x = stamped d t := by simpa using hx
        rw [this, hsu, hu]
    · have hn' : d.isNew = false := by simpa using hn
      rw [hold hn'] at hx
      rcases mem_replaceById _ _ _ hx with hx | hx
      · rw [hx, hsu, hu]
      · exact hown hn' x hx hxid

theorem afterReply_frame (env : Env) (store : Store) (request : UpstreamRequest) (d : Doc)
    (t : String) (ctx : ReqContext) (ai : AiPayload) (uid : String)
    (hu : d.conv.userId = uid)
    (hown : d.isNew = false → ∀ x ∈ store, x._id = d.conv._id → x.userId = uid) :
    (afterReply env store request d t ctx ai).store.filter (fun x => x.userId != uid) =
      store.filter (fun x => x.userId != uid) := by
  unfold afterReply
  cases h1 : save store { d with conv := withUserTurn env d.conv t ctx } env.save1Time with
  | error thrown => rfl
  | ok r =>
    obtain ⟨store1, d1⟩ := r
    obtain ⟨hf1, hid1, hu1, hn1, hown1⟩ := save_frame uid h1 hu hown
    simp only
    cases h2 : save store1 { d1 with conv := withAssistantTurn env d1.conv ai }
        env.save2Time with
    | error thrown => exact hf1
    | ok r2 =>
      obtain ⟨store2, d2⟩ := r2
      obtain ⟨hf2, -, -, -, -⟩ := save_frame uid h2 hu1
        (fun _ x hx hxid => hown1 x hx (by rw [hxid]; exact hid1))
      simp only
      rw [hf2, hf1]

theorem deleteFirst_filter (f : Conversation → Bool) (uid : String) (store : Store)
    (hf : ∀ c, f c = true → c.userId = uid) :
    (deleteFirst f store).filter (fun x => x.userId != uid) =
      store.filter (fun x => x.userId != uid) := by
  induction store with
  | nil => rfl
  | cons a t ih =>
    by_cases ha : f a = true
    · simp [deleteFirst, ha, List.filter_cons, hf a ha]
    · simp [deleteFirst, ha, List.filter_cons, ih]

theorem sendMessageTry_frame (env : Env) (store : Store) (up : UpstreamResult)
    (uid : String) (body : Body) (hnodup : (store.map (fun c => c._id)).Nodup) :
    (sendMessageTry env store up (some uid) body).store.filter (fun x => x.userId != uid) =
      store.filter (fun x => x.userId != uid) := by
  unfold sendMessageTry
  simp only
  split
  · rfl
  · cases up with
    | error e => rfl
    | ok ai =>
      simp only
      apply afterReply_frame
      · exact conversationFor_userId env store uid _
      · intro hn x hx hxid
        cases hres : resolveConversation store uid (body.context.getD ReqContext.empty) with
        | none =>
          rw [(conversationFor_of_none env hres).1] at hn
          exact absurd hn (by decide)
        | some c =>
          have hc := conversationFor_of_some env hres
          rw [hc] at hxid
          simp only at hxid
          have hcmem : c ∈ store := by
            rw [resolve_eq_find] at hres
            exact List.mem_of_find?_eq_some hres
          have hxc : x = c := List.inj_on_of_nodup_map hnodup hx hcmem hxid
          have := conversationFor_userId env store uid (body.context.getD ReqContext.empty)
          rw [hc] at this
          rw [hxc]
          exact this

/-- C28. For a requesting user A: `getHistory` returns only conversations owned by A and
counts only those; `sendMessage` takes the history it sends from a conversation owned by A
(or sends none) and leaves the conversations of every other user as they are, whatever its
outcome; `deleteConversation` leaves the conversations of every other user as they are. -/
theorem no_cross_user_access (env : Env) (store : Store) (up : UpstreamResult)
    (req : Request) (hreq : HistoryRequest) (dreq : DeleteRequest) (u : User) (uid : String)
    (out : Outcome) (hu : req.user = some u) (hhu : hreq.user = some u)
    (hdu : dreq.user = some u) (hid : u._id = some uid)
    (hnodup : (store.map (fun c => c._id)).Nodup)
    (hs : sendMessage env store up req = .ok out) :
    (∀ item ∈ (getHistory store hreq).conversations,
      ∃ c ∈ store, c.userId = uid ∧ item = selectFields c) ∧
    (getHistory store hreq).pagination.map (fun p => p.total) =
      some (store.countP (fun c => c.userId == uid)) ∧
    (∀ r, out.sent = some r →
      r.context.conversation_history = [] ∨
      ∃ c ∈ store, c.userId = uid ∧
        r.context.conversation_history = (jsSlice c.messages (-10)).map roleAndContent) ∧
    out.store.filter (fun x => x.userId != uid) = store.filter (fun x => x.userId != uid) ∧
    (deleteConversation store dreq).2.filter (fun x => x.userId != uid) =
      store.filter (fun x => x.userId != uid) := by
  refine ⟨?_, ?_, ?_, ?_, ?_⟩
  · rw [getHistory_of_user store hreq u uid hhu hid]
    intro item hitem
    simp only [List.mem_map] at hitem
    obtain ⟨c, hc, hci⟩ := hitem
    have h1 := List.mem_of_mem_take hc
    have h2 := List.mem_of_mem_drop h1
    have h3 : c ∈ store.filter (fun c => c.userId == uid) := by
      unfold sortByUpdatedDesc at h2
      exact (List.mem_insertionSort _).mp h2
    obtain ⟨h4, h5⟩ := List.mem_filter.mp h3
    exact ⟨c, h4, by simpa using h5, hci.symm⟩
  · rw [getHistory_of_user store hreq u uid hhu hid]
    simp [List.countP_eq_length_filter]
  · intro r hr
    rw [sendMessage_of_user hu, hid] at hs
    have hout : out = sendMessageTry env store up (some uid) req.body := by
      injection hs with hs
      exact hs.symm
    by_cases hm : rejectsMessage req.body.message = true
    · rw [hout] at hr
      simp [sendMessageTry, hm] at hr
    · have hm' : rejectsMessage req.body.message = false := by simpa using hm
      rw [hout, sendMessageTry_sent hm'] at hr
      injection hr with hr
      rw [← hr]
      cases hres : resolveConversation store uid
          (req.body.context.getD ReqContext.empty) with
      | none =>
        left
        simp only [upstreamRequest, (conversationFor_of_none env hres).2.2.2.2]
        rfl
      | some c =>
        right
        have hcmem : c ∈ store := by
          rw [resolve_eq_find] at hres
          exact List.mem_of_find?_eq_some hres
        have hcu := conversationFor_userId env store uid
          (req.body.context.getD ReqContext.empty)
        rw [conversationFor_of_some env hres] at hcu
        refine ⟨c, hcmem, hcu, ?_⟩
        simp only [upstreamRequest, conversationFor_of_some env hres]
        rfl
  · rw [sendMessage_of_user hu, hid] at hs
    have hout : out = sendMessageTry env store up (some uid) req.body := by
      injection hs with hs
      exact hs.symm
    rw [hout]
    exact sendMessageTry_frame env store up uid req.body hnodup
  · rw [deleteConversation_of_user store dreq u uid hdu hid]
    split
    · rfl
    · split
      · rfl
      · apply deleteFirst_filter
        intro c hc
        simp only [Bool.and_eq_true, beq_iff_eq] at hc
        exact hc.2

/-- Witness for C28: `userA` reads, sends and deletes on a store that also holds a
conversation of `userB`. -/
theorem no_cross_user_access_witness :
    (∀ item ∈ (getHistory mixedStore (historyReq none none)).conversations,
      ∃ c ∈ mixedStore, c.userId = "u1" ∧ item = selectFields c) ∧
    (getHistory mixedStore (historyReq none none)).pagination.map (fun p => p.total) =
      some (mixedStore.countP (fun c => c.userId == "u1")) ∧
    (∀ r, outMixed.sent = some r →
      r.context.conversation_history = [] ∨
      ∃ c ∈ mixedStore, c.userId = "u1" ∧
        r.context.conversation_history = (jsSlice c.messages (-10)).map roleAndContent) ∧
    outMixed.store.filter (fun x => x.userId != "u1") =
      mixedStore.filter (fun x => x.userId != "u1") ∧
    (deleteConversation mixedStore deleteS2).2.filter (fun x => x.userId != "u1") =
      mixedStore.filter (fun x => x.userId != "u1") :=
  no_cross_user_access env3 mixedStore (.ok payloadA) (sendReq (some (sessionOnly "s1")))
    (historyReq none none) deleteS2 userA "u1" outMixed rfl rfl rfl rfl (by decide) rfl

/-- On the sample store the conversation of `userB` is left alone by the three
operations of `userA`, and is not returned. -/
theorem mixed_store_sample :
    outMixed.response.success = true ∧
    outMixed.store.filter (fun x => x.userId != "u1") = [convOfB] ∧
    (deleteConversation mixedStore deleteS2).1.success = true ∧
    (deleteConversation mixedStore deleteS2).2.filter (fun x => x.userId != "u1") =
      [convOfB] ∧
    (getHistory mixedStore (historyReq none none)).conversations.map (fun i => i._id) =
      ["bbbbbbbbbbbbbbbbbbbbbbbb", "aaaaaaaaaaaaaaaaaaaaaaaa"] := by
  decide

end UniMate
